import Mathlib

/-!
# ChainMaker: the transaction simulation context

A shallow embedding of `module/core/common/scheduler/sim_context.go`
(`txSimContextImpl`): the read set, the write set, the SQL side lists, the
final read/write set, the cross-contract call guard and the handle tables;
with it, the iterator functions of `module/vm/wasi/wasi.go` that use the handle
tables, the `Get`, `Put` and `Del` of the query context
(`module/rpcserver/tx_query_sim_context.go`), and the state key of
`module/store/statedb/statekvdb/statekvdb.go`.

Conventions of the embedding.

* A Go `string` is a sequence of bytes; a Go `[]byte` is `nil` or a sequence of
  bytes (`GoBytes`, `none` standing for `nil`).
* A Go `map[string]*T` is an association list with at most one entry a key; no
  function below depends on the order of its entries except through
  `sort.Strings`, which is applied to the keys exactly where the source does.
* The collaborators of the context (the snapshot, the block store, the VM
  manager) are arguments of the operations that consult them, so that their
  answers may differ from one call to the next.  `Get` returns, next to its Go
  results, the list of `snapshot.GetKey` calls it made.
* `protocol.CallContractDepth` and `protocol.GasLimit` are constants of the
  `protocol` module, which is not part of this repository: they are the two
  fields of `ProtocolConsts`.
* A function that can panic (a `nil` interface called, a slice expression out
  of bounds) returns an `Option`, `none` being the panic.  The fields that the
  interface functions decode from their request are arguments of the model.
-/

namespace Chainmaker

/-! ## Go values -/

/-- One byte. -/
abbrev Byte := Fin 256

/-- Go `string`: an immutable sequence of bytes. -/
abbrev GoString := List Byte

/-- Go `[]byte`; `none` is the `nil` slice. -/
abbrev GoBytes := Option (List Byte)

/-- Go `error` values, identified by their message. -/
abbrev GoError := String

/-- Go conversion `string(b)` of a byte slice (`nil` gives the empty string). -/
def bytesToString : GoBytes → GoString
  | none => []
  | some b => b

/-- Go `len(b)` of a byte slice. -/
def lenBytes : GoBytes → Nat
  | none => 0
  | some b => b.length

/-- Bytes of an ASCII text literal. -/
def asciiBytes (t : String) : GoString :=
  t.toList.map (fun ch => Fin.ofNat ch.toNat)

/-- Go `fmt.Sprintf("%d", n)`. -/
def fmtD (n : Int) : GoString :=
  asciiBytes (toString n)

/-- Go comparison `a < b` of two strings: byte-wise lexicographic. -/
def strLt : GoString → GoString → Bool
  | [], [] => false
  | [], _ :: _ => true
  | _ :: _, [] => false
  | a :: as, b :: bs => decide (a < b) || (decide (a = b) && strLt as bs)

/-- Go comparison `a <= b` of two strings. -/
def strLe (a b : GoString) : Bool :=
  !strLt b a

/-- Go `sort.Strings`: the keys in ascending order of `strLt`.  The library
routine is rendered as an insertion sort; on the distinct keys of a map the
ascending arrangement is unique, whatever the algorithm. -/
def sortStrings (keys : List GoString) : List GoString :=
  List.insertionSort (fun a b => strLe a b = true) keys

/-! ## Go maps -/

/-- Go `map[string]*T`. -/
abbrev GoMap (α : Type) := List (GoString × α)

/-- Go `v, ok := m[k]`. -/
def mapLookup {α : Type} : GoMap α → GoString → Option α
  | [], _ => none
  | (k', v) :: m, k => if k' = k then some v else mapLookup m k

/-- Go `m[k] = v`. -/
def mapSet {α : Type} : GoMap α → GoString → α → GoMap α
  | [], k, v => [(k, v)]
  | (k', v') :: m, k, v => if k' = k then (k, v) :: m else (k', v') :: mapSet m k v

/-- The keys of a map, as `for k := range m` visits them. -/
def mapKeys {α : Type} (m : GoMap α) : List GoString :=
  m.map Prod.fst

/-- The values of a map. -/
def mapValues {α : Type} (m : GoMap α) : List α :=
  m.map Prod.snd

/-! ## Protocol buffers messages (`pb-go/v2/common`) -/

/-- The `commonpb.KeyVersion` message. -/
structure KeyVersion where
  RefTxId : GoString
  RefOffset : Int
deriving DecidableEq, Repr

/-- The `commonpb.TxRead` message. -/
structure TxRead where
  Key : GoBytes
  Value : GoBytes
  ContractName : GoString
  Version : Option KeyVersion
deriving DecidableEq, Repr

/-- The `commonpb.TxWrite` message. -/
structure TxWrite where
  Key : GoBytes
  Value : GoBytes
  ContractName : GoString
deriving DecidableEq, Repr

/-- The `commonpb.TxRWSet` message. -/
structure TxRWSet where
  TxId : GoString
  TxReads : List TxRead
  TxWrites : List TxWrite
deriving DecidableEq, Repr

/-- The `commonpb.Payload` message, as far as the context reads it. -/
structure Payload where
  TxId : GoString
deriving DecidableEq, Repr

/-- The `commonpb.Transaction` message, as far as the context reads it. -/
structure Transaction where
  Payload : Payload
deriving DecidableEq, Repr

/-- The `commonpb.Contract` message, as far as the context reads it. -/
structure Contract where
  Name : GoString
deriving DecidableEq, Repr

/-- The `commonpb.ContractResult` message. -/
structure ContractResult where
  Code : Nat
  Result : GoBytes
  Message : GoString
  GasUsed : Nat
deriving DecidableEq, Repr

/-- The `commonpb.TxStatusCode` values the context returns itself, and the
others, which only the VM manager produces. -/
inductive TxStatusCode where
  | SUCCESS
  | CONTRACT_FAIL
  | CONTRACT_TOO_DEEP_FAILED
  | OTHER (code : Nat)
deriving DecidableEq, Repr

/-- The `commonpb.TxType` enumeration, by number. -/
abbrev TxType := Nat

/-- The `protocol.SqlType` enumeration. -/
inductive SqlType where
  | SqlTypeDdl
  | SqlTypeDml
  | SqlTypeDql
deriving DecidableEq, Repr

/-- The two constants of the `protocol` module that `CallContract` compares
against. -/
structure ProtocolConsts where
  CallContractDepth : Int
  GasLimit : Nat
deriving DecidableEq, Repr

/-! ## Iterators and handle tables -/

/-- A `protocol.StateIterator` of the store, an object outside the context,
identified by a number. -/
structure StateIterator where
  id : Nat
deriving DecidableEq, Repr

/-- A `protocol.SqlRows` result set, an object outside the context, identified
by a number. -/
structure SqlRows where
  id : Nat
deriving DecidableEq, Repr

/-- Go `map[int32]T`, the type of the two handle tables. -/
abbrev HandleMap (α : Type) := List (Int × α)

/-- Go `v, ok := m[i]` on a handle table. -/
def handleLookup {α : Type} : HandleMap α → Int → Option α
  | [], _ => none
  | (j, v) :: m, i => if j = i then some v else handleLookup m i

/-- Go `m[i] = v` on a handle table. -/
def handleSet {α : Type} : HandleMap α → Int → α → HandleMap α
  | [], i, v => [(i, v)]
  | (j, w) :: m, i, v => if j = i then (i, v) :: m else (j, w) :: handleSet m i v

/-! ## The simulation context -/

/-- The `callContractResult` struct: one entry of the call chain. -/
structure CallContractResult where
  contractName : GoString
  method : GoString
  param : GoMap GoBytes
  depth : Int
  gasUsed : Nat
  result : GoBytes
deriving DecidableEq, Repr

/-- The `txSimContextImpl` struct.  The `snapshot` and `vmManager` fields are
arguments of the operations that use them.  A handle table holds interface
values, which may be `nil` (`none`). -/
structure TxSimContextImpl where
  txExecSeq : Int
  txRWSet : Option TxRWSet
  tx : Transaction
  txReadKeyMap : GoMap TxRead
  txWriteKeyMap : GoMap TxWrite
  txWriteKeySql : List TxWrite
  txWriteKeyDdlSql : List TxWrite
  gasUsed : Nat
  currentDepth : Int
  currentResult : GoBytes
  hisResult : List CallContractResult
  sqlRowCache : HandleMap (Option SqlRows)
  kvRowCache : HandleMap (Option StateIterator)
deriving DecidableEq, Repr

/-- The read view `protocol.Snapshot`, as far as the context calls it:
`GetKey`, and `GetBlockchainStore().GetContractBytecode`. -/
structure Snapshot where
  GetKey : Int → GoString → GoBytes → GoBytes × Option GoError
  GetContractBytecode : GoString → GoBytes × Option GoError

/-- One call of `snapshot.GetKey`, with its arguments. -/
structure GetKeyCall where
  txExecSeq : Int
  contractName : GoString
  key : GoBytes
deriving DecidableEq, Repr

/-- Source `constructKey`. -/
def constructKey (contractName : GoString) (key : GoBytes) : GoString :=
  contractName ++ bytesToString key

/-- Source `putIntoReadSet`. -/
def putIntoReadSet (s : TxSimContextImpl) (contractName : GoString) (key value : GoBytes) :
    TxSimContextImpl :=
  let txRead : TxRead :=
    { Key := key, Value := value, ContractName := contractName, Version := none }
  { s with txReadKeyMap := mapSet s.txReadKeyMap (constructKey contractName key) txRead }

/-- Source `putIntoWriteSet`. -/
def putIntoWriteSet (s : TxSimContextImpl) (contractName : GoString) (key value : GoBytes) :
    TxSimContextImpl :=
  let txWrite : TxWrite := { Key := key, Value := value, ContractName := contractName }
  { s with txWriteKeyMap := mapSet s.txWriteKeyMap (constructKey contractName key) txWrite }

/-- Source `getFromReadSet`. -/
def getFromReadSet (s : TxSimContextImpl) (contractName : GoString) (key : GoBytes) :
    GoBytes × Bool :=
  match mapLookup s.txReadKeyMap (constructKey contractName key) with
  | some txRead => (txRead.Value, true)
  | none => (none, false)

/-- Source `getFromWriteSet`. -/
def getFromWriteSet (s : TxSimContextImpl) (contractName : GoString) (key : GoBytes) :
    GoBytes × Bool :=
  match mapLookup s.txWriteKeyMap (constructKey contractName key) with
  | some txWrite => (txWrite.Value, true)
  | none => (none, false)

/-- What `Get` returns: the Go results `(value, err)`, the context after the
call, and the `snapshot.GetKey` calls made. -/
structure GetReturn where
  value : GoBytes
  err : Option GoError
  ctx : TxSimContextImpl
  snapshotCalls : List GetKeyCall

/-- Source `txSimContextImpl.Get`. -/
def Get (s : TxSimContextImpl) (snapshot : Snapshot) (contractName : GoString) (key : GoBytes) :
    GetReturn :=
  match getFromWriteSet s contractName key with
  | (value, true) =>
    { value := value, err := none, ctx := putIntoReadSet s contractName key value,
      snapshotCalls := [] }
  | (_, false) =>
    match getFromReadSet s contractName key with
    | (value, true) => { value := value, err := none, ctx := s, snapshotCalls := [] }
    | (_, false) =>
      match snapshot.GetKey s.txExecSeq contractName key with
      | (_, some err) =>
        { value := none, err := some err, ctx := s,
          snapshotCalls := [⟨s.txExecSeq, contractName, key⟩] }
      | (value, none) =>
        { value := value, err := none, ctx := putIntoReadSet s contractName key value,
          snapshotCalls := [⟨s.txExecSeq, contractName, key⟩] }

/-- Source `txSimContextImpl.Put`: the Go result `error` and the context after
the call. -/
def Put (s : TxSimContextImpl) (contractName : GoString) (key value : GoBytes) :
    Option GoError × TxSimContextImpl :=
  (none, putIntoWriteSet s contractName key value)

/-- Source `txSimContextImpl.Del`. -/
def Del (s : TxSimContextImpl) (contractName : GoString) (key : GoBytes) :
    Option GoError × TxSimContextImpl :=
  (none, putIntoWriteSet s contractName key none)

/-- Source `txSimContextImpl.PutRecord`. -/
def PutRecord (s : TxSimContextImpl) (contractName : GoString) (value : GoBytes)
    (sqlType : SqlType) : TxSimContextImpl :=
  let txWrite : TxWrite := { Key := none, Value := value, ContractName := contractName }
  let s1 := { s with txWriteKeySql := s.txWriteKeySql ++ [txWrite] }
  if sqlType = SqlType.SqlTypeDdl then
    { s1 with txWriteKeyDdlSql := s1.txWriteKeyDdlSql ++ [txWrite] }
  else
    s1

/-- Source `txSimContextImpl.GetTxRWSet`: the returned set and the context
after the call (the set is kept in `txRWSet`).  Each loop collects the keys of
a map, sorts them and appends the entry of every key in turn; the keys come
from the map itself, so every lookup finds its entry. -/
def GetTxRWSet (s : TxSimContextImpl) (runVmSuccess : Bool) : TxRWSet × TxSimContextImpl :=
  match s.txRWSet with
  | some rw => (rw, s)
  | none =>
    let txReads : List TxRead :=
      (sortStrings (mapKeys s.txReadKeyMap)).filterMap (fun k => mapLookup s.txReadKeyMap k)
    let txWrites : List TxWrite :=
      if runVmSuccess then
        (sortStrings (mapKeys s.txWriteKeyMap)).filterMap (fun k => mapLookup s.txWriteKeyMap k)
          ++ s.txWriteKeySql
      else
        s.txWriteKeyDdlSql
    let rw : TxRWSet := { TxId := s.tx.Payload.TxId, TxReads := txReads, TxWrites := txWrites }
    (rw, { s with txRWSet := some rw })

/-- One call of `vmManager.RunContract`, with its arguments (the context
argument is the receiver itself). -/
structure RunContractCall where
  contract : Contract
  method : GoString
  byteCode : GoBytes
  parameter : GoMap GoBytes
  gasUsed : Nat
  refTxType : TxType
deriving DecidableEq, Repr

/-- The `protocol.VmManager`, as far as the context calls it: `RunContract`
answers with a result, a status, and the context as the contract's own calls
on it have left it.  The result is a message, never `nil`: the source reads
`r.Result` unconditionally. -/
abbrev VmManager :=
  RunContractCall → TxSimContextImpl → (ContractResult × TxStatusCode) × TxSimContextImpl

/-- What `CallContract` returns: the Go results (a `nil`-able result and a
status), the context after the call, and the `vmManager.RunContract` calls this
call made itself. -/
structure CallContractReturn where
  result : Option ContractResult
  code : TxStatusCode
  ctx : TxSimContextImpl
  vmCalls : List RunContractCall

/-- The bytecode step of `CallContract` (`if len(byteCode) == 0 ...`): the
bytecode to run is the one supplied or, when none is supplied, the one that
`GetContractBytecode` finds for the contract; `none` when that lookup returns
an error. -/
def lookupByteCode (snapshot : Snapshot) (contract : Contract) (byteCode : GoBytes) :
    Option GoBytes :=
  if lenBytes byteCode = 0 then
    match snapshot.GetContractBytecode contract.Name with
    | (_, some _) => none
    | (dbByteCode, none) => some dbByteCode
  else
    some byteCode

/-- Source `txSimContextImpl.CallContract`. -/
def CallContract (P : ProtocolConsts) (s : TxSimContextImpl) (snapshot : Snapshot)
    (vmManager : VmManager) (contract : Contract) (method : GoString) (byteCode : GoBytes)
    (parameter : GoMap GoBytes) (gasUsed : Nat) (refTxType : TxType) : CallContractReturn :=
  let s1 := { s with gasUsed := gasUsed }
  let s2 := { s1 with currentDepth := s1.currentDepth + 1 }
  if s2.currentDepth > P.CallContractDepth then
    let contractResult : ContractResult :=
      { Code := 1, Result := none,
        Message := asciiBytes "CallContract too depth " ++ fmtD s2.currentDepth, GasUsed := 0 }
    { result := some contractResult, code := TxStatusCode.CONTRACT_TOO_DEEP_FAILED, ctx := s2,
      vmCalls := [] }
  else if s2.gasUsed > P.GasLimit then
    let contractResult : ContractResult :=
      { Code := 1, Result := none,
        Message := asciiBytes "There is not enough gas, gasUsed " ++ fmtD gasUsed
          ++ asciiBytes " GasLimit " ++ fmtD P.GasLimit ++ asciiBytes " ",
        GasUsed := 0 }
    { result := some contractResult, code := TxStatusCode.CONTRACT_FAIL, ctx := s2,
      vmCalls := [] }
  else
    match lookupByteCode snapshot contract byteCode with
    | none => { result := none, code := TxStatusCode.CONTRACT_FAIL, ctx := s2, vmCalls := [] }
    | some byteCode1 =>
      let call : RunContractCall :=
        { contract := contract, method := method, byteCode := byteCode1,
          parameter := parameter, gasUsed := s2.gasUsed, refTxType := refTxType }
      match vmManager call s2 with
      | ((r, code), s3) =>
        let result : CallContractResult :=
          { depth := s3.currentDepth, gasUsed := s3.gasUsed, result := r.Result,
            contractName := contract.Name, method := method, param := parameter }
        let s4 := { s3 with hisResult := s3.hisResult ++ [result], currentResult := r.Result,
                            currentDepth := s3.currentDepth - 1 }
        { result := some r, code := code, ctx := s4, vmCalls := [call] }

/-- Source `txSimContextImpl.GetDepth`. -/
def GetDepth (s : TxSimContextImpl) : Int :=
  s.currentDepth

/-- Source `txSimContextImpl.GetCurrentResult`. -/
def GetCurrentResult (s : TxSimContextImpl) : GoBytes :=
  s.currentResult

/-! ## Sequences of state accesses -/

/-- One state access of a contract on its context.  A `get` carries the
snapshot it would be answered from, so that the snapshot may change between two
accesses. -/
inductive Op where
  | get (snapshot : Snapshot) (contractName : GoString) (key : GoBytes)
  | put (contractName : GoString) (key value : GoBytes)
  | del (contractName : GoString) (key : GoBytes)
  | putRecord (contractName : GoString) (value : GoBytes) (sqlType : SqlType)

/-- The context after one access. -/
def applyOp (s : TxSimContextImpl) : Op → TxSimContextImpl
  | Op.get snapshot c k => (Get s snapshot c k).ctx
  | Op.put c k v => (Put s c k v).2
  | Op.del c k => (Del s c k).2
  | Op.putRecord c v t => PutRecord s c v t

/-- The `snapshot.GetKey` calls of one access. -/
def opSnapshotCalls (s : TxSimContextImpl) : Op → List GetKeyCall
  | Op.get snapshot c k => (Get s snapshot c k).snapshotCalls
  | _ => []

/-- The context after a sequence of accesses, first to last. -/
def applyOps (s : TxSimContextImpl) : List Op → TxSimContextImpl
  | [] => s
  | op :: ops => applyOps (applyOp s op) ops

/-- The `snapshot.GetKey` calls of a sequence of accesses, in order. -/
def opsSnapshotCalls (s : TxSimContextImpl) : List Op → List GetKeyCall
  | [] => []
  | op :: ops => opSnapshotCalls s op ++ opsSnapshotCalls (applyOp s op) ops

/-- A context for transaction `tx` with nothing recorded: empty read and write
sets, no SQL record, no cached read/write set, no gas, depth 0. -/
def newContext (txExecSeq : Int) (tx : Transaction) : TxSimContextImpl :=
  { txExecSeq := txExecSeq, txRWSet := none, tx := tx, txReadKeyMap := [], txWriteKeyMap := [],
    txWriteKeySql := [], txWriteKeyDdlSql := [], gasUsed := 0, currentDepth := 0,
    currentResult := none, hisResult := [], sqlRowCache := [], kvRowCache := [] }

/-- A snapshot in which every key holds the same value and every contract the
same bytecode. -/
def constSnapshot (value byteCode : GoBytes) : Snapshot :=
  { GetKey := fun _ _ _ => (value, none), GetContractBytecode := fun _ => (byteCode, none) }

/-- A snapshot whose every answer is an error. -/
def failingSnapshot (err : GoError) : Snapshot :=
  { GetKey := fun _ _ _ => (none, some err), GetContractBytecode := fun _ => (none, some err) }

/-- A VM manager that answers every call with the same result and status and
makes no call on the context. -/
def constVm (r : ContractResult) (code : TxStatusCode) : VmManager :=
  fun _ s => ((r, code), s)

/-- A transaction with the given identifier. -/
def txOf (txId : GoString) : Transaction :=
  { Payload := { TxId := txId } }

/-! ## Predicates on accesses -/

/-- The access is a `Put` or a `Del` on the pair `(c, k)`. -/
def writesPair (c : GoString) (k : GoBytes) : Op → Bool
  | Op.put c1 k1 _ => decide (c1 = c ∧ k1 = k)
  | Op.del c1 k1 => decide (c1 = c ∧ k1 = k)
  | _ => false

/-- The access is a `Put` or a `Del` whose write item is stored under the
composite key `K`. -/
def writesKey (K : GoString) : Op → Bool
  | Op.put c1 k1 _ => decide (constructKey c1 k1 = K)
  | Op.del c1 k1 => decide (constructKey c1 k1 = K)
  | _ => false

/-- The write item that the last `Put` or `Del` of the sequence stores under the
composite key `K`: the value of that `Put`, or `nil` for a `Del`; `none` when
the sequence has no `Put` or `Del` with that composite key. -/
def lastWrite (K : GoString) : List Op → Option TxWrite
  | [] => none
  | op :: ops =>
    match lastWrite K ops with
    | some w => some w
    | none =>
      match op with
      | Op.put c k v =>
        if constructKey c k = K then some { Key := k, Value := v, ContractName := c } else none
      | Op.del c k =>
        if constructKey c k = K then some { Key := k, Value := none, ContractName := c } else none
      | _ => none

/-- The writes of the `PutRecord` calls of a sequence, in call order. -/
def recordWrites : List Op → List TxWrite
  | [] => []
  | Op.putRecord c v _ :: ops => { Key := none, Value := v, ContractName := c } :: recordWrites ops
  | _ :: ops => recordWrites ops

/-- The writes of the `PutRecord` calls of kind DDL of a sequence, in call
order. -/
def ddlRecordWrites : List Op → List TxWrite
  | [] => []
  | Op.putRecord c v SqlType.SqlTypeDdl :: ops =>
    { Key := none, Value := v, ContractName := c } :: ddlRecordWrites ops
  | _ :: ops => ddlRecordWrites ops

/-- The composite key of a read item. -/
def readKey (r : TxRead) : GoString :=
  constructKey r.ContractName r.Key

/-- The composite key of a write item. -/
def writeKey (w : TxWrite) : GoString :=
  constructKey w.ContractName w.Key

/-- A Go map of items in which every entry is stored under the key that
`keyOf` gives its item, one entry a key. -/
def MapWF {α : Type} (keyOf : α → GoString) (m : GoMap α) : Prop :=
  (mapKeys m).Nodup ∧ ∀ p ∈ m, p.1 = keyOf p.2

/-! ## The handle tables of the context and `Select` -/

/-- Source `txSimContextImpl.SetStateSqlHandle`. -/
def SetStateSqlHandle (s : TxSimContextImpl) (index : Int) (rows : Option SqlRows) :
    TxSimContextImpl :=
  { s with sqlRowCache := handleSet s.sqlRowCache index rows }

/-- Source `txSimContextImpl.GetStateSqlHandle`. -/
def GetStateSqlHandle (s : TxSimContextImpl) (index : Int) : Option SqlRows × Bool :=
  match handleLookup s.sqlRowCache index with
  | some data => (data, true)
  | none => (none, false)

/-- Source `txSimContextImpl.SetStateKvHandle`. -/
def SetStateKvHandle (s : TxSimContextImpl) (index : Int) (rows : Option StateIterator) :
    TxSimContextImpl :=
  { s with kvRowCache := handleSet s.kvRowCache index rows }

/-- Source `txSimContextImpl.GetStateKvHandle`. -/
def GetStateKvHandle (s : TxSimContextImpl) (index : Int) : Option StateIterator × Bool :=
  match handleLookup s.kvRowCache index with
  | some data => (data, true)
  | none => (none, false)

/-- The `protocol.BlockchainStore`, as far as `Select` and the query context
call it. -/
structure BlockchainStore where
  ReadObject : GoString → GoBytes → GoBytes × Option GoError
  SelectObject : GoString → GoBytes → GoBytes → Option StateIterator × Option GoError

/-- Source `txSimContextImpl.Select`, `store` being
`s.snapshot.GetBlockchainStore()`: the Go results and the context after the
call. -/
def Select (s : TxSimContextImpl) (store : BlockchainStore) (contractName : GoString)
    (startKey limit : GoBytes) : (Option StateIterator × Option GoError) × TxSimContextImpl :=
  (store.SelectObject contractName startKey limit, s)

/-! ## The WebAssembly system interface (`module/vm/wasi/wasi.go`): iterators -/

/-- Go conversion `int32(x)` and `int32` arithmetic: the value modulo `2^32`, in
the range from `-2^31` to `2^31 - 1`. -/
def wrapInt32 (x : Int) : Int :=
  (x + 2147483648) % 4294967296 - 2147483648

/-- Go `copy(memory[lo:hi], src)`: the memory after the copy, or `none` when the
slice expression panics.  The capacity of `memory` is taken to be its length. -/
def copyAt (memory : List Byte) (lo hi : Int) (src : List Byte) : Option (List Byte) :=
  if 0 ≤ lo ∧ lo ≤ hi ∧ hi ≤ memory.length then
    some (memory.take lo.toNat ++ src.take (min (hi - lo).toNat src.length)
      ++ memory.drop (lo.toNat + min (hi - lo).toNat src.length))
  else
    none

/-- Go `strings.Split(s, sep)` for a one-byte separator. -/
def splitOn (sep : Byte) : GoString → List GoString
  | [] => [[]]
  | b :: rest =>
    if b = sep then [] :: splitOn sep rest
    else
      match splitOn sep rest with
      | [] => [[b]]
      | h :: t => (b :: h) :: t

/-- The `storePb.KV` message that an iterator yields. -/
structure KV where
  ContractName : GoString
  Key : GoBytes
  Value : GoBytes
deriving DecidableEq, Repr

/-- What the interface takes from outside this repository's sources at hand:
`utils.IntToBytes`, `protocol.CheckKeyFieldStr`, `protocol.GetKeyStr`, the
`serialize.EasyCodec` encodings (of the items `key`, `field`, `value`; of no
item; of a row of columns), and the answer of `isSupportSql` for the chain. -/
structure WasiEnv where
  IntToBytes : Int → List Byte
  CheckKeyFieldStr : GoString → GoString → Option GoError
  GetKeyStr : GoString → GoString → GoBytes
  marshalKv : GoString → GoString → GoBytes → List Byte
  marshalEmpty : List Byte
  marshalRow : GoMap GoBytes → List Byte
  isSupportSql : Bool

/-- The answers of the iterators and result sets to the calls made on them. -/
structure IterWorld where
  Next : StateIterator → Bool
  Value : StateIterator → Option KV × Option GoError
  rowsNext : SqlRows → Bool
  rowsData : SqlRows → GoMap GoBytes × Option GoError
  rowsClose : SqlRows → Option GoError

/-- A call made on an iterator or on a result set. -/
inductive HandleCall where
  | kvNext (it : StateIterator)
  | kvValue (it : StateIterator)
  | kvRelease (it : StateIterator)
  | rowsNext (rows : SqlRows)
  | rowsData (rows : SqlRows)
  | rowsClose (rows : SqlRows)
deriving DecidableEq, Repr

/-- What a function of the interface returns: the Go results (`data` for those
that return bytes, and the error), the memory and the context after the call,
and the calls made on iterators and result sets. -/
structure WasiReturn where
  data : GoBytes
  err : Option GoError
  memory : List Byte
  ctx : TxSimContextImpl
  calls : List HandleCall
deriving DecidableEq, Repr

/-- Source `WacsiImpl.KvIteratorHasNext`; `kvIndex` and `valuePtr` are the
fields `rs_index` and `value_ptr` of the request.  `none` is a panic. -/
def KvIteratorHasNext (env : WasiEnv) (world : IterWorld) (s : TxSimContextImpl)
    (memory : List Byte) (kvIndex valuePtr : Int) : Option WasiReturn :=
  match GetStateKvHandle s kvIndex with
  | (_, false) =>
    some { data := none,
           err := some ("[kv iterator has next] can not found rs_index[" ++ toString kvIndex
             ++ "]"),
           memory := memory, ctx := s, calls := [] }
  | (none, true) => none
  | (some kvRows, true) =>
    let index : Int := if world.Next kvRows then 1 else 0
    match copyAt memory valuePtr (wrapInt32 (valuePtr + 4)) (env.IntToBytes (wrapInt32 index)) with
    | none => none
    | some memory1 =>
      some { data := none, err := none, memory := memory1, ctx := s,
             calls := [HandleCall.kvNext kvRows] }

/-- Source `WacsiImpl.KvIteratorNext`; `kvIndex` and `ptr` are the fields
`rs_index` and `value_ptr` of the request.  `none` is a panic. -/
def KvIteratorNext (env : WasiEnv) (world : IterWorld) (s : TxSimContextImpl)
    (memory : List Byte) (data : GoBytes) (kvIndex ptr : Int) (isLen : Bool) :
    Option WasiReturn :=
  match GetStateKvHandle s kvIndex with
  | (_, false) =>
    some { data := none,
           err := some ("[kv iterator next] can not found rs_index[" ++ toString kvIndex ++ "]"),
           memory := memory, ctx := s, calls := [] }
  | (kvRows, true) =>
    if !isLen then
      match copyAt memory ptr (wrapInt32 (ptr + wrapInt32 (lenBytes data)))
          (bytesToString data) with
      | none => none
      | some memory1 => some { data := none, err := none, memory := memory1, ctx := s, calls := [] }
    else
      match kvRows with
      | none =>
        match copyAt memory ptr (wrapInt32 (ptr + 4))
            (env.IntToBytes (wrapInt32 env.marshalEmpty.length)) with
        | none => none
        | some memory1 =>
          some { data := some env.marshalEmpty, err := none, memory := memory1, ctx := s,
                 calls := [] }
      | some it =>
        match world.Value it with
        | (_, some err) =>
          some { data := none,
                 err := some ("[kv iterator next] iterator next data error, " ++ err),
                 memory := memory, ctx := s, calls := [HandleCall.kvValue it] }
        | (none, none) => none
        | (some kvRow, none) =>
          let arrKey := splitOn 35 (bytesToString kvRow.Key)
          let key := arrKey.headD []
          let field := if arrKey.length > 1 then arrKey.getD 1 [] else []
          let kvBytes := env.marshalKv key field kvRow.Value
          match copyAt memory ptr (wrapInt32 (ptr + 4))
              (env.IntToBytes (wrapInt32 kvBytes.length)) with
          | none => none
          | some memory1 =>
            some { data := some kvBytes, err := none, memory := memory1, ctx := s,
                   calls := [HandleCall.kvValue it] }

/-- Source `WacsiImpl.KvIteratorClose`; `kvIndex` and `valuePtr` are the fields
`rs_index` and `value_ptr` of the request.  `none` is a panic. -/
def KvIteratorClose (env : WasiEnv) (s : TxSimContextImpl) (memory : List Byte)
    (kvIndex valuePtr : Int) : Option WasiReturn :=
  match GetStateKvHandle s kvIndex with
  | (_, false) =>
    some { data := none,
           err := some ("[kv iterator close] ctx can not found rs_index[" ++ toString kvIndex
             ++ "]"),
           memory := memory, ctx := s, calls := [] }
  | (none, true) => none
  | (some kvRows, true) =>
    match copyAt memory valuePtr (wrapInt32 (valuePtr + 4)) (env.IntToBytes 1) with
    | none => none
    | some memory1 =>
      some { data := none, err := none, memory := memory1, ctx := s,
             calls := [HandleCall.kvRelease kvRows] }

/-- Source `WacsiImpl.RSHasNext`; `rsIndex` and `valuePtr` are the fields
`rs_index` and `value_ptr` of the request.  `none` is a panic. -/
def RSHasNext (env : WasiEnv) (world : IterWorld) (s : TxSimContextImpl)
    (memory : List Byte) (rsIndex valuePtr : Int) : Option WasiReturn :=
  if !env.isSupportSql then
    some { data := none,
           err := some "not support sql, you must set chainConfig[contract.enable_sql_support=true]",
           memory := memory, ctx := s, calls := [] }
  else
    match GetStateSqlHandle s rsIndex with
    | (_, false) =>
      some { data := none,
             err := some ("[rs has next] ctx can not found rs_index[" ++ toString rsIndex ++ "]"),
             memory := memory, ctx := s, calls := [] }
    | (none, true) => none
    | (some rows, true) =>
      let index : Int := if world.rowsNext rows then 1 else 0
      match copyAt memory valuePtr (wrapInt32 (valuePtr + 4))
          (env.IntToBytes (wrapInt32 index)) with
      | none => none
      | some memory1 =>
        some { data := none, err := none, memory := memory1, ctx := s,
               calls := [HandleCall.rowsNext rows] }

/-- Source `WacsiImpl.RSNext`; `rsIndex` and `ptr` are the fields `rs_index`
and `value_ptr` of the request.  `none` is a panic. -/
def RSNext (env : WasiEnv) (world : IterWorld) (s : TxSimContextImpl) (memory : List Byte)
    (data : GoBytes) (rsIndex ptr : Int) (isLen : Bool) : Option WasiReturn :=
  if !env.isSupportSql then
    some { data := none,
           err := some "not support sql, you must set chainConfig[contract.enable_sql_support=true]",
           memory := memory, ctx := s, calls := [] }
  else
    match GetStateSqlHandle s rsIndex with
    | (_, false) =>
      some { data := none,
             err := some ("[rs next] ctx can not found rs_index[" ++ toString rsIndex ++ "]"),
             memory := memory, ctx := s, calls := [] }
    | (rows, true) =>
      if isLen then
        let fetched : (GoMap GoBytes × Option GoError) × List HandleCall :=
          match rows with
          | none => (([], none), [])
          | some r => (world.rowsData r, [HandleCall.rowsData r])
        match fetched with
        | ((_, some err), calls) =>
          some { data := none, err := some ("[rs next] query next data error, " ++ err),
                 memory := memory, ctx := s, calls := calls }
        | ((dataRow, none), calls) =>
          let rsBytes := env.marshalRow dataRow
          match copyAt memory ptr (wrapInt32 (ptr + 4))
              (env.IntToBytes (wrapInt32 rsBytes.length)) with
          | none => none
          | some memory1 =>
            if rsBytes.length = 0 then
              some { data := none, err := none, memory := memory1, ctx := s, calls := calls }
            else
              some { data := some rsBytes, err := none, memory := memory1, ctx := s,
                     calls := calls }
      else
        if lenBytes data > 0 then
          match copyAt memory ptr (wrapInt32 (ptr + wrapInt32 (lenBytes data)))
              (bytesToString data) with
          | none => none
          | some memory1 =>
            some { data := none, err := none, memory := memory1, ctx := s, calls := [] }
        else
          some { data := none, err := none, memory := memory, ctx := s, calls := [] }

/-- Source `WacsiImpl.RSClose`; `rsIndex` and `valuePtr` are the fields
`rs_index` and `value_ptr` of the request.  `none` is a panic. -/
def RSClose (env : WasiEnv) (world : IterWorld) (s : TxSimContextImpl) (memory : List Byte)
    (rsIndex valuePtr : Int) : Option WasiReturn :=
  if !env.isSupportSql then
    some { data := none,
           err := some "not support sql, you must set chainConfig[contract.enable_sql_support=true]",
           memory := memory, ctx := s, calls := [] }
  else
    match GetStateSqlHandle s rsIndex with
    | (_, false) =>
      some { data := none,
             err := some ("[rs close] ctx can not found rs_index[" ++ toString rsIndex ++ "]"),
             memory := memory, ctx := s, calls := [] }
    | (none, true) => none
    | (some rows, true) =>
      match world.rowsClose rows with
      | some err =>
        some { data := none, err := some ("[rs close] close rows error, [" ++ err ++ "]"),
               memory := memory, ctx := s, calls := [HandleCall.rowsClose rows] }
      | none =>
        match copyAt memory valuePtr (wrapInt32 (valuePtr + 4)) (env.IntToBytes 1) with
        | none => none
        | some memory1 =>
          some { data := none, err := none, memory := memory1, ctx := s,
                 calls := [HandleCall.rowsClose rows] }

/-- What `KvIterator` returns: the error, the memory, the context and the row
counter `w.rowIndex` after the call. -/
structure KvIteratorReturn where
  err : Option GoError
  memory : List Byte
  ctx : TxSimContextImpl
  rowIndex : Int
deriving DecidableEq, Repr

/-- Source `WacsiImpl.KvIterator`; `startKey` to `valuePtr` are the fields of
the request, `rowIndex` is `w.rowIndex` before the call, `store` the block
store behind the context.  `none` is a panic. -/
def KvIterator (env : WasiEnv) (store : BlockchainStore) (s : TxSimContextImpl)
    (memory : List Byte) (rowIndex : Int) (contractName : GoString)
    (startKey startField limitKey limitField : GoString) (valuePtr : Int) :
    Option KvIteratorReturn :=
  match env.CheckKeyFieldStr startKey startField with
  | some err => some { err := some err, memory := memory, ctx := s, rowIndex := rowIndex }
  | none =>
    match env.CheckKeyFieldStr limitKey limitField with
    | some err => some { err := some err, memory := memory, ctx := s, rowIndex := rowIndex }
    | none =>
      let key := env.GetKeyStr startKey startField
      let limit := env.GetKeyStr limitKey limitField
      match Select s store contractName key limit with
      | ((_, some err), s1) =>
        some { err := some ("[kv iterator] select error, " ++ err), memory := memory, ctx := s1,
               rowIndex := rowIndex }
      | ((iter, none), s1) =>
        let index := wrapInt32 (rowIndex + 1)
        let s2 := SetStateKvHandle s1 index iter
        match copyAt memory valuePtr (wrapInt32 (valuePtr + 4)) (env.IntToBytes index) with
        | none => none
        | some memory1 => some { err := none, memory := memory1, ctx := s2, rowIndex := index }

/-- One registration of a handle on the context. -/
inductive Reg where
  | kv (index : Int) (rows : Option StateIterator)
  | sql (index : Int) (rows : Option SqlRows)
deriving DecidableEq, Repr

/-- The context after one registration. -/
def applyReg (s : TxSimContextImpl) : Reg → TxSimContextImpl
  | Reg.kv i rows => SetStateKvHandle s i rows
  | Reg.sql i rows => SetStateSqlHandle s i rows

/-- The context after a sequence of registrations, first to last. -/
def applyRegs (s : TxSimContextImpl) : List Reg → TxSimContextImpl
  | [] => s
  | r :: rest => applyRegs (applyReg s r) rest

/-- The iterator of the last `SetStateKvHandle` of the sequence for index `i`;
`none` when the sequence has none for `i`. -/
def lastKvReg (i : Int) : List Reg → Option (Option StateIterator)
  | [] => none
  | r :: rest =>
    match lastKvReg i rest with
    | some it => some it
    | none =>
      match r with
      | Reg.kv j it => if j = i then some it else none
      | Reg.sql _ _ => none

/-- The result set of the last `SetStateSqlHandle` of the sequence for index
`i`; `none` when the sequence has none for `i`. -/
def lastSqlReg (i : Int) : List Reg → Option (Option SqlRows)
  | [] => none
  | r :: rest =>
    match lastSqlReg i rest with
    | some rows => some rows
    | none =>
      match r with
      | Reg.sql j rows => if j = i then some rows else none
      | Reg.kv _ _ => none

/-- A four-byte little-endian rendering of an `int32`, one `IntToBytes`. -/
def leBytes32 (x : Int) : List Byte :=
  [Fin.ofNat (x % 256).toNat, Fin.ofNat ((x / 256) % 256).toNat,
   Fin.ofNat ((x / 65536) % 256).toNat, Fin.ofNat ((x / 16777216) % 256).toNat]

/-- An environment for concrete runs: every key passes the check, a key and its
field are joined by `#`, the encodings are the plain concatenations, SQL support
as given. -/
def sampleEnv (sql : Bool) : WasiEnv :=
  { IntToBytes := leBytes32,
    CheckKeyFieldStr := fun _ _ => none,
    GetKeyStr := fun k f => some (k ++ [35] ++ f),
    marshalKv := fun k f v => k ++ f ++ bytesToString v,
    marshalEmpty := [],
    marshalRow := fun row => (row.map (fun p => p.1 ++ bytesToString p.2)).flatten,
    isSupportSql := sql }

/-- Iterators and result sets that are exhausted and close without error. -/
def quietWorld : IterWorld :=
  { Next := fun _ => false, Value := fun _ => (some ⟨[], some [], none⟩, none),
    rowsNext := fun _ => false, rowsData := fun _ => ([], none), rowsClose := fun _ => none }

/-- A store whose every range read yields the iterator `it` and whose every
object is `value`. -/
def constStore (value : GoBytes) (it : StateIterator) : BlockchainStore :=
  { ReadObject := fun _ _ => (value, none), SelectObject := fun _ _ _ => (some it, none) }

/-! ## The query context (`module/rpcserver/tx_query_sim_context.go`) -/

/-- The `txQuerySimContextImpl` struct, as far as `Get`, `Put`, `Del` and
`CallContract` use it.  The `blockchainStore` and `vmManager` fields are
arguments of the operations that use them. -/
structure TxQuerySimContextImpl where
  tx : Transaction
  txReadKeyMap : GoMap TxRead
  txWriteKeyMap : GoMap TxWrite
  txWriteKeySql : List TxWrite
  txWriteKeyDdlSql : List TxWrite
  gasUsed : Nat
  currentDepth : Int
  currentResult : GoBytes
  hisResult : List CallContractResult
deriving DecidableEq, Repr

namespace TxQuery

/-- Source `txQuerySimContextImpl.putIntoReadSet`. -/
def putIntoReadSet (s : TxQuerySimContextImpl) (contractName : GoString) (key value : GoBytes) :
    TxQuerySimContextImpl :=
  let txRead : TxRead :=
    { Key := key, Value := value, ContractName := contractName, Version := none }
  { s with txReadKeyMap := mapSet s.txReadKeyMap (constructKey contractName key) txRead }

/-- Source `txQuerySimContextImpl.putIntoWriteSet`. -/
def putIntoWriteSet (s : TxQuerySimContextImpl) (contractName : GoString) (key value : GoBytes) :
    TxQuerySimContextImpl :=
  let txWrite : TxWrite := { Key := key, Value := value, ContractName := contractName }
  { s with txWriteKeyMap := mapSet s.txWriteKeyMap (constructKey contractName key) txWrite }

/-- Source `txQuerySimContextImpl.getFromReadSet`. -/
def getFromReadSet (s : TxQuerySimContextImpl) (contractName : GoString) (key : GoBytes) :
    GoBytes × Bool :=
  match mapLookup s.txReadKeyMap (constructKey contractName key) with
  | some txRead => (txRead.Value, true)
  | none => (none, false)

/-- Source `txQuerySimContextImpl.getFromWriteSet`. -/
def getFromWriteSet (s : TxQuerySimContextImpl) (contractName : GoString) (key : GoBytes) :
    GoBytes × Bool :=
  match mapLookup s.txWriteKeyMap (constructKey contractName key) with
  | some txWrite => (txWrite.Value, true)
  | none => (none, false)

/-- Source `txQuerySimContextImpl.Get`: the Go results `(value, err)` and the
context after the call. -/
def Get (s : TxQuerySimContextImpl) (blockchainStore : BlockchainStore)
    (contractName : GoString) (key : GoBytes) :
    (GoBytes × Option GoError) × TxQuerySimContextImpl :=
  match getFromWriteSet s contractName key with
  | (value, true) => ((value, none), putIntoReadSet s contractName key value)
  | (_, false) =>
    match getFromReadSet s contractName key with
    | (value, true) => ((value, none), s)
    | (_, false) =>
      match blockchainStore.ReadObject contractName key with
      | (_, some err) => ((none, some err), s)
      | (value, none) => ((value, none), putIntoReadSet s contractName key value)

/-- Source `txQuerySimContextImpl.Put`. -/
def Put (s : TxQuerySimContextImpl) (contractName : GoString) (key value : GoBytes) :
    Option GoError × TxQuerySimContextImpl :=
  (none, putIntoWriteSet s contractName key value)

/-- Source `txQuerySimContextImpl.Del`. -/
def Del (s : TxQuerySimContextImpl) (contractName : GoString) (key : GoBytes) :
    Option GoError × TxQuerySimContextImpl :=
  (none, putIntoWriteSet s contractName key none)

/-- The `protocol.VmManager` as the query context calls it: as `VmManager`, on
a query context. -/
abbrev VmManager :=
  RunContractCall → TxQuerySimContextImpl → (ContractResult × TxStatusCode) × TxQuerySimContextImpl

/-- What `txQuerySimContextImpl.CallContract` returns: the Go results, the
context after the call, and the `vmManager.RunContract` calls made. -/
structure CallContractReturn where
  result : Option ContractResult
  code : TxStatusCode
  ctx : TxQuerySimContextImpl
  vmCalls : List RunContractCall

/-- Source `txQuerySimContextImpl.CallContract`; `getContractBytecode` is
`s.blockchainStore.GetContractBytecode`. -/
def CallContract (P : ProtocolConsts) (s : TxQuerySimContextImpl)
    (getContractBytecode : GoString → GoBytes × Option GoError) (vmManager : VmManager)
    (contract : Contract) (method : GoString) (byteCode : GoBytes)
    (parameter : GoMap GoBytes) (gasUsed : Nat) (refTxType : TxType) : CallContractReturn :=
  let s1 := { s with gasUsed := gasUsed }
  let s2 := { s1 with currentDepth := s1.currentDepth + 1 }
  if s2.currentDepth > P.CallContractDepth then
    let contractResult : ContractResult :=
      { Code := 1, Result := none,
        Message := asciiBytes "CallContract too depth " ++ fmtD s2.currentDepth, GasUsed := 0 }
    { result := some contractResult, code := TxStatusCode.CONTRACT_TOO_DEEP_FAILED, ctx := s2,
      vmCalls := [] }
  else if s2.gasUsed > P.GasLimit then
    let contractResult : ContractResult :=
      { Code := 1, Result := none,
        Message := asciiBytes "There is not enough gas, gasUsed " ++ fmtD gasUsed
          ++ asciiBytes " GasLimit " ++ fmtD P.GasLimit ++ asciiBytes " ",
        GasUsed := 0 }
    { result := some contractResult, code := TxStatusCode.CONTRACT_FAIL, ctx := s2,
      vmCalls := [] }
  else
    let found : Option GoBytes :=
      if lenBytes byteCode = 0 then
        match getContractBytecode contract.Name with
        | (_, some _) => none
        | (dbByteCode, none) => some dbByteCode
      else
        some byteCode
    match found with
    | none => { result := none, code := TxStatusCode.CONTRACT_FAIL, ctx := s2, vmCalls := [] }
    | some byteCode1 =>
      let call : RunContractCall :=
        { contract := contract, method := method, byteCode := byteCode1,
          parameter := parameter, gasUsed := s2.gasUsed, refTxType := refTxType }
      match vmManager call s2 with
      | ((r, code), s3) =>
        let result : CallContractResult :=
          { depth := s3.currentDepth, gasUsed := s3.gasUsed, result := r.Result,
            contractName := contract.Name, method := method, param := parameter }
        let s4 := { s3 with hisResult := s3.hisResult ++ [result], currentResult := r.Result,
                            currentDepth := s3.currentDepth - 1 }
        { result := some r, code := code, ctx := s4, vmCalls := [call] }

end TxQuery

/-- One `Get`, `Put` or `Del` call, with its arguments. -/
inductive KvOp where
  | get (contractName : GoString) (key : GoBytes)
  | put (contractName : GoString) (key value : GoBytes)
  | del (contractName : GoString) (key : GoBytes)
deriving DecidableEq, Repr

/-- One call on the simulation context: its Go results `(value, err)` (`value`
being `nil` for `Put` and `Del`) and the context after it. -/
def simStep (snapshot : Snapshot) (s : TxSimContextImpl) :
    KvOp → (GoBytes × Option GoError) × TxSimContextImpl
  | KvOp.get c k => (((Get s snapshot c k).value, (Get s snapshot c k).err),
      (Get s snapshot c k).ctx)
  | KvOp.put c k v => ((none, (Put s c k v).1), (Put s c k v).2)
  | KvOp.del c k => ((none, (Del s c k).1), (Del s c k).2)

/-- One call on the query context: its Go results and the context after it. -/
def queryStep (store : BlockchainStore) (q : TxQuerySimContextImpl) :
    KvOp → (GoBytes × Option GoError) × TxQuerySimContextImpl
  | KvOp.get c k => TxQuery.Get q store c k
  | KvOp.put c k v => ((none, (TxQuery.Put q c k v).1), (TxQuery.Put q c k v).2)
  | KvOp.del c k => ((none, (TxQuery.Del q c k).1), (TxQuery.Del q c k).2)

/-- A sequence of calls on the simulation context over one snapshot: the
results of every call in order, and the context at the end. -/
def runSim (snapshot : Snapshot) (s : TxSimContextImpl) :
    List KvOp → List (GoBytes × Option GoError) × TxSimContextImpl
  | [] => ([], s)
  | op :: rest =>
    ((simStep snapshot s op).1 :: (runSim snapshot (simStep snapshot s op).2 rest).1,
     (runSim snapshot (simStep snapshot s op).2 rest).2)

/-- The same sequence of calls on the query context over one store. -/
def runQuery (store : BlockchainStore) (q : TxQuerySimContextImpl) :
    List KvOp → List (GoBytes × Option GoError) × TxQuerySimContextImpl
  | [] => ([], q)
  | op :: rest =>
    ((queryStep store q op).1 :: (runQuery store (queryStep store q op).2 rest).1,
     (runQuery store (queryStep store q op).2 rest).2)

/-- A query context for transaction `tx` with nothing recorded. -/
def newQueryContext (tx : Transaction) : TxQuerySimContextImpl :=
  { tx := tx, txReadKeyMap := [], txWriteKeyMap := [], txWriteKeySql := [],
    txWriteKeyDdlSql := [], gasUsed := 0, currentDepth := 0, currentResult := none,
    hisResult := [] }

/-! ## The key-value state database (`module/store/statedb/statekvdb/statekvdb.go`) -/

/-- Source constant `contractStoreSeparator`, the byte `'#'`. -/
def contractStoreSeparator : Byte := 35

/-- Source `constructStateKey`. -/
def constructStateKey (contractName : GoString) (key : GoBytes) : GoBytes :=
  some ((contractName ++ [contractStoreSeparator]) ++ bytesToString key)

/-- Source `parseStateKey`: `none` when the slice expression
`key[len(contractName)+1:]` panics. -/
def parseStateKey (key : GoBytes) (contractName : GoString) : Option GoBytes :=
  if contractName.length + 1 ≤ lenBytes key then
    some (some ((bytesToString key).drop (contractName.length + 1)))
  else
    none

/-- The slice expression `memory[p:p+4]`, with `p + 4` computed in `int32`, is
within the bounds of the memory. -/
def WordInBounds (memory : List Byte) (p : Int) : Prop :=
  0 ≤ p ∧ p ≤ wrapInt32 (p + 4) ∧ wrapInt32 (p + 4) ≤ memory.length

/-! ## Sequences of cross-contract calls and of final calls -/

/-- The arguments of one `CallContract`. -/
structure CallArgs where
  contract : Contract
  method : GoString
  byteCode : GoBytes
  parameter : GoMap GoBytes
  gasUsed : Nat
  refTxType : TxType
deriving DecidableEq, Repr

/-- One `CallContract` with its arguments packed. -/
def callContract (P : ProtocolConsts) (snapshot : Snapshot) (vmManager : VmManager)
    (s : TxSimContextImpl) (a : CallArgs) : CallContractReturn :=
  CallContract P s snapshot vmManager a.contract a.method a.byteCode a.parameter a.gasUsed
    a.refTxType

/-- The context after a sequence of `CallContract` calls, first to last. -/
def callContracts (P : ProtocolConsts) (snapshot : Snapshot) (vmManager : VmManager)
    (s : TxSimContextImpl) : List CallArgs → TxSimContextImpl
  | [] => s
  | a :: rest =>
    callContracts P snapshot vmManager (callContract P snapshot vmManager s a).ctx rest

/-- The gas values of the call chain, in append order. -/
def chainGas (s : TxSimContextImpl) : List Nat :=
  s.hisResult.map (fun e => e.gasUsed)

/-- The gas values of the call chain are non-decreasing in append order and
none is greater than the `gasUsed` of the context. -/
def GasChainOK (s : TxSimContextImpl) : Prop :=
  (chainGas s).Pairwise (fun a b => a ≤ b) ∧ ∀ g ∈ chainGas s, g ≤ s.gasUsed

/-- Every call of the sequence passes a `gasUsed` that is at least the `gasUsed`
the context holds when the call is issued. -/
def GasCumulative (P : ProtocolConsts) (snapshot : Snapshot) (vmManager : VmManager)
    (s : TxSimContextImpl) : List CallArgs → Bool
  | [] => true
  | a :: rest =>
    decide (s.gasUsed ≤ a.gasUsed) &&
      GasCumulative P snapshot vmManager (callContract P snapshot vmManager s a).ctx rest

/-- A call on a context that is being finalized: a state access, or
`GetTxRWSet` with its argument. -/
inductive FinalOp where
  | access (op : Op)
  | getTxRWSet (runVmSuccess : Bool)

/-- The context after a sequence of accesses and `GetTxRWSet` calls. -/
def applyFinalOps (s : TxSimContextImpl) : List FinalOp → TxSimContextImpl
  | [] => s
  | FinalOp.access op :: rest => applyFinalOps (applyOp s op) rest
  | FinalOp.getTxRWSet b :: rest => applyFinalOps (GetTxRWSet s b).2 rest

/-! ## The WebAssembly system interface: contract results -/

/-- The two `protocol.ContractSdkSignalResult*` constants, which `wasi.go`
takes from the `protocol` package. -/
structure SdkSignals where
  ContractSdkSignalResultSuccess : Int
  ContractSdkSignalResultFail : Int
deriving DecidableEq, Repr

/-- Source `WacsiImpl.SuccessResult`: the returned signal and the
`contractResult` after the call. -/
def SuccessResult (K : SdkSignals) (contractResult : ContractResult) (data : GoBytes) :
    Int × ContractResult :=
  if contractResult.Code = 1 then
    (K.ContractSdkSignalResultFail, contractResult)
  else
    (K.ContractSdkSignalResultSuccess, { contractResult with Code := 0, Result := data })

/-- Source `WacsiImpl.ErrorResult`: the returned signal and the
`contractResult` after the call. -/
def ErrorResult (K : SdkSignals) (contractResult : ContractResult) (data : GoBytes) :
    Int × ContractResult :=
  let c1 := { contractResult with Code := 1 }
  let c2 :=
    if c1.Message.length > 0 then
      { c1 with Message := c1.Message ++ (asciiBytes ". contract message:" ++ bytesToString data) }
    else
      { c1 with Message := asciiBytes "contract message:" ++ bytesToString data }
  (K.ContractSdkSignalResultSuccess, c2)

/-- One call of a contract on its result. -/
inductive ResultCall where
  | success (data : GoBytes)
  | error (data : GoBytes)
deriving DecidableEq, Repr

/-- The `contractResult` after one call. -/
def applyResultCall (K : SdkSignals) (c : ContractResult) : ResultCall → ContractResult
  | ResultCall.success data => (SuccessResult K c data).2
  | ResultCall.error data => (ErrorResult K c data).2

/-- The `contractResult` after a sequence of calls. -/
def applyResultCalls (K : SdkSignals) (c : ContractResult) (calls : List ResultCall) :
    ContractResult :=
  calls.foldl (applyResultCall K) c

/-! ## Number conversions of the contract SDK (`contract/contract_tinygo/convert/convert.go`) -/

/-- Source constant `BASE`. -/
def BASE : Int := 48

/-- Go `string(r)` of an integer `r`: the UTF-8 encoding of the code point `r`,
of U+FFFD when `r` is not a code point. -/
def runeToString (r : Int) : GoString :=
  if r < 0 ∨ r > 1114111 ∨ (55296 ≤ r ∧ r ≤ 57343) then [239, 191, 189]
  else if r < 128 then [Fin.ofNat r.toNat]
  else if r < 2048 then [Fin.ofNat (192 + r / 64).toNat, Fin.ofNat (128 + r % 64).toNat]
  else if r < 65536 then
    [Fin.ofNat (224 + r / 4096).toNat, Fin.ofNat (128 + (r / 64) % 64).toNat,
     Fin.ofNat (128 + r % 64).toNat]
  else
    [Fin.ofNat (240 + r / 262144).toNat, Fin.ofNat (128 + (r / 4096) % 64).toNat,
     Fin.ofNat (128 + (r / 64) % 64).toNat, Fin.ofNat (128 + r % 64).toNat]

/-- Source `getChar`, on `int32`. -/
def getChar (number : Int) : GoString :=
  runeToString (wrapInt32 (number + BASE))

/-- Source `getNumber`, on `int32`. -/
def getNumber (char : Int) : Int :=
  wrapInt32 (char - BASE)

/-- The loop of `Int32ToString`, for at most `fuel` rounds; `none` when the
rounds do not suffice.  Go `%` and `/` on `int32` truncate towards zero. -/
def Int32ToString.loop : Nat → Int → GoString → Option GoString
  | fuel, convertNumber, res =>
    if convertNumber = 0 then some res
    else
      match fuel with
      | 0 => none
      | f + 1 =>
        Int32ToString.loop f (Int.tdiv convertNumber 10)
          (getChar (Int.tmod convertNumber 10) ++ res)

/-- Source `Int32ToString`, on an `int32` given as an integer.  The loop gets
ten rounds, which suffice for every `int32` (`Int32ToString_isSome`). -/
def Int32ToString (number : Int) : Option GoString :=
  let negativeFlag := decide (number < 0)
  let convertNumber := if number < 0 then wrapInt32 (-1 * number) else number
  match Int32ToString.loop 10 convertNumber [] with
  | none => none
  | some res => some (if negativeFlag then asciiBytes "-" ++ res else res)

/-- Go `utf8.DecodeRuneInString`, which the `range` over a string applies: the
first rune of the string and the number of bytes it takes; U+FFFD and one byte
where the bytes are not an encoding. -/
def decodeRune : GoString → Int × Nat
  | [] => (65533, 0)
  | b0 :: rest =>
    let x : Int := b0.val
    let cont : Byte → Bool := fun b => decide (128 ≤ b.val ∧ b.val ≤ 191)
    if x < 128 then (x, 1)
    else if 194 ≤ x ∧ x ≤ 223 then
      match rest with
      | b1 :: _ => if cont b1 then ((x % 32) * 64 + (b1.val : Int) % 64, 2) else (65533, 1)
      | _ => (65533, 1)
    else if 224 ≤ x ∧ x ≤ 239 then
      match rest with
      | b1 :: b2 :: _ =>
        let lo : Nat := if x = 224 then 160 else 128
        let hi : Nat := if x = 237 then 159 else 191
        if lo ≤ b1.val ∧ b1.val ≤ hi ∧ cont b2 = true then
          ((x % 16) * 4096 + ((b1.val : Int) % 64) * 64 + (b2.val : Int) % 64, 3)
        else (65533, 1)
      | _ => (65533, 1)
    else if 240 ≤ x ∧ x ≤ 244 then
      match rest with
      | b1 :: b2 :: b3 :: _ =>
        let lo : Nat := if x = 240 then 144 else 128
        let hi : Nat := if x = 244 then 143 else 191
        if lo ≤ b1.val ∧ b1.val ≤ hi ∧ cont b2 = true ∧ cont b3 = true then
          ((x % 8) * 262144 + ((b1.val : Int) % 64) * 4096 + ((b2.val : Int) % 64) * 64
            + (b3.val : Int) % 64, 4)
        else (65533, 1)
      | _ => (65533, 1)
    else (65533, 1)

/-- The runes of the first `fuel` rounds of a `range` over a string. -/
def rangeRunes.go : Nat → GoString → List Int
  | 0, _ => []
  | _ + 1, [] => []
  | f + 1, b0 :: rest =>
    (decodeRune (b0 :: rest)).1 :: rangeRunes.go f ((b0 :: rest).drop (decodeRune (b0 :: rest)).2)

/-- Go `for _, v := range str`: the runes `v` in order.  Every round takes at
least one byte, so as many rounds as the string has bytes are all of them. -/
def rangeRunes (str : GoString) : List Int :=
  rangeRunes.go str.length str

/-- The loop of `StringToInt32` over the runes left, from the running `num`:
the error of an early return, or the final `num`.  `IsNumber` is
`unicode.IsNumber`. -/
def StringToInt32.loop (IsNumber : Int → Bool) : List Int → Int → Except GoError Int
  | [], num => Except.ok num
  | v :: rest, num =>
    if ! IsNumber v then Except.error "check str is number "
    else
      let addResult := wrapInt32 (wrapInt32 (num * 10) + getNumber v)
      if addResult < num then Except.error "too big"
      else StringToInt32.loop IsNumber rest addResult

/-- Source `StringToInt32`: `none` is the panic of `str[0]` on the empty
string, otherwise the two results.  `IsNumber` is `unicode.IsNumber`. -/
def StringToInt32 (IsNumber : Int → Bool) (str : GoString) : Option (Int × Option GoError) :=
  match str with
  | [] => none
  | b0 :: rest =>
    let negativeFlag := decide (b0 = 45)
    let str1 := if negativeFlag then rest else b0 :: rest
    match StringToInt32.loop IsNumber (rangeRunes str1) 0 with
    | Except.error e => some (0, some e)
    | Except.ok num => some (if negativeFlag then wrapInt32 (num * -1) else num, none)

/-- `unicode.IsNumber` on the ASCII range, where the numbers are the digits;
`false` elsewhere. -/
def asciiIsNumber (r : Int) : Bool :=
  decide (48 ≤ r ∧ r ≤ 57)

/-- Whether a string is an optional `-` followed by one or more ASCII digits. -/
def isDecimalString (s : GoString) : Bool :=
  match s with
  | [] => false
  | b0 :: rest =>
    let ds := if b0 = 45 then rest else b0 :: rest
    ! ds.isEmpty && ds.all (fun b => decide (48 ≤ b.val ∧ b.val ≤ 57))

/-- The integer that a decimal string denotes: its digits read in base 10,
negated after a leading `-`. -/
def denotedInt (s : GoString) : Int :=
  match s with
  | [] => 0
  | b0 :: rest =>
    if b0 = 45 then - rest.foldl (fun acc b => acc * 10 + ((b.val : Int) - 48)) 0
    else (b0 :: rest).foldl (fun acc b => acc * 10 + ((b.val : Int) - 48)) 0

/-! ## Unsigned 64-bit arithmetic -/

/-- Go `a - b` on `uint64`. -/
def subUint64 (a b : Nat) : Nat :=
  (((a : Int) - (b : Int)) % 18446744073709551616).toNat

/-! ## Restoring archived blocks (`module/store/archive/blockstore_archive.go`) -/

/-- The loop of `RestoreBlock` that walks the blocks from the last one down:
`rest` holds the heights `blockInfos[total-i-1].Block.Header.BlockHeight` still
to visit, `curHeight` the height expected next.  `false` is the return of
`ErrInvalidateRestoreBlocks`. -/
def RestoreBlock.continuous : List Nat → Nat → Bool
  | [], _ => true
  | h :: rest, curHeight =>
    if h ≠ curHeight then false
    else RestoreBlock.continuous rest (subUint64 curHeight 1)

/-- The validation of `ArchiveMgr.RestoreBlock` on the heights of `blockInfos`,
with `archivedPivot` as `GetArchivedPivot` has just refreshed it: the error
returned, or `none` when the blocks go on to the two databases (or, for no
blocks, when `RestoreBlock` returns `nil` at once). -/
def RestoreBlock.validate (archivedPivot : Nat) (heights : List Nat) : Option GoError :=
  match heights.getLast? with
  | none => none
  | some lastRestoreHeight =>
    if lastRestoreHeight ≠ archivedPivot then
      some "restore block height not match last archived height"
    else if RestoreBlock.continuous heights.reverse lastRestoreHeight then none
    else some "invalidate restore blocks"

/-! ## The cache of consensus states (`module/consensus/tbft/state.go`) -/

/-- The `ConsensusState` struct, without its logger, proposals and vote set. -/
structure ConsensusState where
  Id : GoString
  Height : Nat
  Round : Int
  Step : Nat
  LockedRound : Int
  ValidRound : Int
deriving DecidableEq, Repr

/-- The `consensusStateCache` struct; the Go map is a list of entries with
distinct keys. -/
structure consensusStateCache where
  size : Nat
  cache : List (Nat × ConsensusState)
deriving DecidableEq, Repr

/-- Source `newConsensusStateCache`. -/
def newConsensusStateCache (size : Nat) : consensusStateCache :=
  { size := size, cache := [] }

/-- Go `m[k] = v` on a map with `uint64` keys. -/
def heightSet (m : List (Nat × ConsensusState)) (k : Nat) (v : ConsensusState) :
    List (Nat × ConsensusState) :=
  match m with
  | [] => [(k, v)]
  | (k1, v1) :: rest => if k1 = k then (k, v) :: rest else (k1, v1) :: heightSet rest k v

/-- Go `v, ok := m[k]` on a map with `uint64` keys. -/
def heightLookup (m : List (Nat × ConsensusState)) (k : Nat) : Option ConsensusState :=
  match m with
  | [] => none
  | (k1, v1) :: rest => if k1 = k then some v1 else heightLookup rest k

/-- Source `consensusStateCache.gc`: every key below `height - cache.size`,
a `uint64` difference, is deleted. -/
def consensusStateCache.gc (cache : consensusStateCache) (height : Nat) : consensusStateCache :=
  { cache with
    cache := cache.cache.filter (fun p => ! decide (p.1 < subUint64 height cache.size)) }

/-- Source `consensusStateCache.addConsensusState`; `none` is the `nil`
state. -/
def consensusStateCache.addConsensusState (cache : consensusStateCache)
    (state : Option ConsensusState) : consensusStateCache :=
  match state with
  | none => cache
  | some st =>
    if st.Height ≤ 0 then cache
    else
      let c1 := { cache with cache := heightSet cache.cache st.Height st }
      c1.gc st.Height

/-- Source `consensusStateCache.getConsensusState`; `none` is `nil`. -/
def consensusStateCache.getConsensusState (cache : consensusStateCache) (height : Nat) :
    Option ConsensusState :=
  heightLookup cache.cache height

/-! ## Names of the state databases (`module/store/statedb/statesqldb/statesqldb.go`) -/

/-- The `localconf.SqlDbConfig` struct, as far as the database names use it. -/
structure SqlDbConfig where
  DbPrefix : GoString
deriving DecidableEq, Repr

/-- Go `s[lo:hi]` on a string: `none` is the panic of a slice out of range. -/
def sliceStr (s : GoString) (lo hi : Int) : Option GoString :=
  if 0 ≤ lo ∧ lo ≤ hi ∧ hi ≤ s.length then some ((s.take hi.toNat).drop lo.toNat) else none

/-- Source `getDbName`. -/
def getDbName (dbConfig : SqlDbConfig) (chainId : GoString) : GoString :=
  dbConfig.DbPrefix ++ asciiBytes "statedb_" ++ chainId

/-- Source `getContractDbName`; `none` is a slice panic.  `isSystemContract`
tells whether a name is a key of `syscontract.SystemContract_value`, and
`sha256Hex` is `hex.EncodeToString` of the SHA-256 sum. -/
def getContractDbName (isSystemContract : GoString → Bool) (sha256Hex : GoString → GoString)
    (dbConfig : SqlDbConfig) (chainId contractName : GoString) : Option GoString :=
  if isSystemContract contractName then some (getDbName dbConfig chainId)
  else
    let dbName := dbConfig.DbPrefix ++ asciiBytes "statedb_" ++ chainId ++ asciiBytes "_"
      ++ contractName
    if dbName.length > 64 then
      match sliceStr dbName 0 50, sliceStr (sha256Hex dbName) 0 10,
          sliceStr contractName ((contractName.length : Int) - 4) contractName.length with
      | some a, some b, some c => some (a ++ b ++ c)
      | _, _, _ => none
    else some dbName

/-- The untruncated name `DbPrefix + "statedb_" + chainId + "_" + contractName`. -/
def untruncatedDbName (dbConfig : SqlDbConfig) (chainId contractName : GoString) : GoString :=
  dbConfig.DbPrefix ++ asciiBytes "statedb_" ++ chainId ++ asciiBytes "_" ++ contractName

/-- A table of system contracts with the two names the modules of this
repository refer to. -/
def sampleSystemContract (name : GoString) : Bool :=
  decide (name = asciiBytes "CHAIN_CONFIG") || decide (name = asciiBytes "DPOS_STAKE")

/-- A stand-in for the hex digest: 64 hex characters whatever the input. -/
def sampleSha256Hex (_ : GoString) : GoString :=
  List.replicate 64 97

/-! ## Shares of a delegation (`module/vm/native/dposmgr/dpos_stake_contract.go`) -/

/-- The bytes of a Go string as text, for the `%s` of an error message. -/
def goText (s : GoString) : String :=
  String.mk (s.map (fun b => Char.ofNat b.val))

/-- Source `stringToBigInt`; `SetString` is `(*big.Int).SetString(amount, 10)`,
`none` for `ok = false`. -/
def stringToBigInt (SetString : GoString → Option Int) (amount : GoString) :
    Except GoError Int :=
  match SetString amount with
  | none => Except.error ("convert amount to big int error: " ++ goText amount)
  | some v => Except.ok v

/-- Source `calcShareByAmount`.  `big.Int.Div` is the Euclidean division, which
is `/` on `Int`. -/
def calcShareByAmount (SetString : GoString → Option Int) (tokens shares amount : GoString) :
    Except GoError Int :=
  match stringToBigInt SetString tokens with
  | Except.error err => Except.error err
  | Except.ok tokensValue =>
    match stringToBigInt SetString shares with
    | Except.error err => Except.error err
    | Except.ok sharesValue =>
      match stringToBigInt SetString amount with
      | Except.error err => Except.error err
      | Except.ok amountValue =>
        if tokensValue = 0 ∧ sharesValue = 0 then Except.ok amountValue
        else if tokensValue > 0 then Except.ok ((sharesValue * amountValue) / tokensValue)
        else if tokensValue < 0 then
          Except.error ("validator's token amount is less than 0, token amount: "
            ++ toString tokensValue)
        else Except.ok 0

/-- Source `assertStringAmountOverZero`. -/
def assertStringAmountOverZero (SetString : GoString → Option Int) (amount : GoString) : Bool :=
  match stringToBigInt SetString amount with
  | Except.error _ => false
  | Except.ok amountValue => decide (amountValue > 0)

/-- The digits of a non-empty string of ASCII digits, read in base 10. -/
def parseDigits (s : GoString) : Option Nat :=
  if s.isEmpty then none
  else s.foldl (fun acc b =>
    match acc with
    | none => none
    | some n => if 48 ≤ b.val ∧ b.val ≤ 57 then some (n * 10 + (b.val - 48)) else none) (some 0)

/-- A reading of `SetString(s, 10)` on signed strings of ASCII digits: an
optional `+` or `-`, then one or more digits. -/
def setStringBase10 (s : GoString) : Option Int :=
  match s with
  | [] => none
  | b0 :: rest =>
    if b0 = 45 then (parseDigits rest).map (fun n => - (n : Int))
    else if b0 = 43 then (parseDigits rest).map (fun n => (n : Int))
    else (parseDigits (b0 :: rest)).map (fun n => (n : Int))

/-! ## The linear memory of the virtual machine (`module/vm/gasm/gasm-go/wasm/vm_memory.go`) -/

/-- The fields of `VirtualMachine` that the memory instructions use: the
memory, `InnerModule.SecMemory[0].Max` (`none` for `nil`), the operand stack
with its top first, and the gas counter. -/
structure VirtualMachine where
  Memory : List Byte
  Max : Option Nat
  OperandStack : List Nat
  Gas : Nat
deriving DecidableEq, Repr

/-- Source variable `defaultMax`. -/
def defaultMax : Nat := 65535

/-- Go conversion of an integer to `int` (64 bits). -/
def wrapInt64 (x : Int) : Int :=
  (x + 9223372036854775808) % 18446744073709551616 - 9223372036854775808

/-- Source `safeLoad`: `none` is the panic. -/
def safeLoad (vm : VirtualMachine) (base : Nat) : Option VirtualMachine :=
  if base ≥ vm.Memory.length then none else some vm

/-- The Go runtime's `maxAlloc` on the 64-bit platforms with 48 address bits,
the size of the address space: `make` and `append` panic on a byte slice longer
than this, and no allocation of this size succeeds. -/
def maxAlloc : Nat := 281474976710656

/-- Source `safeStore`, with the constant `vmPageSize` as an argument: `none`
is a panic, that of the limit or that of `make` and `append` on a length that
reaches `maxAlloc`. -/
def safeStore (vmPageSize : Nat) (vm : VirtualMachine) (base : Nat) : Option VirtualMachine :=
  if base ≥ vm.Memory.length then
    let max : Nat :=
      match vm.Max with
      | some m => m
      | none => defaultMax
    let diff : Nat := (base - vm.Memory.length + 1) % 18446744073709551616
    let preMemory : Int := wrapInt64 ((vm.Memory.length : Int) + wrapInt64 diff)
    if ((Int.tdiv preMemory vmPageSize) % 4294967296).toNat > max then none
    else if diff ≥ maxAlloc ∨ vm.Memory.length + diff ≥ maxAlloc then none
    else some { vm with Memory := vm.Memory ++ List.replicate diff 0 }
  else some vm

/-- Go `b[base:]`: `none` is the panic of a slice out of range. -/
def sliceFrom (b : List Byte) (base : Nat) : Option (List Byte) :=
  if base ≤ b.length then some (b.drop base) else none

/-- The little-endian value of a list of bytes. -/
def leValue : List Byte → Nat
  | [] => 0
  | b :: rest => b.val + 256 * leValue rest

/-- The `k` little-endian bytes of a value. -/
def leBytes : Nat → Nat → List Byte
  | 0, _ => []
  | k + 1, v => Fin.ofNat (v % 256) :: leBytes k (v / 256)

/-- Go `binary.LittleEndian.Uint32(b)`: `none` is the panic of `b[3]`. -/
def Uint32 (b : List Byte) : Option Nat :=
  if 3 < b.length then some (leValue (b.take 4)) else none

/-- Go `binary.LittleEndian.Uint64(b)`: `none` is the panic of `b[7]`. -/
def Uint64 (b : List Byte) : Option Nat :=
  if 7 < b.length then some (leValue (b.take 8)) else none

/-- Go `binary.LittleEndian.PutUint32(memory[base:], v)`: the memory after the
write, `none` for the panic of the slice or of `b[3]`. -/
def PutUint32 (memory : List Byte) (base : Nat) (v : Nat) : Option (List Byte) :=
  match sliceFrom memory base with
  | none => none
  | some b =>
    if 3 < b.length then some (memory.take base ++ leBytes 4 v ++ b.drop 4) else none

/-- Go `binary.LittleEndian.PutUint64(memory[base:], v)`: the memory after the
write, `none` for the panic of the slice or of `b[7]`. -/
def PutUint64 (memory : List Byte) (base : Nat) (v : Nat) : Option (List Byte) :=
  match sliceFrom memory base with
  | none => none
  | some b =>
    if 7 < b.length then some (memory.take base ++ leBytes 8 v ++ b.drop 8) else none

/-- Source `i32Load`, with `base` the result of `memoryBase`. -/
def i32Load (vm : VirtualMachine) (base : Nat) : Option VirtualMachine :=
  match safeLoad vm base with
  | none => none
  | some vm1 =>
    match (sliceFrom vm1.Memory base).bind Uint32 with
    | none => none
    | some v => some { vm1 with OperandStack := v :: vm1.OperandStack }

/-- Source `i64Load`, with `base` the result of `memoryBase`. -/
def i64Load (vm : VirtualMachine) (base : Nat) : Option VirtualMachine :=
  match safeLoad vm base with
  | none => none
  | some vm1 =>
    match (sliceFrom vm1.Memory base).bind Uint64 with
    | none => none
    | some v => some { vm1 with OperandStack := v :: vm1.OperandStack }

/-- Source `i32Store`, with `val` the operand taken from the stack and `base`
the result of `memoryBase`. -/
def i32Store (vmPageSize : Nat) (vm : VirtualMachine) (val base : Nat) : Option VirtualMachine :=
  match safeStore vmPageSize vm base with
  | none => none
  | some vm1 =>
    match PutUint32 vm1.Memory base (val % 4294967296) with
    | none => none
    | some m => some { vm1 with Memory := m }

/-- Source `i64Store`, with `val` the operand taken from the stack and `base`
the result of `memoryBase`. -/
def i64Store (vmPageSize : Nat) (vm : VirtualMachine) (val base : Nat) : Option VirtualMachine :=
  match safeStore vmPageSize vm base with
  | none => none
  | some vm1 =>
    match PutUint64 vm1.Memory base val with
    | none => none
    | some m => some { vm1 with Memory := m }

/-- Whether the `k` bytes at `base` lie inside the memory. -/
def accessInBounds (vm : VirtualMachine) (base k : Nat) : Bool :=
  decide (base + k ≤ vm.Memory.length)

/-- Source `memorySize`, on the memory and the stack. -/
def memorySize (vmPageSize : Nat) (vm : VirtualMachine) : VirtualMachine :=
  { vm with
    OperandStack :=
      (wrapInt32 ((vm.Memory.length / vmPageSize : Nat) : Int) % 18446744073709551616).toNat
        :: vm.OperandStack }

/-- Source `memoryGrow`, on the memory, the stack and the gas, with `popped`
the operand taken from the stack and `growGas` the entry
`tableGas[OptCodeMemoryGrow]`.  The sum `n + uint32(len / vmPageSize)` and the
product `n * vmPageSize` are `uint32` values. -/
def memoryGrow (vmPageSize growGas : Nat) (vm : VirtualMachine) (popped : Nat) :
    VirtualMachine :=
  let n : Nat := popped % 4294967296
  let rejected : Bool :=
    match vm.Max with
    | none => false
    | some max => decide ((n + (vm.Memory.length / vmPageSize) % 4294967296) % 4294967296 > max)
  if rejected then
    { vm with OperandStack := 18446744073709551615 :: vm.OperandStack }
  else
    { vm with
      OperandStack := (vm.Memory.length / vmPageSize) :: vm.OperandStack,
      Memory := vm.Memory ++ List.replicate ((n * vmPageSize) % 4294967296) 0,
      Gas := (vm.Gas + growGas * n) % 18446744073709551616 }

/-- The character of a decimal digit. -/
def digitByte (d : Nat) : Byte :=
  Fin.ofNat (48 + d)

/-- The canonical base-10 string of an integer: "0" for zero, otherwise the
digits from the most significant one, without leading zeros, after a `-` for a
negative number. -/
def canonicalDecimal (n : Int) : GoString :=
  if n = 0 then [48]
  else (if n < 0 then [45] else []) ++ ((Nat.digits 10 n.natAbs).reverse.map digitByte)

/-! ## Reads of a key that has been written -/

/-- Whether an access is a `Get` with the composite key `K` that finds under `K`
a write item whose value is not `v`. -/
def getFindsOtherValue (K : GoString) (v : GoBytes) (s : TxSimContextImpl) : Op → Bool
  | Op.get _ c k =>
    decide (constructKey c k = K) &&
      (match mapLookup s.txWriteKeyMap K with
       | some w => decide (w.Value ≠ v)
       | none => false)
  | _ => false

/-- Whether, along the accesses `ops` from the context `s`, every `Get` with the
composite key `K` that finds a write item under `K` finds one of value `v`. -/
def getsFindValue (K : GoString) (v : GoBytes) : TxSimContextImpl → List Op → Bool
  | _, [] => true
  | s, op :: ops => (! getFindsOtherValue K v s op) && getsFindValue K v (applyOp s op) ops

/-! ## Go maps: lookup after assignment -/

theorem mapLookup_mapSet_self {α : Type} (m : GoMap α) (k : GoString) (v : α) :
    mapLookup (mapSet m k v) k = some v := by
  induction m with
  | nil => simp [mapSet, mapLookup]
  | cons p m ih =>
    obtain ⟨k', v'⟩ := p
    by_cases h : k' = k
    · simp [mapSet, mapLookup, h]
    · simp [mapSet, mapLookup, h, ih]

theorem mapLookup_mapSet_ne {α : Type} (m : GoMap α) (k k' : GoString) (v : α) (hne : k' ≠ k) :
    mapLookup (mapSet m k v) k' = mapLookup m k' := by
  induction m with
  | nil =>
    have h : ¬ k = k' := fun e => hne e.symm
    simp [mapSet, mapLookup, h]
  | cons p m ih =>
    obtain ⟨k0, v0⟩ := p
    by_cases h : k0 = k
    · subst h
      have h2 : ¬ k0 = k' := fun e => hne e.symm
      simp [mapSet, mapLookup, h2]
    · by_cases h3 : k0 = k'
      · subst h3
        simp [mapSet, mapLookup, h]
      · simp [mapSet, mapLookup, h, h3, ih]

theorem mem_mapKeys_mapSet {α : Type} (m : GoMap α) (k k' : GoString) (v : α) :
    k' ∈ mapKeys (mapSet m k v) ↔ k' = k ∨ k' ∈ mapKeys m := by
  induction m with
  | nil => simp [mapSet, mapKeys]
  | cons p m ih =>
    obtain ⟨k0, v0⟩ := p
    by_cases h : k0 = k
    · subst h
      simp [mapSet, mapKeys]
    · have ih2 : k' ∈ List.map Prod.fst (mapSet m k v) ↔ k' = k ∨ k' ∈ List.map Prod.fst m := ih
      simp only [mapSet, mapKeys, h, if_false, List.map_cons, List.mem_cons, ih2]
      tauto

theorem nodup_mapKeys_mapSet {α : Type} (m : GoMap α) (k : GoString) (v : α)
    (hm : (mapKeys m).Nodup) : (mapKeys (mapSet m k v)).Nodup := by
  induction m with
  | nil => simp [mapSet, mapKeys]
  | cons p m ih =>
    obtain ⟨k0, v0⟩ := p
    have hm2 : k0 ∉ mapKeys m ∧ (mapKeys m).Nodup := by
      simpa [mapKeys] using hm
    by_cases h : k0 = k
    · subst h
      simpa [mapSet, mapKeys] using hm
    · have hnot : k0 ∉ mapKeys (mapSet m k v) := by
        rw [mem_mapKeys_mapSet]
        rintro (e | e)
        · exact h e
        · exact hm2.1 e
      have ih2 := ih hm2.2
      simp only [mapSet, h, if_false]
      exact List.nodup_cons.mpr ⟨hnot, ih2⟩

theorem mapLookup_isSome_iff {α : Type} (m : GoMap α) (k : GoString) :
    (∃ v, mapLookup m k = some v) ↔ k ∈ mapKeys m := by
  induction m with
  | nil => simp [mapLookup, mapKeys]
  | cons p m ih =>
    obtain ⟨k0, v0⟩ := p
    have ih2 : (∃ v, mapLookup m k = some v) ↔ k ∈ List.map Prod.fst m := ih
    by_cases h : k0 = k
    · simp [mapLookup, mapKeys, h]
    · have h2 : ¬ k = k0 := fun e => h e.symm
      simp only [mapLookup, mapKeys, h, if_false, List.map_cons, List.mem_cons, h2, false_or]
      exact ih2

/-! ## Get, Put and Del: elementary facts -/

theorem Get_txWriteKeyMap (s : TxSimContextImpl) (snap : Snapshot) (c : GoString) (k : GoBytes) :
    (Get s snap c k).ctx.txWriteKeyMap = s.txWriteKeyMap := by
  unfold Get
  split
  · rfl
  · split
    · rfl
    · split <;> rfl

theorem Get_of_write_hit (s : TxSimContextImpl) (snap : Snapshot) (c : GoString) (k : GoBytes)
    (w : TxWrite) (h : mapLookup s.txWriteKeyMap (constructKey c k) = some w) :
    (Get s snap c k).value = w.Value ∧ (Get s snap c k).err = none ∧
      (Get s snap c k).snapshotCalls = [] ∧
      (Get s snap c k).ctx = putIntoReadSet s c k w.Value := by
  simp [Get, getFromWriteSet, h]

theorem Get_of_read_hit (s : TxSimContextImpl) (snap : Snapshot) (c : GoString) (k : GoBytes)
    (r : TxRead) (hw : mapLookup s.txWriteKeyMap (constructKey c k) = none)
    (hr : mapLookup s.txReadKeyMap (constructKey c k) = some r) :
    (Get s snap c k).value = r.Value ∧ (Get s snap c k).err = none ∧
      (Get s snap c k).snapshotCalls = [] ∧ (Get s snap c k).ctx = s := by
  simp [Get, getFromWriteSet, getFromReadSet, hw, hr]

theorem Get_of_miss (s : TxSimContextImpl) (snap : Snapshot) (c : GoString) (k : GoBytes)
    (hw : mapLookup s.txWriteKeyMap (constructKey c k) = none)
    (hr : mapLookup s.txReadKeyMap (constructKey c k) = none) :
    (Get s snap c k).snapshotCalls = [⟨s.txExecSeq, c, k⟩] ∧
      ((snap.GetKey s.txExecSeq c k).2 = none →
        (Get s snap c k).value = (snap.GetKey s.txExecSeq c k).1 ∧ (Get s snap c k).err = none ∧
        (Get s snap c k).ctx = putIntoReadSet s c k (snap.GetKey s.txExecSeq c k).1) ∧
      (∀ e, (snap.GetKey s.txExecSeq c k).2 = some e →
        (Get s snap c k).value = none ∧ (Get s snap c k).err = some e ∧
        (Get s snap c k).ctx = s) := by
  rcases hsn : snap.GetKey s.txExecSeq c k with ⟨val, _ | e⟩ <;>
    simp [Get, getFromWriteSet, getFromReadSet, hw, hr, hsn]

theorem Put_writeLookup_self (s : TxSimContextImpl) (c : GoString) (k v : GoBytes) :
    mapLookup (Put s c k v).2.txWriteKeyMap (constructKey c k)
      = some { Key := k, Value := v, ContractName := c } := by
  simp [Put, putIntoWriteSet, mapLookup_mapSet_self]

/-- Read-your-own-write for a `Get` that directly follows the `Put`. -/
theorem Get_after_Put (s : TxSimContextImpl) (snap : Snapshot) (c : GoString) (k v : GoBytes) :
    (Get (Put s c k v).2 snap c k).value = v ∧ (Get (Put s c k v).2 snap c k).err = none ∧
      (Get (Put s c k v).2 snap c k).snapshotCalls = [] := by
  have h := Get_of_write_hit (Put s c k v).2 snap c k _ (Put_writeLookup_self s c k v)
  exact ⟨h.1, h.2.1, h.2.2.1⟩

theorem applyOp_writeLookup (s : TxSimContextImpl) (op : Op) (K : GoString)
    (h : writesKey K op = false) :
    mapLookup (applyOp s op).txWriteKeyMap K = mapLookup s.txWriteKeyMap K := by
  cases op with
  | get snap c k => simp [applyOp, Get_txWriteKeyMap]
  | put c k v =>
    have hne : K ≠ constructKey c k := by
      intro e
      simp [writesKey, e] at h
    simp [applyOp, Put, putIntoWriteSet, mapLookup_mapSet_ne _ _ _ _ hne]
  | del c k =>
    have hne : K ≠ constructKey c k := by
      intro e
      simp [writesKey, e] at h
    simp [applyOp, Del, putIntoWriteSet, mapLookup_mapSet_ne _ _ _ _ hne]
  | putRecord c v t =>
    simp only [applyOp, PutRecord]
    split <;> rfl

theorem applyOps_writeLookup (s : TxSimContextImpl) (ops : List Op) (K : GoString)
    (h : ∀ op ∈ ops, writesKey K op = false) :
    mapLookup (applyOps s ops).txWriteKeyMap K = mapLookup s.txWriteKeyMap K := by
  induction ops generalizing s with
  | nil => rfl
  | cons op ops ih =>
    have h1 : writesKey K op = false := h op (List.mem_cons_self _ _)
    have h2 : ∀ o ∈ ops, writesKey K o = false := fun o ho => h o (List.mem_cons_of_mem _ ho)
    simp only [applyOps]
    rw [ih (applyOp s op) h2, applyOp_writeLookup s op K h1]

/-- Read-your-own-write across any accesses that store no write item under the
composite key of `(c, k)`. -/
theorem Get_after_Put_ops (s : TxSimContextImpl) (snap : Snapshot) (c : GoString) (k v : GoBytes)
    (mid : List Op) (h : ∀ op ∈ mid, writesKey (constructKey c k) op = false) :
    (Get (applyOps (Put s c k v).2 mid) snap c k).value = v ∧
      (Get (applyOps (Put s c k v).2 mid) snap c k).err = none ∧
      (Get (applyOps (Put s c k v).2 mid) snap c k).snapshotCalls = [] := by
  have hl := applyOps_writeLookup (Put s c k v).2 mid (constructKey c k) h
  rw [Put_writeLookup_self] at hl
  have hg := Get_of_write_hit (applyOps (Put s c k v).2 mid) snap c k _ hl
  exact ⟨hg.1, hg.2.1, hg.2.2.1⟩

theorem Get_ctx_cases (s : TxSimContextImpl) (snap : Snapshot) (c : GoString) (k : GoBytes) :
    (Get s snap c k).ctx = s ∨ ∃ v, (Get s snap c k).ctx = putIntoReadSet s c k v := by
  unfold Get
  split
  · exact Or.inr ⟨_, rfl⟩
  · split
    · exact Or.inl rfl
    · split
      · exact Or.inl rfl
      · exact Or.inr ⟨_, rfl⟩

theorem Get_readLookup_ne (s : TxSimContextImpl) (snap : Snapshot) (c : GoString) (k : GoBytes)
    (K : GoString) (hne : K ≠ constructKey c k) :
    mapLookup (Get s snap c k).ctx.txReadKeyMap K = mapLookup s.txReadKeyMap K := by
  rcases Get_ctx_cases s snap c k with h | ⟨v, h⟩
  · rw [h]
  · rw [h]
    simp [putIntoReadSet, mapLookup_mapSet_ne _ _ _ _ hne]

theorem applyOp_txReadKeyMap_of_write (s : TxSimContextImpl) (op : Op)
    (h : ∀ snap c k, op ≠ Op.get snap c k) :
    (applyOp s op).txReadKeyMap = s.txReadKeyMap := by
  cases op with
  | get snap c k => exact absurd rfl (h snap c k)
  | put c k v => rfl
  | del c k => rfl
  | putRecord c v t =>
    simp only [applyOp, PutRecord]
    split <;> rfl

/-- A read item whose key has no write item stays as it is under any access
that stores no write item under that key, and such an access asks the snapshot
nothing about that key. -/
theorem applyOp_keeps_read (s : TxSimContextImpl) (op : Op) (K : GoString) (r : TxRead)
    (hw : mapLookup s.txWriteKeyMap K = none) (hr : mapLookup s.txReadKeyMap K = some r)
    (hop : writesKey K op = false) :
    mapLookup (applyOp s op).txWriteKeyMap K = none ∧
      mapLookup (applyOp s op).txReadKeyMap K = some r ∧
      ∀ call ∈ opSnapshotCalls s op, constructKey call.contractName call.key ≠ K := by
  refine ⟨by rw [applyOp_writeLookup s op K hop]; exact hw, ?_, ?_⟩
  · cases op with
    | get snap c k =>
      by_cases hK : K = constructKey c k
      · subst hK
        have h := Get_of_read_hit s snap c k r hw hr
        simp only [applyOp]
        rw [h.2.2.2]
        exact hr
      · simp only [applyOp]
        rw [Get_readLookup_ne s snap c k K hK]
        exact hr
    | put c k v => exact hr
    | del c k => exact hr
    | putRecord c v t =>
      rw [applyOp_txReadKeyMap_of_write s _ (by intro _ _ _ h; cases h)]
      exact hr
  · cases op with
    | get snap c k =>
      by_cases hK : K = constructKey c k
      · subst hK
        have h := Get_of_read_hit s snap c k r hw hr
        simp [opSnapshotCalls, h.2.2.1]
      · intro call hcall
        simp only [opSnapshotCalls] at hcall
        have hsub : ∀ x ∈ (Get s snap c k).snapshotCalls, x = ⟨s.txExecSeq, c, k⟩ := by
          unfold Get
          split
          · simp
          · split
            · simp
            · split <;> simp
        rw [hsub call hcall]
        exact fun e => hK e.symm
    | put c k v => simp [opSnapshotCalls]
    | del c k => simp [opSnapshotCalls]
    | putRecord c v t => simp [opSnapshotCalls]

theorem applyOps_keeps_read (s : TxSimContextImpl) (ops : List Op) (K : GoString) (r : TxRead)
    (hw : mapLookup s.txWriteKeyMap K = none) (hr : mapLookup s.txReadKeyMap K = some r)
    (hops : ∀ op ∈ ops, writesKey K op = false) :
    mapLookup (applyOps s ops).txWriteKeyMap K = none ∧
      mapLookup (applyOps s ops).txReadKeyMap K = some r ∧
      ∀ call ∈ opsSnapshotCalls s ops, constructKey call.contractName call.key ≠ K := by
  induction ops generalizing s with
  | nil => exact ⟨hw, hr, by simp [opsSnapshotCalls]⟩
  | cons op ops ih =>
    have h1 := applyOp_keeps_read s op K r hw hr (hops op (List.mem_cons_self _ _))
    have h2 := ih (applyOp s op) h1.1 h1.2.1 (fun o ho => hops o (List.mem_cons_of_mem _ ho))
    refine ⟨h2.1, h2.2.1, ?_⟩
    intro call hcall
    simp only [opsSnapshotCalls, List.mem_append] at hcall
    rcases hcall with hc | hc
    · exact h1.2.2 call hc
    · exact h2.2.2 call hc

/-- After a `Get` that returned no error, the key has a read item holding the
returned value. -/
theorem Get_records_read (s : TxSimContextImpl) (snap : Snapshot) (c : GoString) (k : GoBytes)
    (hw : mapLookup s.txWriteKeyMap (constructKey c k) = none)
    (herr : (Get s snap c k).err = none) :
    ∃ r, mapLookup (Get s snap c k).ctx.txReadKeyMap (constructKey c k) = some r ∧
      r.Value = (Get s snap c k).value := by
  rcases hr : mapLookup s.txReadKeyMap (constructKey c k) with _ | r
  · have h := Get_of_miss s snap c k hw hr
    rcases hsn : (snap.GetKey s.txExecSeq c k).2 with _ | e
    · have h3 := h.2.1 hsn
      rw [h3.2.2, h3.1]
      refine ⟨{ Key := k, Value := (snap.GetKey s.txExecSeq c k).1, ContractName := c,
                Version := none }, ?_, rfl⟩
      simp [putIntoReadSet, mapLookup_mapSet_self]
    · have h3 := h.2.2 e hsn
      rw [h3.2.1] at herr
      cases herr
  · have h := Get_of_read_hit s snap c k r hw hr
    rw [h.2.2.2, h.1]
    exact ⟨r, hr, rfl⟩

/-- Read stability across any accesses that store no write item under the
composite key of `(c, k)`: the later `Get` returns the value of the first one
and the snapshot is asked at most once about the key. -/
theorem Get_stable_ops (s : TxSimContextImpl) (snap0 snap1 : Snapshot) (c : GoString)
    (k : GoBytes) (mid : List Op)
    (hw : mapLookup s.txWriteKeyMap (constructKey c k) = none)
    (herr : (Get s snap0 c k).err = none)
    (hmid : ∀ op ∈ mid, writesKey (constructKey c k) op = false) :
    (Get (applyOps (Get s snap0 c k).ctx mid) snap1 c k).value = (Get s snap0 c k).value ∧
      (Get (applyOps (Get s snap0 c k).ctx mid) snap1 c k).err = none ∧
      (Get (applyOps (Get s snap0 c k).ctx mid) snap1 c k).snapshotCalls = [] ∧
      (Get s snap0 c k).snapshotCalls.length ≤ 1 ∧
      ∀ call ∈ opsSnapshotCalls (Get s snap0 c k).ctx mid,
        constructKey call.contractName call.key ≠ constructKey c k := by
  obtain ⟨r, hr, hv⟩ := Get_records_read s snap0 c k hw herr
  have hw1 : mapLookup (Get s snap0 c k).ctx.txWriteKeyMap (constructKey c k) = none := by
    rw [Get_txWriteKeyMap]
    exact hw
  have hk := applyOps_keeps_read (Get s snap0 c k).ctx mid (constructKey c k) r hw1 hr hmid
  have hg := Get_of_read_hit (applyOps (Get s snap0 c k).ctx mid) snap1 c k r hk.1 hk.2.1
  refine ⟨by rw [hg.1, hv], hg.2.1, hg.2.2.1, ?_, hk.2.2⟩
  unfold Get
  split
  · simp
  · split
    · simp
    · split <;> simp

/-- Two pairs with different composite keys do not interfere: a `Put` on one
changes neither the result of `Get` on the other nor its write item. -/
theorem Put_other_key (s : TxSimContextImpl) (snap : Snapshot) (c1 c2 : GoString)
    (k1 k2 v : GoBytes) (hne : constructKey c2 k2 ≠ constructKey c1 k1) :
    (Get (Put s c1 k1 v).2 snap c2 k2).value = (Get s snap c2 k2).value ∧
      (Get (Put s c1 k1 v).2 snap c2 k2).err = (Get s snap c2 k2).err ∧
      mapLookup (Put s c1 k1 v).2.txWriteKeyMap (constructKey c2 k2)
        = mapLookup s.txWriteKeyMap (constructKey c2 k2) ∧
      (Put s c1 k1 v).2.txReadKeyMap = s.txReadKeyMap := by
  have hl : mapLookup (Put s c1 k1 v).2.txWriteKeyMap (constructKey c2 k2)
      = mapLookup s.txWriteKeyMap (constructKey c2 k2) := by
    simp [Put, putIntoWriteSet, mapLookup_mapSet_ne _ _ _ _ hne]
  have hr : (Put s c1 k1 v).2.txReadKeyMap = s.txReadKeyMap := rfl
  have hseq : (Put s c1 k1 v).2.txExecSeq = s.txExecSeq := rfl
  refine ⟨?_, ?_, hl, hr⟩
  · unfold Get getFromWriteSet getFromReadSet
    rw [hl, hr, hseq]
    rcases mapLookup s.txWriteKeyMap (constructKey c2 k2) with _ | w
    · rcases mapLookup s.txReadKeyMap (constructKey c2 k2) with _ | r
      · rcases snap.GetKey s.txExecSeq c2 k2 with ⟨val, _ | e⟩ <;> rfl
      · rfl
    · rfl
  · unfold Get getFromWriteSet getFromReadSet
    rw [hl, hr, hseq]
    rcases mapLookup s.txWriteKeyMap (constructKey c2 k2) with _ | w
    · rcases mapLookup s.txReadKeyMap (constructKey c2 k2) with _ | r
      · rcases snap.GetKey s.txExecSeq c2 k2 with ⟨val, _ | e⟩ <;> rfl
      · rfl
    · rfl

/-! ## Claims C1 to C3: the composite key -/

/-- C1, read-your-own-write, evaluated where the code departs from it.  On a
new context `Put("ab", "c", "v")` is followed by `Put("a", "bc", "w")`, which
is not a write to the pair `("ab", "c")`; `Get("ab", "c")` then returns
`("w", nil)` instead of `("v", nil)`, without calling the snapshot: both pairs
have the composite key `"abc"`. -/
theorem C1_get_after_put_returns_colliding_write :
    writesPair [97, 98] (some [99]) (Op.put [97] (some [98, 99]) (some [119])) = false ∧
    (Get (applyOps (Put (newContext 0 (txOf [116])) [97, 98] (some [99]) (some [118])).2
        [Op.put [97] (some [98, 99]) (some [119])])
      (constSnapshot none none) [97, 98] (some [99])).value = some [119] ∧
    (Get (applyOps (Put (newContext 0 (txOf [116])) [97, 98] (some [99]) (some [118])).2
        [Op.put [97] (some [98, 99]) (some [119])])
      (constSnapshot none none) [97, 98] (some [99])).err = none ∧
    (Get (applyOps (Put (newContext 0 (txOf [116])) [97, 98] (some [99]) (some [118])).2
        [Op.put [97] (some [98, 99]) (some [119])])
      (constSnapshot none none) [97, 98] (some [99])).snapshotCalls = [] := by
  decide

/-- C2, read stability, evaluated where the code departs from it.  On a new
context (no write item at all) the first `Get("ab", "c")` returns `("v", nil)`
from the snapshot; `Put("a", "bc", "w")` follows, which is no `Put` or `Del` on
the pair `("ab", "c")`; the second `Get("ab", "c")` returns `("w", nil)`, not
`("v", nil)`.  The snapshot is asked once about the key over the whole run. -/
theorem C2_second_get_returns_colliding_write :
    (Get (newContext 0 (txOf [116])) (constSnapshot (some [118]) none)
      [97, 98] (some [99])).value = some [118] ∧
    (Get (newContext 0 (txOf [116])) (constSnapshot (some [118]) none)
      [97, 98] (some [99])).err = none ∧
    writesPair [97, 98] (some [99]) (Op.put [97] (some [98, 99]) (some [119])) = false ∧
    (Get (applyOps (Get (newContext 0 (txOf [116])) (constSnapshot (some [118]) none)
          [97, 98] (some [99])).ctx [Op.put [97] (some [98, 99]) (some [119])])
      (constSnapshot (some [118]) none) [97, 98] (some [99])).value = some [119] ∧
    (Get (applyOps (Get (newContext 0 (txOf [116])) (constSnapshot (some [118]) none)
          [97, 98] (some [99])).ctx [Op.put [97] (some [98, 99]) (some [119])])
      (constSnapshot (some [118]) none) [97, 98] (some [99])).err = none ∧
    (Get (newContext 0 (txOf [116])) (constSnapshot (some [118]) none)
      [97, 98] (some [99])).snapshotCalls = [⟨0, [97, 98], some [99]⟩] ∧
    (Get (applyOps (Get (newContext 0 (txOf [116])) (constSnapshot (some [118]) none)
          [97, 98] (some [99])).ctx [Op.put [97] (some [98, 99]) (some [119])])
      (constSnapshot (some [118]) none) [97, 98] (some [99])).snapshotCalls = [] := by
  decide

/-- C3, key qualification, evaluated where the code departs from it.  The
pairs `("a", "bc")` and `("ab", "c")` differ and `constructKey` gives both the
string `"abc"`.  With the write item `("ab", "c", "v")` in place,
`Put("a", "bc", "w")` replaces that item by `("a", "bc", "w")` and changes the
result of `Get("ab", "c")` from `"v"` to `"w"`. -/
theorem C3_constructKey_collision :
    (([97], some [98, 99]) : GoString × GoBytes) ≠ ([97, 98], some [99]) ∧
    constructKey [97] (some [98, 99]) = constructKey [97, 98] (some [99]) ∧
    mapLookup (Put (newContext 0 (txOf [116])) [97, 98] (some [99]) (some [118])).2.txWriteKeyMap
      (constructKey [97, 98] (some [99]))
      = some { Key := some [99], Value := some [118], ContractName := [97, 98] } ∧
    (Get (Put (newContext 0 (txOf [116])) [97, 98] (some [99]) (some [118])).2
      (constSnapshot none none) [97, 98] (some [99])).value = some [118] ∧
    mapLookup (Put (Put (newContext 0 (txOf [116])) [97, 98] (some [99]) (some [118])).2
        [97] (some [98, 99]) (some [119])).2.txWriteKeyMap (constructKey [97, 98] (some [99]))
      = some { Key := some [98, 99], Value := some [119], ContractName := [97] } ∧
    (Get (Put (Put (newContext 0 (txOf [116])) [97, 98] (some [99]) (some [118])).2
        [97] (some [98, 99]) (some [119])).2
      (constSnapshot none none) [97, 98] (some [99])).value = some [119] := by
  decide

/-! ## Claim C4: what happens to a recorded read item -/

theorem mem_sortStrings (l : List GoString) (K : GoString) : K ∈ sortStrings l ↔ K ∈ l :=
  (List.perm_insertionSort _ l).mem_iff

/-- The first `GetTxRWSet` reports every read item of the read set. -/
theorem GetTxRWSet_reports_read (s : TxSimContextImpl) (b : Bool) (K : GoString) (r : TxRead)
    (hrw : s.txRWSet = none) (hr : mapLookup s.txReadKeyMap K = some r) :
    r ∈ (GetTxRWSet s b).1.TxReads := by
  have hK : K ∈ sortStrings (mapKeys s.txReadKeyMap) :=
    (mem_sortStrings _ K).mpr ((mapLookup_isSome_iff _ K).mp ⟨r, hr⟩)
  simp only [GetTxRWSet, hrw]
  exact List.mem_filterMap.mpr ⟨K, hK, hr⟩

/-- C4, counterexample.  On a new context the first `Get("c", "k")` records the
read item `("c", "k", "0")` from the snapshot; after `Put("c", "k", "1")` a
second `Get("c", "k")` replaces the value of that read item by `"1"`, and
`GetTxRWSet` reports `"1"`, not `"0"`, as the value read. -/
theorem C4_counterexample_read_item_overwritten :
    mapLookup (Get (newContext 0 (txOf [116])) (constSnapshot (some [48]) none)
        [99] (some [107])).ctx.txReadKeyMap (constructKey [99] (some [107]))
      = some { Key := some [107], Value := some [48], ContractName := [99], Version := none } ∧
    mapLookup (applyOps (Get (newContext 0 (txOf [116])) (constSnapshot (some [48]) none)
        [99] (some [107])).ctx
        [Op.put [99] (some [107]) (some [49]),
         Op.get (constSnapshot (some [48]) none) [99] (some [107])]).txReadKeyMap
        (constructKey [99] (some [107]))
      = some { Key := some [107], Value := some [49], ContractName := [99], Version := none } ∧
    (GetTxRWSet (applyOps (Get (newContext 0 (txOf [116])) (constSnapshot (some [48]) none)
        [99] (some [107])).ctx
        [Op.put [99] (some [107]) (some [49]),
         Op.get (constSnapshot (some [48]) none) [99] (some [107])]) true).1.TxReads
      = [{ Key := some [107], Value := some [49], ContractName := [99], Version := none }] := by
  decide

/-- One access keeps the value of the read item under `K`, unless it is a `Get`
with the composite key `K` that finds a write item of another value; and it
keeps the cached read/write set. -/
theorem applyOp_keeps_read_value (K : GoString) (v : GoBytes) (s : TxSimContextImpl) (op : Op)
    (r : TxRead) (hr : mapLookup s.txReadKeyMap K = some r) (hv : r.Value = v)
    (h : getFindsOtherValue K v s op = false) :
    (∃ r1, mapLookup (applyOp s op).txReadKeyMap K = some r1 ∧ r1.Value = v) ∧
      (applyOp s op).txRWSet = s.txRWSet := by
  cases op with
  | get snap c1 k1 =>
    have hrw : (applyOp s (Op.get snap c1 k1)).txRWSet = s.txRWSet := by
      rcases Get_ctx_cases s snap c1 k1 with h1 | ⟨v1, h1⟩ <;>
        simp [applyOp, h1, putIntoReadSet]
    refine ⟨?_, hrw⟩
    by_cases hK : constructKey c1 k1 = K
    · subst hK
      cases hw : mapLookup s.txWriteKeyMap (constructKey c1 k1) with
      | none =>
        have hg := Get_of_read_hit s snap c1 k1 r hw hr
        exact ⟨r, by simp only [applyOp]; rw [hg.2.2.2]; exact hr, hv⟩
      | some w =>
        have hwv : w.Value = v := by
          simpa [getFindsOtherValue, hw] using h
        have hg := Get_of_write_hit s snap c1 k1 w hw
        refine ⟨{ Key := k1, Value := w.Value, ContractName := c1, Version := none }, ?_, hwv⟩
        simp only [applyOp]
        rw [hg.2.2.2]
        simp [putIntoReadSet, mapLookup_mapSet_self]
    · refine ⟨r, ?_, hv⟩
      simp only [applyOp]
      rw [Get_readLookup_ne s snap c1 k1 K (fun e => hK e.symm)]
      exact hr
  | put c1 k1 v1 => exact ⟨⟨r, hr, hv⟩, rfl⟩
  | del c1 k1 => exact ⟨⟨r, hr, hv⟩, rfl⟩
  | putRecord c1 v1 t =>
    constructor
    · refine ⟨r, ?_, hv⟩
      rw [applyOp_txReadKeyMap_of_write s _ (by intro _ _ _ h; cases h)]
      exact hr
    · simp only [applyOp, PutRecord]
      split <;> rfl

/-- A sequence of accesses keeps the value of the read item under `K` when each
`Get` with the composite key `K` that finds a write item finds one of that
value; and it keeps the cached read/write set. -/
theorem applyOps_keeps_read_value (K : GoString) (v : GoBytes) (ops : List Op)
    (s : TxSimContextImpl) (r : TxRead) (hr : mapLookup s.txReadKeyMap K = some r)
    (hv : r.Value = v) (h : getsFindValue K v s ops = true) :
    (∃ r1, mapLookup (applyOps s ops).txReadKeyMap K = some r1 ∧ r1.Value = v) ∧
      (applyOps s ops).txRWSet = s.txRWSet := by
  induction ops generalizing s r with
  | nil => exact ⟨⟨r, hr, hv⟩, rfl⟩
  | cons op ops ih =>
    simp only [getsFindValue, Bool.and_eq_true, Bool.not_eq_true'] at h
    obtain ⟨⟨r1, hr1, hv1⟩, hrw1⟩ := applyOp_keeps_read_value K v s op r hr hv h.1
    obtain ⟨hex, hrw2⟩ := ih (applyOp s op) r1 hr1 hv1 h.2
    exact ⟨hex, by simp only [applyOps]; rw [hrw2, hrw1]⟩

/-- C4, as amended.  Let the composite key of `(c, k)` have the read item `r`.
`Put`, `Del` and `PutRecord` leave the read set as it is, and a `Get` with
another composite key leaves the read item as it is; a `Get` with that
composite key that finds no write item under it returns the value of `r` and
leaves the context as it is; a `Get` with that composite key that finds the
write item `w` under it stores a read item with the value of `w` in place of
`r`.  So after every sequence of accesses in which each `Get` with that
composite key that finds a write item finds one with the value of `r`, the key
has a read item with the value of `r`, and the first `GetTxRWSet` reports
it. -/
theorem C4_read_item_replaced_only_by_get_on_written_key (s : TxSimContextImpl) (c : GoString)
    (k : GoBytes) (r : TxRead) (hr : mapLookup s.txReadKeyMap (constructKey c k) = some r) :
    (∀ c1 k1 v1, (Put s c1 k1 v1).2.txReadKeyMap = s.txReadKeyMap) ∧
    (∀ c1 k1, (Del s c1 k1).2.txReadKeyMap = s.txReadKeyMap) ∧
    (∀ c1 v1 t, (PutRecord s c1 v1 t).txReadKeyMap = s.txReadKeyMap) ∧
    (∀ snap c1 k1, constructKey c1 k1 ≠ constructKey c k →
      mapLookup (Get s snap c1 k1).ctx.txReadKeyMap (constructKey c k) = some r) ∧
    (∀ snap c1 k1, constructKey c1 k1 = constructKey c k →
      mapLookup s.txWriteKeyMap (constructKey c k) = none →
      (Get s snap c1 k1).value = r.Value ∧ (Get s snap c1 k1).err = none ∧
      (Get s snap c1 k1).ctx = s) ∧
    (∀ snap c1 k1 w, constructKey c1 k1 = constructKey c k →
      mapLookup s.txWriteKeyMap (constructKey c k) = some w →
      (Get s snap c1 k1).value = w.Value ∧ (Get s snap c1 k1).err = none ∧
      mapLookup (Get s snap c1 k1).ctx.txReadKeyMap (constructKey c k)
        = some { Key := k1, Value := w.Value, ContractName := c1, Version := none }) ∧
    (s.txRWSet = none → ∀ b, r ∈ (GetTxRWSet s b).1.TxReads) ∧
    (∀ ops, getsFindValue (constructKey c k) r.Value s ops = true →
      ∃ r1, mapLookup (applyOps s ops).txReadKeyMap (constructKey c k) = some r1 ∧
        r1.Value = r.Value ∧
        (s.txRWSet = none → ∀ b, r1 ∈ (GetTxRWSet (applyOps s ops) b).1.TxReads)) := by
  refine ⟨fun _ _ _ => rfl, fun _ _ => rfl, ?_, ?_, ?_, ?_, ?_, ?_⟩
  · intro c1 v1 t
    simp only [PutRecord]
    split <;> rfl
  · intro snap c1 k1 hne
    rw [Get_readLookup_ne s snap c1 k1 _ (fun e => hne e.symm)]
    exact hr
  · intro snap c1 k1 hK hw
    rw [← hK] at hw hr
    have h := Get_of_read_hit s snap c1 k1 r hw hr
    exact ⟨h.1, h.2.1, h.2.2.2⟩
  · intro snap c1 k1 w hK hw
    rw [← hK] at hw
    have h := Get_of_write_hit s snap c1 k1 w hw
    refine ⟨h.1, h.2.1, ?_⟩
    rw [h.2.2.2, ← hK]
    simp [putIntoReadSet, mapLookup_mapSet_self]
  · intro hrw b
    exact GetTxRWSet_reports_read s b _ r hrw hr
  · intro ops hops
    obtain ⟨⟨r1, hr1, hv1⟩, hrw1⟩ :=
      applyOps_keeps_read_value (constructKey c k) r.Value ops s r hr rfl hops
    refine ⟨r1, hr1, hv1, ?_⟩
    intro hrw b
    exact GetTxRWSet_reports_read (applyOps s ops) b _ r1 (by rw [hrw1]; exact hrw) hr1

/-- C4, amended claim at a concrete context: the read item `("c", "k", "0")`
recorded by a first `Get` on a new context.  A second `Get` there returns "0"
whatever the snapshot holds, and after a `Put` and a `Get` on another key, a
`Put("c", "k", "0")` and a further `Get("c", "k")` the read item still has the
value "0". -/
theorem C4_read_item_replaced_only_by_get_on_written_key_witness :
    mapLookup (Get (newContext 0 (txOf [116])) (constSnapshot (some [48]) none)
        [99] (some [107])).ctx.txReadKeyMap (constructKey [99] (some [107]))
      = some { Key := some [107], Value := some [48], ContractName := [99], Version := none } ∧
    (Get (Get (newContext 0 (txOf [116])) (constSnapshot (some [48]) none)
        [99] (some [107])).ctx (constSnapshot (some [50]) none) [99] (some [107])).value
      = some [48] ∧
    ∃ r1, mapLookup (applyOps (Get (newContext 0 (txOf [116])) (constSnapshot (some [48]) none)
        [99] (some [107])).ctx
        [Op.put [100] (some [113]) (some [55]),
         Op.get (constSnapshot (some [57]) none) [100] (some [113]),
         Op.put [99] (some [107]) (some [48]),
         Op.get (constSnapshot (some [57]) none) [99] (some [107])]).txReadKeyMap
        (constructKey [99] (some [107])) = some r1 ∧ r1.Value = some [48] :=
  have h := C4_read_item_replaced_only_by_get_on_written_key
      (Get (newContext 0 (txOf [116])) (constSnapshot (some [48]) none) [99] (some [107])).ctx
      [99] (some [107])
      { Key := some [107], Value := some [48], ContractName := [99], Version := none }
      (by decide)
  ⟨by decide,
   (h.2.2.2.2.1 (constSnapshot (some [50]) none) [99] (some [107]) rfl (by decide)).1,
   (h.2.2.2.2.2.2.2
      [Op.put [100] (some [113]) (some [55]),
       Op.get (constSnapshot (some [57]) none) [100] (some [113]),
       Op.put [99] (some [107]) (some [48]),
       Op.get (constSnapshot (some [57]) none) [99] (some [107])] (by decide)).elim
     (fun r1 hr1 => ⟨r1, hr1.1, hr1.2.1⟩)⟩

/-! ## Claim C5: last write wins -/

/-- In a map with one entry a key, the entries stored under `K` are the one
entry that the lookup of `K` finds. -/
theorem filter_key_of_lookup {α : Type} (m : GoMap α) (K : GoString) (v : α)
    (hm : (mapKeys m).Nodup) (hl : mapLookup m K = some v) :
    m.filter (fun p => decide (p.1 = K)) = [(K, v)] := by
  induction m with
  | nil => simp [mapLookup] at hl
  | cons p m ih =>
    obtain ⟨k0, v0⟩ := p
    have hm2 : k0 ∉ mapKeys m ∧ (mapKeys m).Nodup := by
      simpa [mapKeys] using hm
    by_cases h : k0 = K
    · subst h
      have hv : v0 = v := by simpa [mapLookup] using hl
      subst hv
      have hnone : m.filter (fun p => decide (p.1 = k0)) = [] := by
        rw [List.filter_eq_nil_iff]
        intro q hq hq2
        have : q.1 = k0 := by simpa using hq2
        exact hm2.1 (this ▸ List.mem_map_of_mem Prod.fst hq)
      simp [List.filter_cons, hnone]
    · have hl2 : mapLookup m K = some v := by simpa [mapLookup, h] using hl
      simp [List.filter_cons, h, ih hm2.2 hl2]

/-- The write item an access stores under `K`, if it stores one. -/
theorem applyOp_writeLookup_cases (s : TxSimContextImpl) (op : Op) (K : GoString) :
    (∀ w, lastWrite K [op] = some w → mapLookup (applyOp s op).txWriteKeyMap K = some w) ∧
      (lastWrite K [op] = none →
        mapLookup (applyOp s op).txWriteKeyMap K = mapLookup s.txWriteKeyMap K) := by
  cases op with
  | get snap c k => simp [lastWrite, applyOp, Get_txWriteKeyMap]
  | put c k v =>
    by_cases h : constructKey c k = K
    · subst h
      simp [lastWrite, applyOp, Put, putIntoWriteSet, mapLookup_mapSet_self]
    · have hne : K ≠ constructKey c k := fun e => h e.symm
      simp [lastWrite, applyOp, Put, putIntoWriteSet, h, mapLookup_mapSet_ne _ _ _ _ hne]
  | del c k =>
    by_cases h : constructKey c k = K
    · subst h
      simp [lastWrite, applyOp, Del, putIntoWriteSet, mapLookup_mapSet_self]
    · have hne : K ≠ constructKey c k := fun e => h e.symm
      simp [lastWrite, applyOp, Del, putIntoWriteSet, h, mapLookup_mapSet_ne _ _ _ _ hne]
  | putRecord c v t =>
    have h : (applyOp s (Op.putRecord c v t)).txWriteKeyMap = s.txWriteKeyMap := by
      simp only [applyOp, PutRecord]
      split <;> rfl
    simp [lastWrite, h]

theorem lastWrite_cons (K : GoString) (op : Op) (ops : List Op) :
    lastWrite K (op :: ops)
      = match lastWrite K ops with
        | some w => some w
        | none => lastWrite K [op] := by
  cases h : lastWrite K ops with
  | some w => simp [lastWrite, h]
  | none => cases op <;> simp [lastWrite, h]

theorem applyOps_writeLookup_cases (s : TxSimContextImpl) (ops : List Op) (K : GoString) :
    (∀ w, lastWrite K ops = some w → mapLookup (applyOps s ops).txWriteKeyMap K = some w) ∧
      (lastWrite K ops = none →
        mapLookup (applyOps s ops).txWriteKeyMap K = mapLookup s.txWriteKeyMap K) := by
  induction ops generalizing s with
  | nil => simp [lastWrite, applyOps]
  | cons op ops ih =>
    have h1 := applyOp_writeLookup_cases s op K
    have h2 := ih (applyOp s op)
    rw [lastWrite_cons]
    cases hl : lastWrite K ops with
    | some w0 =>
      refine ⟨?_, ?_⟩
      · intro w hw
        simp only [applyOps]
        cases hw
        exact h2.1 w0 hl
      · intro hw
        cases hw
    | none =>
      refine ⟨?_, ?_⟩
      · intro w hw
        simp only [applyOps]
        rw [h2.2 hl]
        exact h1.1 w hw
      · intro hw
        simp only [applyOps]
        rw [h2.2 hl]
        exact h1.2 hw

theorem applyOp_nodup_writeKeys (s : TxSimContextImpl) (op : Op)
    (hs : (mapKeys s.txWriteKeyMap).Nodup) : (mapKeys (applyOp s op).txWriteKeyMap).Nodup := by
  cases op with
  | get snap c k =>
    simp only [applyOp, Get_txWriteKeyMap]
    exact hs
  | put c k v => exact nodup_mapKeys_mapSet _ _ _ hs
  | del c k => exact nodup_mapKeys_mapSet _ _ _ hs
  | putRecord c v t =>
    have h : (applyOp s (Op.putRecord c v t)).txWriteKeyMap = s.txWriteKeyMap := by
      simp only [applyOp, PutRecord]
      split <;> rfl
    rw [h]
    exact hs

theorem applyOps_nodup_writeKeys (s : TxSimContextImpl) (ops : List Op)
    (hs : (mapKeys s.txWriteKeyMap).Nodup) : (mapKeys (applyOps s ops).txWriteKeyMap).Nodup := by
  induction ops generalizing s with
  | nil => exact hs
  | cons op ops ih => exact ih (applyOp s op) (applyOp_nodup_writeKeys s op hs)

/-- C5.  After any sequence of accesses on a context whose write set is a map
(one entry a key), every composite key `K` written by a `Put` or `Del` of the
sequence has exactly one write item, and it is the one of the last such call:
the value of that `Put`, or `nil` for a `Del`; a key the sequence does not
write keeps the item it had.  `Del(c, k)` and `Put(c, k, nil)` return the same
error and leave the same context, and the error of `Put` and of `Del` is
always `nil`. -/
theorem C5_last_write_wins (s : TxSimContextImpl) (ops : List Op)
    (hs : (mapKeys s.txWriteKeyMap).Nodup) :
    (∀ K w, lastWrite K ops = some w →
      mapLookup (applyOps s ops).txWriteKeyMap K = some w ∧
      (applyOps s ops).txWriteKeyMap.filter (fun p => decide (p.1 = K)) = [(K, w)]) ∧
    (∀ K, lastWrite K ops = none →
      mapLookup (applyOps s ops).txWriteKeyMap K = mapLookup s.txWriteKeyMap K) ∧
    (mapKeys (applyOps s ops).txWriteKeyMap).Nodup ∧
    (∀ (s1 : TxSimContextImpl) c k, Del s1 c k = Put s1 c k none) ∧
    (∀ (s1 : TxSimContextImpl) c k v, (Put s1 c k v).1 = none) ∧
    (∀ (s1 : TxSimContextImpl) c k, (Del s1 c k).1 = none) := by
  have hnd := applyOps_nodup_writeKeys s ops hs
  refine ⟨?_, ?_, hnd, fun _ _ _ => rfl, fun _ _ _ _ => rfl, fun _ _ _ => rfl⟩
  · intro K w hw
    have hl := (applyOps_writeLookup_cases s ops K).1 w hw
    exact ⟨hl, filter_key_of_lookup _ K w hnd hl⟩
  · intro K hK
    exact (applyOps_writeLookup_cases s ops K).2 hK

/-- C5 at a concrete sequence on a new context: `Put("c", "k", "1")`,
`Put("c", "k", "2")`, `Del("c", "j")`.  The key `"ck"` holds the value `"2"`
and the key `"cj"` holds `nil`, each in one write item. -/
theorem C5_last_write_wins_witness :
    (mapKeys (newContext 0 (txOf [116])).txWriteKeyMap).Nodup ∧
    mapLookup (applyOps (newContext 0 (txOf [116]))
        [Op.put [99] (some [107]) (some [49]), Op.put [99] (some [107]) (some [50]),
         Op.del [99] (some [106])]).txWriteKeyMap [99, 107]
      = some { Key := some [107], Value := some [50], ContractName := [99] } ∧
    (applyOps (newContext 0 (txOf [116]))
        [Op.put [99] (some [107]) (some [49]), Op.put [99] (some [107]) (some [50]),
         Op.del [99] (some [106])]).txWriteKeyMap.filter (fun p => decide (p.1 = [99, 107]))
      = [([99, 107], { Key := some [107], Value := some [50], ContractName := [99] })] :=
  ⟨by decide,
   (C5_last_write_wins (newContext 0 (txOf [116]))
      [Op.put [99] (some [107]) (some [49]), Op.put [99] (some [107]) (some [50]),
       Op.del [99] (some [106])] (by decide)).1 [99, 107]
      { Key := some [107], Value := some [50], ContractName := [99] } (by decide)⟩

/-! ## The order of Go strings and `sort.Strings` -/

theorem strLt_cons (x y : Byte) (xs ys : GoString) :
    strLt (x :: xs) (y :: ys) = true ↔ x < y ∨ (x = y ∧ strLt xs ys = true) := by
  simp [strLt]

theorem strLt_irrefl (a : GoString) : strLt a a = false := by
  induction a with
  | nil => rfl
  | cons x xs ih => simp [strLt, ih]

theorem strLt_asymm : ∀ (a b : GoString), strLt a b = true → strLt b a = false
  | [], [], h => by simp [strLt] at h
  | [], _ :: _, _ => by simp [strLt]
  | _ :: _, [], h => by simp [strLt] at h
  | x :: xs, y :: ys, h => by
    rw [strLt_cons] at h
    rw [Bool.eq_false_iff]
    intro h2
    rw [strLt_cons] at h2
    rcases h with h | ⟨h, h3⟩
    · rcases h2 with h2 | ⟨h2, _⟩
      · exact lt_asymm h h2
      · subst h2
        exact lt_irrefl _ h
    · subst h
      rcases h2 with h2 | ⟨_, h2⟩
      · exact lt_irrefl _ h2
      · have := strLt_asymm xs ys h3
        rw [h2] at this
        cases this

theorem strLt_trans : ∀ (a b c : GoString), strLt a b = true → strLt b c = true →
    strLt a c = true
  | [], [], _, h, _ => by simp [strLt] at h
  | [], _ :: _, [], _, h => by simp [strLt] at h
  | [], _ :: _, _ :: _, _, _ => by simp [strLt]
  | _ :: _, [], _, h, _ => by simp [strLt] at h
  | _ :: _, _ :: _, [], _, h => by simp [strLt] at h
  | x :: xs, y :: ys, z :: zs, h1, h2 => by
    rw [strLt_cons] at h1 h2 ⊢
    rcases h1 with h1 | ⟨h1, h3⟩
    · rcases h2 with h2 | ⟨h2, _⟩
      · exact Or.inl (lt_trans h1 h2)
      · subst h2
        exact Or.inl h1
    · subst h1
      rcases h2 with h2 | ⟨h2, h4⟩
      · exact Or.inl h2
      · subst h2
        exact Or.inr ⟨rfl, strLt_trans xs ys zs h3 h4⟩

theorem strLt_connex : ∀ (a b : GoString), strLt a b = false → strLt b a = false → a = b
  | [], [], _, _ => rfl
  | [], _ :: _, h, _ => by simp [strLt] at h
  | _ :: _, [], _, h => by simp [strLt] at h
  | x :: xs, y :: ys, h1, h2 => by
    rw [Bool.eq_false_iff, Ne, strLt_cons] at h1 h2
    have hxy : x = y := by
      rcases lt_trichotomy x y with h | h | h
      · exact absurd (Or.inl h) h1
      · exact h
      · exact absurd (Or.inl h) h2
    subst hxy
    have h3 : strLt xs ys = false := by
      rw [Bool.eq_false_iff]
      exact fun h => h1 (Or.inr ⟨rfl, h⟩)
    have h4 : strLt ys xs = false := by
      rw [Bool.eq_false_iff]
      exact fun h => h2 (Or.inr ⟨rfl, h⟩)
    rw [strLt_connex xs ys h3 h4]

theorem strLe_total (a b : GoString) : strLe a b = true ∨ strLe b a = true := by
  cases h : strLt b a with
  | false => exact Or.inl (by simp [strLe, h])
  | true => exact Or.inr (by simp [strLe, strLt_asymm b a h])

theorem strLe_trans (a b c : GoString) (h1 : strLe a b = true) (h2 : strLe b c = true) :
    strLe a c = true := by
  simp only [strLe, Bool.not_eq_true'] at h1 h2 ⊢
  rw [Bool.eq_false_iff]
  intro h3
  cases h4 : strLt a b with
  | false =>
    have hab : a = b := strLt_connex a b h4 h1
    subst hab
    rw [h3] at h2
    cases h2
  | true =>
    have := strLt_trans c a b h3 h4
    rw [this] at h2
    cases h2

/-- The keys that `sort.Strings` returns are those it was given. -/
theorem sortStrings_perm (l : List GoString) : (sortStrings l).Perm l :=
  List.perm_insertionSort _ l

/-- `sort.Strings` on distinct keys returns them in strictly ascending order. -/
theorem sortStrings_strict (l : List GoString) (hl : l.Nodup) :
    (sortStrings l).Pairwise (fun a b => strLt a b = true) := by
  haveI : IsTotal GoString (fun a b => strLe a b = true) := ⟨strLe_total⟩
  haveI : IsTrans GoString (fun a b => strLe a b = true) := ⟨strLe_trans⟩
  have hs : (sortStrings l).Pairwise (fun a b => strLe a b = true) :=
    List.sorted_insertionSort (fun a b => strLe a b = true) l
  have hn : (sortStrings l).Pairwise (fun a b => a ≠ b) :=
    (sortStrings_perm l).nodup_iff.mpr hl
  refine (hs.and hn).imp ?_
  intro a b hab
  obtain ⟨hle, hne⟩ := hab
  cases h : strLt a b with
  | true => rfl
  | false =>
    have hba : strLt b a = false := by simpa [strLe] using hle
    exact absurd (strLt_connex a b h hba) hne

/-! ## Maps read out in key order -/

theorem mapLookup_mem {α : Type} (m : GoMap α) (k : GoString) (v : α)
    (h : mapLookup m k = some v) : (k, v) ∈ m := by
  induction m with
  | nil => simp [mapLookup] at h
  | cons p m ih =>
    obtain ⟨k0, v0⟩ := p
    by_cases hk : k0 = k
    · subst hk
      have hv : v0 = v := by simpa [mapLookup] using h
      subst hv
      exact List.mem_cons_self _ _
    · have h2 : mapLookup m k = some v := by simpa [mapLookup, hk] using h
      exact List.mem_cons_of_mem _ (ih h2)

theorem mem_mapSet {α : Type} (m : GoMap α) (k : GoString) (v : α) (p : GoString × α)
    (hp : p ∈ mapSet m k v) : p = (k, v) ∨ p ∈ m := by
  induction m with
  | nil =>
    simp only [mapSet, List.mem_singleton] at hp
    exact Or.inl hp
  | cons q m ih =>
    obtain ⟨k0, v0⟩ := q
    by_cases hk : k0 = k
    · simp only [mapSet, hk, if_true, List.mem_cons] at hp
      rcases hp with hp | hp
      · exact Or.inl hp
      · exact Or.inr (List.mem_cons_of_mem _ hp)
    · simp only [mapSet, hk, if_false, List.mem_cons] at hp
      rcases hp with hp | hp
      · exact Or.inr (hp ▸ List.mem_cons_self _ _)
      · rcases ih hp with h | h
        · exact Or.inl h
        · exact Or.inr (List.mem_cons_of_mem _ h)

theorem MapWF_mapSet {α : Type} (keyOf : α → GoString) (m : GoMap α) (v : α)
    (hm : MapWF keyOf m) : MapWF keyOf (mapSet m (keyOf v) v) := by
  refine ⟨nodup_mapKeys_mapSet m _ v hm.1, ?_⟩
  intro p hp
  rcases mem_mapSet m _ v p hp with h | h
  · rw [h]
  · exact hm.2 p h

/-- Looking up the keys of a list one after the other gives items whose keys
are that list. -/
theorem keys_of_lookups {α : Type} (keyOf : α → GoString) (m : GoMap α) (l : List GoString)
    (hwf : ∀ p ∈ m, p.1 = keyOf p.2) (hl : ∀ k ∈ l, k ∈ mapKeys m) :
    (l.filterMap (fun k => mapLookup m k)).map keyOf = l := by
  induction l with
  | nil => rfl
  | cons k l ih =>
    obtain ⟨v, hv⟩ := (mapLookup_isSome_iff m k).mpr (hl k (List.mem_cons_self _ _))
    have hk : keyOf v = k := (hwf (k, v) (mapLookup_mem m k v hv)).symm
    have ih2 := ih (fun k1 hk1 => hl k1 (List.mem_cons_of_mem _ hk1))
    simp only [List.filterMap_cons, hv, List.map_cons, hk, ih2]

/-- Looking up the keys of a map in the order of its entries gives its values. -/
theorem lookups_of_keys {α : Type} (m : GoMap α) (hm : (mapKeys m).Nodup) :
    (mapKeys m).filterMap (fun k => mapLookup m k) = mapValues m := by
  induction m with
  | nil => rfl
  | cons p m ih =>
    obtain ⟨k0, v0⟩ := p
    have hm2 : k0 ∉ mapKeys m ∧ (mapKeys m).Nodup := by
      simpa [mapKeys] using hm
    have hrest : (mapKeys m).filterMap (fun k => mapLookup ((k0, v0) :: m) k)
        = (mapKeys m).filterMap (fun k => mapLookup m k) := by
      apply List.filterMap_congr
      intro k hk
      have hne : ¬ k0 = k := fun e => hm2.1 (e ▸ hk)
      simp [mapLookup, hne]
    have h0 : mapLookup ((k0, v0) :: m) k0 = some v0 := by simp [mapLookup]
    simp only [mapKeys, mapValues, List.map_cons, List.filterMap_cons, h0]
    have ih2 := ih hm2.2
    simp only [mapKeys, mapValues] at hrest ih2
    rw [hrest, ih2]

/-- The items of a map read out in the order of its sorted keys: every value
once, in strictly ascending order of key. -/
theorem sorted_items {α : Type} (keyOf : α → GoString) (m : GoMap α) (hm : MapWF keyOf m) :
    (((sortStrings (mapKeys m)).filterMap (fun k => mapLookup m k)).map keyOf).Pairwise
        (fun a b => strLt a b = true) ∧
      ((sortStrings (mapKeys m)).filterMap (fun k => mapLookup m k)).Perm (mapValues m) := by
  constructor
  · rw [keys_of_lookups keyOf m _ hm.2 (fun k hk => (mem_sortStrings _ k).mp hk)]
    exact sortStrings_strict _ hm.1
  · rw [← lookups_of_keys m hm.1]
    exact (sortStrings_perm (mapKeys m)).filterMap _

/-! ## What a sequence of accesses leaves in the context -/

theorem applyOp_txRWSet (s : TxSimContextImpl) (op : Op) :
    (applyOp s op).txRWSet = s.txRWSet := by
  cases op with
  | get snap c k =>
    rcases Get_ctx_cases s snap c k with h | ⟨v, h⟩ <;> simp [applyOp, h, putIntoReadSet]
  | put c k v => rfl
  | del c k => rfl
  | putRecord c v t =>
    simp only [applyOp, PutRecord]
    split <;> rfl

theorem applyOps_txRWSet (s : TxSimContextImpl) (ops : List Op) :
    (applyOps s ops).txRWSet = s.txRWSet := by
  induction ops generalizing s with
  | nil => rfl
  | cons op ops ih => simp only [applyOps, ih, applyOp_txRWSet]

theorem applyOp_tx (s : TxSimContextImpl) (op : Op) : (applyOp s op).tx = s.tx := by
  cases op with
  | get snap c k =>
    rcases Get_ctx_cases s snap c k with h | ⟨v, h⟩ <;> simp [applyOp, h, putIntoReadSet]
  | put c k v => rfl
  | del c k => rfl
  | putRecord c v t =>
    simp only [applyOp, PutRecord]
    split <;> rfl

theorem applyOps_tx (s : TxSimContextImpl) (ops : List Op) : (applyOps s ops).tx = s.tx := by
  induction ops generalizing s with
  | nil => rfl
  | cons op ops ih => simp only [applyOps, ih, applyOp_tx]

theorem applyOp_readWF (s : TxSimContextImpl) (op : Op) (hs : MapWF readKey s.txReadKeyMap) :
    MapWF readKey (applyOp s op).txReadKeyMap := by
  cases op with
  | get snap c k =>
    rcases Get_ctx_cases s snap c k with h | ⟨v, h⟩
    · simp only [applyOp, h]
      exact hs
    · simp only [applyOp, h, putIntoReadSet]
      exact MapWF_mapSet readKey s.txReadKeyMap
        { Key := k, Value := v, ContractName := c, Version := none } hs
  | put c k v => exact hs
  | del c k => exact hs
  | putRecord c v t =>
    rw [applyOp_txReadKeyMap_of_write s _ (by intro _ _ _ h; cases h)]
    exact hs

theorem applyOp_writeWF (s : TxSimContextImpl) (op : Op) (hs : MapWF writeKey s.txWriteKeyMap) :
    MapWF writeKey (applyOp s op).txWriteKeyMap := by
  cases op with
  | get snap c k =>
    simp only [applyOp, Get_txWriteKeyMap]
    exact hs
  | put c k v =>
    exact MapWF_mapSet writeKey s.txWriteKeyMap { Key := k, Value := v, ContractName := c } hs
  | del c k =>
    exact MapWF_mapSet writeKey s.txWriteKeyMap { Key := k, Value := none, ContractName := c } hs
  | putRecord c v t =>
    have h : (applyOp s (Op.putRecord c v t)).txWriteKeyMap = s.txWriteKeyMap := by
      simp only [applyOp, PutRecord]
      split <;> rfl
    rw [h]
    exact hs

theorem applyOps_WF (s : TxSimContextImpl) (ops : List Op)
    (hr : MapWF readKey s.txReadKeyMap) (hw : MapWF writeKey s.txWriteKeyMap) :
    MapWF readKey (applyOps s ops).txReadKeyMap ∧
      MapWF writeKey (applyOps s ops).txWriteKeyMap := by
  induction ops generalizing s with
  | nil => exact ⟨hr, hw⟩
  | cons op ops ih => exact ih (applyOp s op) (applyOp_readWF s op hr) (applyOp_writeWF s op hw)

theorem applyOp_sql (s : TxSimContextImpl) (op : Op) :
    (applyOp s op).txWriteKeySql = s.txWriteKeySql ++ recordWrites [op] ∧
      (applyOp s op).txWriteKeyDdlSql = s.txWriteKeyDdlSql ++ ddlRecordWrites [op] := by
  cases op with
  | get snap c k =>
    rcases Get_ctx_cases s snap c k with h | ⟨v, h⟩ <;>
      simp [applyOp, h, recordWrites, ddlRecordWrites, putIntoReadSet]
  | put c k v => simp [applyOp, Put, putIntoWriteSet, recordWrites, ddlRecordWrites]
  | del c k => simp [applyOp, Del, putIntoWriteSet, recordWrites, ddlRecordWrites]
  | putRecord c v t => cases t <;> simp [applyOp, PutRecord, recordWrites, ddlRecordWrites]

theorem recordWrites_cons (op : Op) (ops : List Op) :
    recordWrites (op :: ops) = recordWrites [op] ++ recordWrites ops ∧
      ddlRecordWrites (op :: ops) = ddlRecordWrites [op] ++ ddlRecordWrites ops := by
  cases op with
  | get snap c k => simp [recordWrites, ddlRecordWrites]
  | put c k v => simp [recordWrites, ddlRecordWrites]
  | del c k => simp [recordWrites, ddlRecordWrites]
  | putRecord c v t => cases t <;> simp [recordWrites, ddlRecordWrites]

theorem applyOps_sql (s : TxSimContextImpl) (ops : List Op) :
    (applyOps s ops).txWriteKeySql = s.txWriteKeySql ++ recordWrites ops ∧
      (applyOps s ops).txWriteKeyDdlSql = s.txWriteKeyDdlSql ++ ddlRecordWrites ops := by
  induction ops generalizing s with
  | nil => simp [applyOps, recordWrites, ddlRecordWrites]
  | cons op ops ih =>
    have h1 := applyOp_sql s op
    have h2 := ih (applyOp s op)
    have h3 := recordWrites_cons op ops
    simp only [applyOps]
    rw [h2.1, h2.2, h1.1, h1.2, h3.1, h3.2]
    simp

/-! ## Claims C6 to C8: the read/write set that `GetTxRWSet` returns -/

theorem GetTxRWSet_first (s : TxSimContextImpl) (b : Bool) (hrw : s.txRWSet = none) :
    (GetTxRWSet s b).1.TxId = s.tx.Payload.TxId ∧
      (GetTxRWSet s b).1.TxReads
        = (sortStrings (mapKeys s.txReadKeyMap)).filterMap (fun k => mapLookup s.txReadKeyMap k) ∧
      (GetTxRWSet s true).1.TxWrites
        = (sortStrings (mapKeys s.txWriteKeyMap)).filterMap
            (fun k => mapLookup s.txWriteKeyMap k) ++ s.txWriteKeySql ∧
      (GetTxRWSet s false).1.TxWrites = s.txWriteKeyDdlSql := by
  simp [GetTxRWSet, hrw]

/-- C6.  Let a context hold its read set and its write set as Go maps keyed by
composite key and let `GetTxRWSet` not have been called on it.  After any
sequence of accesses the first `GetTxRWSet(true)` returns: as `TxReads`, every
read item of the read set once, in strictly ascending order of composite key;
as `TxWrites`, every write item of the write set once, in strictly ascending
order of composite key, followed by the `PutRecord` writes (those the context
already held, then those of the sequence, DML and DDL alike, in call order). -/
theorem C6_success_rwset_is_canonical (s0 : TxSimContextImpl) (ops : List Op)
    (hr : MapWF readKey s0.txReadKeyMap) (hw : MapWF writeKey s0.txWriteKeyMap)
    (hrw : s0.txRWSet = none) :
    (((GetTxRWSet (applyOps s0 ops) true).1.TxReads.map readKey).Pairwise
      (fun a b => strLt a b = true)) ∧
    (GetTxRWSet (applyOps s0 ops) true).1.TxReads.Perm
      (mapValues (applyOps s0 ops).txReadKeyMap) ∧
    ∃ W : List TxWrite,
      (GetTxRWSet (applyOps s0 ops) true).1.TxWrites
        = W ++ (s0.txWriteKeySql ++ recordWrites ops) ∧
      (W.map writeKey).Pairwise (fun a b => strLt a b = true) ∧
      W.Perm (mapValues (applyOps s0 ops).txWriteKeyMap) := by
  have hwf := applyOps_WF s0 ops hr hw
  have hnone : (applyOps s0 ops).txRWSet = none := by rw [applyOps_txRWSet, hrw]
  have hg := GetTxRWSet_first (applyOps s0 ops) true hnone
  have hreads := sorted_items readKey _ hwf.1
  have hwrites := sorted_items writeKey _ hwf.2
  refine ⟨?_, ?_, _, ?_, hwrites.1, hwrites.2⟩
  · rw [hg.2.1]
    exact hreads.1
  · rw [hg.2.1]
    exact hreads.2
  · rw [hg.2.2.1, (applyOps_sql s0 ops).1]

/-- C6 at a concrete sequence on a new context: `Put("b", "k", "1")`,
`PutRecord("s", "q", DML)`, `Put("a", "k", "2")`, `PutRecord("s", "d", DDL)`.
The write items come out as `"ak"`, `"bk"`, then the two records in call
order. -/
theorem C6_success_rwset_is_canonical_witness :
    MapWF readKey (newContext 0 (txOf [116])).txReadKeyMap ∧
    MapWF writeKey (newContext 0 (txOf [116])).txWriteKeyMap ∧
    (newContext 0 (txOf [116])).txRWSet = none ∧
    (GetTxRWSet (applyOps (newContext 0 (txOf [116]))
        [Op.put [98] (some [107]) (some [49]), Op.putRecord [115] (some [113]) SqlType.SqlTypeDml,
         Op.put [97] (some [107]) (some [50]),
         Op.putRecord [115] (some [100]) SqlType.SqlTypeDdl]) true).1.TxWrites
      = [{ Key := some [107], Value := some [50], ContractName := [97] },
         { Key := some [107], Value := some [49], ContractName := [98] },
         { Key := none, Value := some [113], ContractName := [115] },
         { Key := none, Value := some [100], ContractName := [115] }] ∧
    (((GetTxRWSet (applyOps (newContext 0 (txOf [116]))
        [Op.put [98] (some [107]) (some [49]), Op.putRecord [115] (some [113]) SqlType.SqlTypeDml,
         Op.put [97] (some [107]) (some [50]),
         Op.putRecord [115] (some [100]) SqlType.SqlTypeDdl]) true).1.TxReads.map readKey).Pairwise
      (fun a b => strLt a b = true)) :=
  ⟨⟨List.nodup_nil, by simp [newContext]⟩, ⟨List.nodup_nil, by simp [newContext]⟩, rfl,
   by decide,
   (C6_success_rwset_is_canonical (newContext 0 (txOf [116]))
      [Op.put [98] (some [107]) (some [49]), Op.putRecord [115] (some [113]) SqlType.SqlTypeDml,
       Op.put [97] (some [107]) (some [50]),
       Op.putRecord [115] (some [100]) SqlType.SqlTypeDdl]
      ⟨List.nodup_nil, by simp [newContext]⟩ ⟨List.nodup_nil, by simp [newContext]⟩ rfl).1⟩

/-- C7.  On a context that holds no DDL record yet and on which `GetTxRWSet`
has not been called, after any sequence of `Get`, `Put`, `Del` and `PutRecord`
calls the `TxWrites` of the first `GetTxRWSet(false)` is the list of the
`PutRecord` writes of kind DDL, in call order, and nothing else. -/
theorem C7_failure_keeps_only_ddl_records (s0 : TxSimContextImpl) (ops : List Op)
    (hrw : s0.txRWSet = none) (hddl : s0.txWriteKeyDdlSql = []) :
    (GetTxRWSet (applyOps s0 ops) false).1.TxWrites = ddlRecordWrites ops := by
  have hnone : (applyOps s0 ops).txRWSet = none := by rw [applyOps_txRWSet, hrw]
  rw [(GetTxRWSet_first (applyOps s0 ops) false hnone).2.2.2, (applyOps_sql s0 ops).2, hddl]
  rfl

/-- C7 at a concrete sequence on a new context: `Put("c", "k", "1")`,
`PutRecord("s", "q", DML)`, `PutRecord("s", "d", DDL)`, `Del("c", "j")`; only
the DDL record is returned. -/
theorem C7_failure_keeps_only_ddl_records_witness :
    (newContext 0 (txOf [116])).txRWSet = none ∧
    (newContext 0 (txOf [116])).txWriteKeyDdlSql = [] ∧
    (GetTxRWSet (applyOps (newContext 0 (txOf [116]))
        [Op.put [99] (some [107]) (some [49]), Op.putRecord [115] (some [113]) SqlType.SqlTypeDml,
         Op.putRecord [115] (some [100]) SqlType.SqlTypeDdl,
         Op.del [99] (some [106])]) false).1.TxWrites
      = [{ Key := none, Value := some [100], ContractName := [115] }] :=
  ⟨rfl, rfl,
   C7_failure_keeps_only_ddl_records (newContext 0 (txOf [116]))
      [Op.put [99] (some [107]) (some [49]), Op.putRecord [115] (some [113]) SqlType.SqlTypeDml,
       Op.putRecord [115] (some [100]) SqlType.SqlTypeDdl, Op.del [99] (some [106])] rfl rfl⟩

/-- C8, counterexample.  On a new context a `Get("c", "k")` records the read
item `("c", "k", "0")`; `GetTxRWSet(false)` then returns that read item in
`TxReads`, which is not empty. -/
theorem C8_counterexample_failed_reads_returned :
    (GetTxRWSet (Get (newContext 0 (txOf [116])) (constSnapshot (some [48]) none)
        [99] (some [107])).ctx false).1.TxReads
      = [{ Key := some [107], Value := some [48], ContractName := [99], Version := none }] := by
  decide

/-- C8, as amended.  On a context on which `GetTxRWSet` has not been called,
`GetTxRWSet(false)` returns the `TxReads` that `GetTxRWSet(true)` returns, with
every read item that `Get` has recorded; `TxWrites` alone is cut down, to the
DDL records. -/
theorem C8_failure_returns_reads (s : TxSimContextImpl) (hrw : s.txRWSet = none) :
    (GetTxRWSet s false).1.TxReads = (GetTxRWSet s true).1.TxReads ∧
    (∀ K r, mapLookup s.txReadKeyMap K = some r → r ∈ (GetTxRWSet s false).1.TxReads) ∧
    (GetTxRWSet s false).1.TxWrites = s.txWriteKeyDdlSql := by
  refine ⟨?_, ?_, (GetTxRWSet_first s false hrw).2.2.2⟩
  · rw [(GetTxRWSet_first s false hrw).2.1, (GetTxRWSet_first s true hrw).2.1]
  · intro K r h
    exact GetTxRWSet_reports_read s false K r hrw h

/-- C8, amended claim at a concrete context: after `Get("c", "k")` and
`Put("c", "j", "1")` the failed set has the read item and no write. -/
theorem C8_failure_returns_reads_witness :
    (applyOps (newContext 0 (txOf [116]))
      [Op.get (constSnapshot (some [48]) none) [99] (some [107]),
       Op.put [99] (some [106]) (some [49])]).txRWSet = none ∧
    (GetTxRWSet (applyOps (newContext 0 (txOf [116]))
      [Op.get (constSnapshot (some [48]) none) [99] (some [107]),
       Op.put [99] (some [106]) (some [49])]) false).1.TxWrites = [] ∧
    ({ Key := some [107], Value := some [48], ContractName := [99], Version := none } : TxRead)
      ∈ (GetTxRWSet (applyOps (newContext 0 (txOf [116]))
      [Op.get (constSnapshot (some [48]) none) [99] (some [107]),
       Op.put [99] (some [106]) (some [49])]) false).1.TxReads :=
  ⟨by decide, by decide,
   (C8_failure_returns_reads (applyOps (newContext 0 (txOf [116]))
      [Op.get (constSnapshot (some [48]) none) [99] (some [107]),
       Op.put [99] (some [106]) (some [49])]) (by decide)).2.1 [99, 107]
      { Key := some [107], Value := some [48], ContractName := [99], Version := none }
      (by decide)⟩

/-! ## Claims C9 and C10: the guards of `CallContract` -/

/-- `CallContract` past the depth limit: rejected before anything else. -/
theorem CallContract_too_deep (P : ProtocolConsts) (s : TxSimContextImpl) (snap : Snapshot)
    (vm : VmManager) (contract : Contract) (method : GoString) (byteCode : GoBytes)
    (parameter : GoMap GoBytes) (gasUsed : Nat) (refTxType : TxType)
    (hd : s.currentDepth + 1 > P.CallContractDepth) :
    CallContract P s snap vm contract method byteCode parameter gasUsed refTxType
      = { result := some { Code := 1, Result := none,
                           Message := asciiBytes "CallContract too depth "
                             ++ fmtD (s.currentDepth + 1),
                           GasUsed := 0 },
          code := TxStatusCode.CONTRACT_TOO_DEEP_FAILED,
          ctx := { s with gasUsed := gasUsed, currentDepth := s.currentDepth + 1 },
          vmCalls := [] } := by
  simp [CallContract, hd]

/-- `CallContract` within the depth limit and over the gas limit: rejected
before the bytecode is looked up. -/
theorem CallContract_gas_exceeded (P : ProtocolConsts) (s : TxSimContextImpl) (snap : Snapshot)
    (vm : VmManager) (contract : Contract) (method : GoString) (byteCode : GoBytes)
    (parameter : GoMap GoBytes) (gasUsed : Nat) (refTxType : TxType)
    (hd : s.currentDepth + 1 ≤ P.CallContractDepth) (hg : gasUsed > P.GasLimit) :
    CallContract P s snap vm contract method byteCode parameter gasUsed refTxType
      = { result := some { Code := 1, Result := none,
                           Message := asciiBytes "There is not enough gas, gasUsed "
                             ++ fmtD gasUsed ++ asciiBytes " GasLimit " ++ fmtD P.GasLimit
                             ++ asciiBytes " ",
                           GasUsed := 0 },
          code := TxStatusCode.CONTRACT_FAIL,
          ctx := { s with gasUsed := gasUsed, currentDepth := s.currentDepth + 1 },
          vmCalls := [] } := by
  have hd2 : ¬ (s.currentDepth + 1 > P.CallContractDepth) := not_lt.mpr hd
  simp [CallContract, hd2, hg]

/-- `CallContract` within both limits, with no bytecode supplied and none
found: `(nil, CONTRACT_FAIL)`, the VM manager not being called. -/
theorem CallContract_no_bytecode (P : ProtocolConsts) (s : TxSimContextImpl) (snap : Snapshot)
    (vm : VmManager) (contract : Contract) (method : GoString) (byteCode : GoBytes)
    (parameter : GoMap GoBytes) (gasUsed : Nat) (refTxType : TxType)
    (hd : s.currentDepth + 1 ≤ P.CallContractDepth) (hg : gasUsed ≤ P.GasLimit)
    (hb : lookupByteCode snap contract byteCode = none) :
    CallContract P s snap vm contract method byteCode parameter gasUsed refTxType
      = { result := none, code := TxStatusCode.CONTRACT_FAIL,
          ctx := { s with gasUsed := gasUsed, currentDepth := s.currentDepth + 1 },
          vmCalls := [] } := by
  have hd2 : ¬ (s.currentDepth + 1 > P.CallContractDepth) := not_lt.mpr hd
  have hg2 : ¬ (gasUsed > P.GasLimit) := not_lt.mpr hg
  simp [CallContract, hd2, hg2, hb]

/-- `CallContract` within both limits and with bytecode at hand: the VM manager
is called once, on the context with the gas set and the depth raised, and its
result and status are returned. -/
theorem CallContract_runs (P : ProtocolConsts) (s : TxSimContextImpl) (snap : Snapshot)
    (vm : VmManager) (contract : Contract) (method : GoString) (byteCode : GoBytes)
    (parameter : GoMap GoBytes) (gasUsed : Nat) (refTxType : TxType) (bc : GoBytes)
    (hd : s.currentDepth + 1 ≤ P.CallContractDepth) (hg : gasUsed ≤ P.GasLimit)
    (hb : lookupByteCode snap contract byteCode = some bc) :
    (CallContract P s snap vm contract method byteCode parameter gasUsed refTxType).vmCalls
      = [{ contract := contract, method := method, byteCode := bc, parameter := parameter,
           gasUsed := gasUsed, refTxType := refTxType }] ∧
    (CallContract P s snap vm contract method byteCode parameter gasUsed refTxType).result
      = some (vm { contract := contract, method := method, byteCode := bc,
                   parameter := parameter, gasUsed := gasUsed, refTxType := refTxType }
                { s with gasUsed := gasUsed, currentDepth := s.currentDepth + 1 }).1.1 ∧
    (CallContract P s snap vm contract method byteCode parameter gasUsed refTxType).code
      = (vm { contract := contract, method := method, byteCode := bc,
              parameter := parameter, gasUsed := gasUsed, refTxType := refTxType }
            { s with gasUsed := gasUsed, currentDepth := s.currentDepth + 1 }).1.2 := by
  have hd2 : ¬ (s.currentDepth + 1 > P.CallContractDepth) := not_lt.mpr hd
  have hg2 : ¬ (gasUsed > P.GasLimit) := not_lt.mpr hg
  simp [CallContract, hd2, hg2, hb]

/-- C9, counterexample.  With `CallContractDepth = 5` and `GasLimit = 10^10`,
on a context at depth 4 a call with gas 0 and no bytecode, for a contract whose
bytecode the store does not find, returns `(nil, CONTRACT_FAIL)`;
`vmManager.RunContract` is not invoked, though the chain would be exactly
`CallContractDepth` deep and the gas is within the limit. -/
theorem C9_counterexample_bytecode_lookup_fails :
    ({ newContext 0 (txOf [116]) with currentDepth := 4 } : TxSimContextImpl).currentDepth
      = (⟨5, 10000000000⟩ : ProtocolConsts).CallContractDepth - 1 ∧
    (0 : Nat) ≤ (⟨5, 10000000000⟩ : ProtocolConsts).GasLimit ∧
    (CallContract ⟨5, 10000000000⟩ { newContext 0 (txOf [116]) with currentDepth := 4 }
      (failingSnapshot "contract not found") (constVm ⟨0, some [1], [], 0⟩ TxStatusCode.SUCCESS)
      ⟨[99]⟩ [109] none [] 0 0).vmCalls = [] ∧
    (CallContract ⟨5, 10000000000⟩ { newContext 0 (txOf [116]) with currentDepth := 4 }
      (failingSnapshot "contract not found") (constVm ⟨0, some [1], [], 0⟩ TxStatusCode.SUCCESS)
      ⟨[99]⟩ [109] none [] 0 0).result = none ∧
    (CallContract ⟨5, 10000000000⟩ { newContext 0 (txOf [116]) with currentDepth := 4 }
      (failingSnapshot "contract not found") (constVm ⟨0, some [1], [], 0⟩ TxStatusCode.SUCCESS)
      ⟨[99]⟩ [109] none [] 0 0).code = TxStatusCode.CONTRACT_FAIL := by
  decide

/-- C9, as amended.  With gas within the limit, a `CallContract` issued at depth
`CallContractDepth - 1` whose bytecode is supplied, or found by the store when
none is supplied, invokes `vmManager.RunContract` once and returns its result
and status; when no bytecode is supplied and the store finds none, it does not
invoke the VM manager and returns the status `CONTRACT_FAIL`.  A `CallContract`
issued at depth `CallContractDepth` returns a result with `Code` 1 and status
`CONTRACT_TOO_DEEP_FAILED`; the VM manager is not invoked and no call-chain
entry is appended. -/
theorem C9_depth_boundary (P : ProtocolConsts) (s : TxSimContextImpl) (snap : Snapshot)
    (vm : VmManager) (contract : Contract) (method : GoString) (byteCode : GoBytes)
    (parameter : GoMap GoBytes) (gasUsed : Nat) (refTxType : TxType) :
    (s.currentDepth = P.CallContractDepth - 1 → gasUsed ≤ P.GasLimit →
      (∀ bc, lookupByteCode snap contract byteCode = some bc →
        (CallContract P s snap vm contract method byteCode parameter gasUsed refTxType).vmCalls
          = [{ contract := contract, method := method, byteCode := bc, parameter := parameter,
               gasUsed := gasUsed, refTxType := refTxType }] ∧
        (CallContract P s snap vm contract method byteCode parameter gasUsed refTxType).result
          = some (vm { contract := contract, method := method, byteCode := bc,
                       parameter := parameter, gasUsed := gasUsed, refTxType := refTxType }
                    { s with gasUsed := gasUsed, currentDepth := s.currentDepth + 1 }).1.1 ∧
        (CallContract P s snap vm contract method byteCode parameter gasUsed refTxType).code
          = (vm { contract := contract, method := method, byteCode := bc,
                  parameter := parameter, gasUsed := gasUsed, refTxType := refTxType }
                { s with gasUsed := gasUsed, currentDepth := s.currentDepth + 1 }).1.2) ∧
      (lookupByteCode snap contract byteCode = none →
        (CallContract P s snap vm contract method byteCode parameter gasUsed refTxType).vmCalls
          = [] ∧
        (CallContract P s snap vm contract method byteCode parameter gasUsed refTxType).code
          = TxStatusCode.CONTRACT_FAIL)) ∧
    (s.currentDepth = P.CallContractDepth →
      (∃ r, (CallContract P s snap vm contract method byteCode parameter gasUsed
            refTxType).result = some r ∧ r.Code = 1) ∧
      (CallContract P s snap vm contract method byteCode parameter gasUsed refTxType).code
        = TxStatusCode.CONTRACT_TOO_DEEP_FAILED ∧
      (CallContract P s snap vm contract method byteCode parameter gasUsed refTxType).vmCalls
        = [] ∧
      (CallContract P s snap vm contract method byteCode parameter gasUsed
        refTxType).ctx.hisResult = s.hisResult) := by
  constructor
  · intro hd hg
    have hd2 : s.currentDepth + 1 ≤ P.CallContractDepth := by omega
    constructor
    · intro bc hb
      exact CallContract_runs P s snap vm contract method byteCode parameter gasUsed refTxType
        bc hd2 hg hb
    · intro hb
      rw [CallContract_no_bytecode P s snap vm contract method byteCode parameter gasUsed
        refTxType hd2 hg hb]
      exact ⟨rfl, rfl⟩
  · intro hd
    have hd2 : s.currentDepth + 1 > P.CallContractDepth := by omega
    rw [CallContract_too_deep P s snap vm contract method byteCode parameter gasUsed
      refTxType hd2]
    exact ⟨⟨_, rfl, rfl⟩, rfl, rfl, rfl⟩

/-- C9, amended claim at concrete calls with `CallContractDepth = 5`: at depth 4
the result of the VM manager comes back, at depth 5 the call is rejected. -/
theorem C9_depth_boundary_witness :
    ({ newContext 0 (txOf [116]) with currentDepth := 4 } : TxSimContextImpl).currentDepth
      = (⟨5, 10000000000⟩ : ProtocolConsts).CallContractDepth - 1 ∧
    (7 : Nat) ≤ (⟨5, 10000000000⟩ : ProtocolConsts).GasLimit ∧
    lookupByteCode (constSnapshot none (some [1])) ⟨[99]⟩ none = some (some [1]) ∧
    (CallContract ⟨5, 10000000000⟩ { newContext 0 (txOf [116]) with currentDepth := 4 }
      (constSnapshot none (some [1])) (constVm ⟨0, some [114], [], 3⟩ TxStatusCode.SUCCESS)
      ⟨[99]⟩ [109] none [] 7 0).result = some ⟨0, some [114], [], 3⟩ ∧
    ({ newContext 0 (txOf [116]) with currentDepth := 5 } : TxSimContextImpl).currentDepth
      = (⟨5, 10000000000⟩ : ProtocolConsts).CallContractDepth ∧
    (CallContract ⟨5, 10000000000⟩ { newContext 0 (txOf [116]) with currentDepth := 5 }
      (constSnapshot none (some [1])) (constVm ⟨0, some [114], [], 3⟩ TxStatusCode.SUCCESS)
      ⟨[99]⟩ [109] none [] 7 0).code = TxStatusCode.CONTRACT_TOO_DEEP_FAILED :=
  ⟨by decide, by decide, by decide,
   (((C9_depth_boundary ⟨5, 10000000000⟩ { newContext 0 (txOf [116]) with currentDepth := 4 }
      (constSnapshot none (some [1])) (constVm ⟨0, some [114], [], 3⟩ TxStatusCode.SUCCESS)
      ⟨[99]⟩ [109] none [] 7 0).1 (by decide) (by decide)).1 (some [1]) (by decide)).2.1,
   by decide,
   ((C9_depth_boundary ⟨5, 10000000000⟩ { newContext 0 (txOf [116]) with currentDepth := 5 }
      (constSnapshot none (some [1])) (constVm ⟨0, some [114], [], 3⟩ TxStatusCode.SUCCESS)
      ⟨[99]⟩ [109] none [] 7 0).2 (by decide)).2.1⟩

/-- C10.  A `CallContract` within the depth limit whose `gasUsed` argument is
greater than `GasLimit` returns a result with `Code` 1 and status
`CONTRACT_FAIL` and does not invoke `vmManager.RunContract`.  With `gasUsed`
less than or equal to `GasLimit` the gas check lets the call through: within
the depth limit it goes on to the bytecode step, where either the VM manager is
invoked and its result and status are returned, or, no bytecode being supplied
nor found, `(nil, CONTRACT_FAIL)` is returned; past the depth limit the status
is that of the depth check. -/
theorem C10_gas_limit_checked_before_call (P : ProtocolConsts) (s : TxSimContextImpl)
    (snap : Snapshot) (vm : VmManager) (contract : Contract) (method : GoString)
    (byteCode : GoBytes) (parameter : GoMap GoBytes) (gasUsed : Nat) (refTxType : TxType) :
    (gasUsed > P.GasLimit → s.currentDepth + 1 ≤ P.CallContractDepth →
      (∃ r, (CallContract P s snap vm contract method byteCode parameter gasUsed
            refTxType).result = some r ∧ r.Code = 1) ∧
      (CallContract P s snap vm contract method byteCode parameter gasUsed refTxType).code
        = TxStatusCode.CONTRACT_FAIL ∧
      (CallContract P s snap vm contract method byteCode parameter gasUsed refTxType).vmCalls
        = []) ∧
    (gasUsed ≤ P.GasLimit →
      (s.currentDepth + 1 ≤ P.CallContractDepth →
        ∀ bc, lookupByteCode snap contract byteCode = some bc →
        (CallContract P s snap vm contract method byteCode parameter gasUsed refTxType).vmCalls
          = [{ contract := contract, method := method, byteCode := bc, parameter := parameter,
               gasUsed := gasUsed, refTxType := refTxType }] ∧
        (CallContract P s snap vm contract method byteCode parameter gasUsed refTxType).result
          = some (vm { contract := contract, method := method, byteCode := bc,
                       parameter := parameter, gasUsed := gasUsed, refTxType := refTxType }
                    { s with gasUsed := gasUsed, currentDepth := s.currentDepth + 1 }).1.1 ∧
        (CallContract P s snap vm contract method byteCode parameter gasUsed refTxType).code
          = (vm { contract := contract, method := method, byteCode := bc,
                  parameter := parameter, gasUsed := gasUsed, refTxType := refTxType }
                { s with gasUsed := gasUsed, currentDepth := s.currentDepth + 1 }).1.2) ∧
      (s.currentDepth + 1 ≤ P.CallContractDepth →
        lookupByteCode snap contract byteCode = none →
        (CallContract P s snap vm contract method byteCode parameter gasUsed refTxType).result
          = none ∧
        (CallContract P s snap vm contract method byteCode parameter gasUsed refTxType).vmCalls
          = []) ∧
      (s.currentDepth + 1 > P.CallContractDepth →
        (CallContract P s snap vm contract method byteCode parameter gasUsed refTxType).code
          = TxStatusCode.CONTRACT_TOO_DEEP_FAILED)) := by
  constructor
  · intro hg hd
    rw [CallContract_gas_exceeded P s snap vm contract method byteCode parameter gasUsed
      refTxType hd hg]
    exact ⟨⟨_, rfl, rfl⟩, rfl, rfl⟩
  · intro hg
    refine ⟨?_, ?_, ?_⟩
    · intro hd bc hb
      exact CallContract_runs P s snap vm contract method byteCode parameter gasUsed refTxType
        bc hd hg hb
    · intro hd hb
      rw [CallContract_no_bytecode P s snap vm contract method byteCode parameter gasUsed
        refTxType hd hg hb]
      exact ⟨rfl, rfl⟩
    · intro hd
      rw [CallContract_too_deep P s snap vm contract method byteCode parameter gasUsed
        refTxType hd]

/-- C10 at concrete calls with `GasLimit = 10^10` on a new context: gas
`10^10 + 1` is rejected, gas `10^10` reaches the VM manager. -/
theorem C10_gas_limit_checked_before_call_witness :
    (10000000001 : Nat) > (⟨5, 10000000000⟩ : ProtocolConsts).GasLimit ∧
    (newContext 0 (txOf [116])).currentDepth + 1
      ≤ (⟨5, 10000000000⟩ : ProtocolConsts).CallContractDepth ∧
    (CallContract ⟨5, 10000000000⟩ (newContext 0 (txOf [116]))
      (constSnapshot none (some [1])) (constVm ⟨0, some [114], [], 3⟩ TxStatusCode.SUCCESS)
      ⟨[99]⟩ [109] (some [2]) [] 10000000001 0).code = TxStatusCode.CONTRACT_FAIL ∧
    (CallContract ⟨5, 10000000000⟩ (newContext 0 (txOf [116]))
      (constSnapshot none (some [1])) (constVm ⟨0, some [114], [], 3⟩ TxStatusCode.SUCCESS)
      ⟨[99]⟩ [109] (some [2]) [] 10000000001 0).vmCalls = [] ∧
    (10000000000 : Nat) ≤ (⟨5, 10000000000⟩ : ProtocolConsts).GasLimit ∧
    lookupByteCode (constSnapshot none (some [1])) ⟨[99]⟩ (some [2]) = some (some [2]) ∧
    (CallContract ⟨5, 10000000000⟩ (newContext 0 (txOf [116]))
      (constSnapshot none (some [1])) (constVm ⟨0, some [114], [], 3⟩ TxStatusCode.SUCCESS)
      ⟨[99]⟩ [109] (some [2]) [] 10000000000 0).vmCalls
      = [⟨⟨[99]⟩, [109], some [2], [], 10000000000, 0⟩] :=
  ⟨by decide, by decide,
   ((C10_gas_limit_checked_before_call ⟨5, 10000000000⟩ (newContext 0 (txOf [116]))
      (constSnapshot none (some [1])) (constVm ⟨0, some [114], [], 3⟩ TxStatusCode.SUCCESS)
      ⟨[99]⟩ [109] (some [2]) [] 10000000001 0).1 (by decide) (by decide)).2.1,
   ((C10_gas_limit_checked_before_call ⟨5, 10000000000⟩ (newContext 0 (txOf [116]))
      (constSnapshot none (some [1])) (constVm ⟨0, some [114], [], 3⟩ TxStatusCode.SUCCESS)
      ⟨[99]⟩ [109] (some [2]) [] 10000000001 0).1 (by decide) (by decide)).2.2,
   by decide, by decide,
   (((C10_gas_limit_checked_before_call ⟨5, 10000000000⟩ (newContext 0 (txOf [116]))
      (constSnapshot none (some [1])) (constVm ⟨0, some [114], [], 3⟩ TxStatusCode.SUCCESS)
      ⟨[99]⟩ [109] (some [2]) [] 10000000000 0).2 (by decide)).1 (by decide) (some [2])
      (by decide)).1⟩

/-! ## Claim C11: the call depth after a call -/

/-- When the VM manager is reached and its run leaves the depth as it found
it, the depth after the call is the depth before it. -/
theorem CallContract_depth_balanced_of_run (P : ProtocolConsts) (s : TxSimContextImpl)
    (snap : Snapshot) (vm : VmManager) (contract : Contract) (method : GoString)
    (byteCode : GoBytes) (parameter : GoMap GoBytes) (gasUsed : Nat) (refTxType : TxType)
    (bc : GoBytes)
    (hd : s.currentDepth + 1 ≤ P.CallContractDepth) (hg : gasUsed ≤ P.GasLimit)
    (hb : lookupByteCode snap contract byteCode = some bc)
    (hvm : ∀ call s1, (vm call s1).2.currentDepth = s1.currentDepth) :
    GetDepth (CallContract P s snap vm contract method byteCode parameter gasUsed
      refTxType).ctx = GetDepth s := by
  have hd2 : ¬ (s.currentDepth + 1 > P.CallContractDepth) := not_lt.mpr hd
  have hg2 : ¬ (gasUsed > P.GasLimit) := not_lt.mpr hg
  simp [CallContract, hd2, hg2, hb, GetDepth, hvm]

/-- C11, call depth balanced and bounded, evaluated where the code departs from
it, with `CallContractDepth = 5` and `GasLimit = 10^10`.  On a new context
(depth 0) a call rejected for its gas leaves the depth at 1, and so does a call
whose bytecode lookup fails; at depth 5 a call rejected for its depth leaves the
depth at 6; and six calls rejected for their gas, one after the other on a new
context, leave the depth at 6, above `CallContractDepth`.  The three rejecting
returns come after `currentDepth` was raised and skip the decrement that the
return after the VM run performs. -/
theorem C11_depth_not_restored_on_rejection :
    GetDepth (newContext 0 (txOf [116])) = 0 ∧
    GetDepth (CallContract ⟨5, 10000000000⟩ (newContext 0 (txOf [116]))
      (constSnapshot none (some [1])) (constVm ⟨0, some [114], [], 3⟩ TxStatusCode.SUCCESS)
      ⟨[99]⟩ [109] none [] 10000000001 0).ctx = 1 ∧
    GetDepth (CallContract ⟨5, 10000000000⟩ (newContext 0 (txOf [116]))
      (failingSnapshot "contract not found") (constVm ⟨0, some [114], [], 3⟩ TxStatusCode.SUCCESS)
      ⟨[99]⟩ [109] none [] 7 0).ctx = 1 ∧
    GetDepth (CallContract ⟨5, 10000000000⟩ { newContext 0 (txOf [116]) with currentDepth := 5 }
      (constSnapshot none (some [1])) (constVm ⟨0, some [114], [], 3⟩ TxStatusCode.SUCCESS)
      ⟨[99]⟩ [109] none [] 7 0).ctx = 6 ∧
    GetDepth (callContracts ⟨5, 10000000000⟩ (constSnapshot none (some [1]))
      (constVm ⟨0, some [114], [], 3⟩ TxStatusCode.SUCCESS) (newContext 0 (txOf [116]))
      (List.replicate 6 ⟨⟨[99]⟩, [109], none, [], 10000000001, 0⟩)) = 6 ∧
    (6 : Int) > (⟨5, 10000000000⟩ : ProtocolConsts).CallContractDepth := by
  decide

/-! ## Claims C12 and C13: the call chain -/

/-- What `CallContract` leaves when the VM manager is reached, `out` being the
answer of the VM run: the context as the run left it, with one entry appended
to the call chain, the result cached and the depth lowered by one. -/
theorem CallContract_runs_ctx (P : ProtocolConsts) (s : TxSimContextImpl) (snap : Snapshot)
    (vm : VmManager) (contract : Contract) (method : GoString) (byteCode : GoBytes)
    (parameter : GoMap GoBytes) (gasUsed : Nat) (refTxType : TxType) (bc : GoBytes)
    (out : (ContractResult × TxStatusCode) × TxSimContextImpl)
    (hd : s.currentDepth + 1 ≤ P.CallContractDepth) (hg : gasUsed ≤ P.GasLimit)
    (hb : lookupByteCode snap contract byteCode = some bc)
    (hout : vm { contract := contract, method := method, byteCode := bc,
                 parameter := parameter, gasUsed := gasUsed, refTxType := refTxType }
               { s with gasUsed := gasUsed, currentDepth := s.currentDepth + 1 } = out) :
    (CallContract P s snap vm contract method byteCode parameter gasUsed
        refTxType).ctx.hisResult
      = out.2.hisResult ++ [{ contractName := contract.Name, method := method,
                              param := parameter, depth := out.2.currentDepth,
                              gasUsed := out.2.gasUsed, result := out.1.1.Result }] ∧
    (CallContract P s snap vm contract method byteCode parameter gasUsed
        refTxType).ctx.currentResult = out.1.1.Result ∧
    (CallContract P s snap vm contract method byteCode parameter gasUsed
        refTxType).ctx.currentDepth = out.2.currentDepth - 1 ∧
    (CallContract P s snap vm contract method byteCode parameter gasUsed
        refTxType).ctx.gasUsed = out.2.gasUsed ∧
    (CallContract P s snap vm contract method byteCode parameter gasUsed
        refTxType).result = some out.1.1 ∧
    (CallContract P s snap vm contract method byteCode parameter gasUsed
        refTxType).code = out.1.2 := by
  have hd2 : ¬ (s.currentDepth + 1 > P.CallContractDepth) := not_lt.mpr hd
  have hg2 : ¬ (gasUsed > P.GasLimit) := not_lt.mpr hg
  subst hout
  simp [CallContract, hd2, hg2, hb]

/-- The context that `CallContract` leaves on its three rejecting returns: the
gas stored and the depth raised, nothing else. -/
theorem CallContract_rejected_ctx (P : ProtocolConsts) (s : TxSimContextImpl) (snap : Snapshot)
    (vm : VmManager) (contract : Contract) (method : GoString) (byteCode : GoBytes)
    (parameter : GoMap GoBytes) (gasUsed : Nat) (refTxType : TxType)
    (h : s.currentDepth + 1 > P.CallContractDepth ∨ gasUsed > P.GasLimit ∨
      lookupByteCode snap contract byteCode = none) :
    (CallContract P s snap vm contract method byteCode parameter gasUsed refTxType).ctx
      = { s with gasUsed := gasUsed, currentDepth := s.currentDepth + 1 } := by
  by_cases hd : s.currentDepth + 1 > P.CallContractDepth
  · rw [CallContract_too_deep P s snap vm contract method byteCode parameter gasUsed
      refTxType hd]
  · have hd2 : s.currentDepth + 1 ≤ P.CallContractDepth := not_lt.mp hd
    by_cases hg : gasUsed > P.GasLimit
    · rw [CallContract_gas_exceeded P s snap vm contract method byteCode parameter gasUsed
        refTxType hd2 hg]
    · have hg2 : gasUsed ≤ P.GasLimit := not_lt.mp hg
      rcases h with h | h | h
      · exact absurd h hd
      · exact absurd h hg
      · rw [CallContract_no_bytecode P s snap vm contract method byteCode parameter gasUsed
          refTxType hd2 hg2 h]

/-- One `CallContract` that passes at least the gas the context holds keeps the
gas values of the call chain non-decreasing. -/
theorem callContract_GasChainOK (P : ProtocolConsts) (snap : Snapshot) (vm : VmManager)
    (hvm : ∀ call s1, GasChainOK s1 → GasChainOK (vm call s1).2)
    (s : TxSimContextImpl) (a : CallArgs) (hs : GasChainOK s) (ha : s.gasUsed ≤ a.gasUsed) :
    GasChainOK (callContract P snap vm s a).ctx := by
  have h2 : GasChainOK { s with gasUsed := a.gasUsed, currentDepth := s.currentDepth + 1 } :=
    ⟨hs.1, fun g hg => le_trans (hs.2 g hg) ha⟩
  by_cases hrej : s.currentDepth + 1 > P.CallContractDepth ∨ a.gasUsed > P.GasLimit ∨
      lookupByteCode snap a.contract a.byteCode = none
  · simp only [callContract]
    rw [CallContract_rejected_ctx P s snap vm a.contract a.method a.byteCode a.parameter
      a.gasUsed a.refTxType hrej]
    exact h2
  · have hd : s.currentDepth + 1 ≤ P.CallContractDepth :=
      not_lt.mp (fun h => hrej (Or.inl h))
    have hg : a.gasUsed ≤ P.GasLimit := not_lt.mp (fun h => hrej (Or.inr (Or.inl h)))
    obtain ⟨bc, hb⟩ : ∃ bc, lookupByteCode snap a.contract a.byteCode = some bc := by
      cases hl : lookupByteCode snap a.contract a.byteCode with
      | none => exact absurd (Or.inr (Or.inr hl)) hrej
      | some bc => exact ⟨bc, rfl⟩
    have h3 := hvm { contract := a.contract, method := a.method, byteCode := bc,
                     parameter := a.parameter, gasUsed := a.gasUsed,
                     refTxType := a.refTxType } _ h2
    have hc := CallContract_runs_ctx P s snap vm a.contract a.method a.byteCode a.parameter
      a.gasUsed a.refTxType bc _ hd hg hb rfl
    simp only [callContract]
    constructor
    · simp only [chainGas, hc.1, List.map_append, List.map_cons, List.map_nil]
      rw [List.pairwise_append]
      refine ⟨h3.1, List.pairwise_singleton _ _, ?_⟩
      intro x hx y hy
      rw [List.mem_singleton] at hy
      rw [hy]
      exact h3.2 x hx
    · intro g hgm
      simp only [chainGas, hc.1, List.map_append, List.map_cons, List.map_nil, List.mem_append,
        List.mem_singleton] at hgm
      rw [hc.2.2.2.1]
      rcases hgm with hgm | hgm
      · exact h3.2 g hgm
      · rw [hgm]

/-- C12, counterexample.  On a new context over a VM manager that makes no call
of its own, `CallContract` with `gasUsed = 10` followed by `CallContract` with
`gasUsed = 5` appends two entries whose `gasUsed` are 10 and 5, in this order:
the values decrease. -/
theorem C12_counterexample_gas_decreases :
    chainGas (callContracts ⟨5, 10000000000⟩ (constSnapshot none (some [1]))
      (constVm ⟨0, some [114], [], 3⟩ TxStatusCode.SUCCESS) (newContext 0 (txOf [116]))
      [⟨⟨[99]⟩, [109], none, [], 10, 0⟩, ⟨⟨[99]⟩, [109], none, [], 5, 0⟩]) = [10, 5] := by
  decide

/-- C12, as amended.  `CallContract` stores its `gasUsed` argument and records
in the entry it appends the `gasUsed` the context holds when the VM run
returns.  So, on a context whose call chain is non-decreasing in gas and bounded
by its `gasUsed`, for every sequence of calls each of which passes a `gasUsed`
that is at least the `gasUsed` of the context at that moment, over a VM manager
whose runs keep the chain so, the gas values of the call chain are
non-decreasing in append order. -/
theorem C12_gas_monotone_for_cumulative_calls (P : ProtocolConsts) (snap : Snapshot)
    (vm : VmManager) (hvm : ∀ call s1, GasChainOK s1 → GasChainOK (vm call s1).2)
    (s : TxSimContextImpl) (calls : List CallArgs) (hs : GasChainOK s)
    (hcalls : GasCumulative P snap vm s calls = true) :
    (chainGas (callContracts P snap vm s calls)).Pairwise (fun a b => a ≤ b) ∧
      ∀ g ∈ chainGas (callContracts P snap vm s calls),
        g ≤ (callContracts P snap vm s calls).gasUsed := by
  induction calls generalizing s with
  | nil => exact hs
  | cons a rest ih =>
    simp only [GasCumulative, Bool.and_eq_true, decide_eq_true_eq] at hcalls
    exact ih (callContract P snap vm s a).ctx
      (callContract_GasChainOK P snap vm hvm s a hs hcalls.1) hcalls.2

/-- C12, amended claim at a concrete sequence on a new context: calls with
`gasUsed` 5, 10 and 10 leave the chain `[5, 10, 10]`. -/
theorem C12_gas_monotone_for_cumulative_calls_witness :
    GasChainOK (newContext 0 (txOf [116])) ∧
    GasCumulative ⟨5, 10000000000⟩ (constSnapshot none (some [1]))
      (constVm ⟨0, some [114], [], 3⟩ TxStatusCode.SUCCESS) (newContext 0 (txOf [116]))
      [⟨⟨[99]⟩, [109], none, [], 5, 0⟩, ⟨⟨[99]⟩, [109], none, [], 10, 0⟩,
       ⟨⟨[99]⟩, [109], none, [], 10, 0⟩] = true ∧
    chainGas (callContracts ⟨5, 10000000000⟩ (constSnapshot none (some [1]))
      (constVm ⟨0, some [114], [], 3⟩ TxStatusCode.SUCCESS) (newContext 0 (txOf [116]))
      [⟨⟨[99]⟩, [109], none, [], 5, 0⟩, ⟨⟨[99]⟩, [109], none, [], 10, 0⟩,
       ⟨⟨[99]⟩, [109], none, [], 10, 0⟩]) = [5, 10, 10] ∧
    (chainGas (callContracts ⟨5, 10000000000⟩ (constSnapshot none (some [1]))
      (constVm ⟨0, some [114], [], 3⟩ TxStatusCode.SUCCESS) (newContext 0 (txOf [116]))
      [⟨⟨[99]⟩, [109], none, [], 5, 0⟩, ⟨⟨[99]⟩, [109], none, [], 10, 0⟩,
       ⟨⟨[99]⟩, [109], none, [], 10, 0⟩])).Pairwise (fun a b => a ≤ b) :=
  ⟨⟨by decide, by decide⟩, by decide, by decide,
   (C12_gas_monotone_for_cumulative_calls ⟨5, 10000000000⟩ (constSnapshot none (some [1]))
      (constVm ⟨0, some [114], [], 3⟩ TxStatusCode.SUCCESS) (fun _ _ h => h)
      (newContext 0 (txOf [116]))
      [⟨⟨[99]⟩, [109], none, [], 5, 0⟩, ⟨⟨[99]⟩, [109], none, [], 10, 0⟩,
       ⟨⟨[99]⟩, [109], none, [], 10, 0⟩] ⟨by decide, by decide⟩ (by decide)).1⟩

/-- C13.  A `CallContract` that reaches the VM manager (depth and gas within
the limits, bytecode supplied or found), `out` being the answer of the VM run,
returns the result of the run, leaves that result's `Result` bytes as
`GetCurrentResult()`, and appends to the call chain, as the run left it, one
entry with the call's contract name, method, parameters and result; when the
run left the chain as it was, the chain is the one before the call plus that
entry.  A call rejected for its depth or for its gas leaves
`GetCurrentResult()` and the call chain unchanged. -/
theorem C13_result_cached_and_chain_entry_appended (P : ProtocolConsts)
    (s : TxSimContextImpl) (snap : Snapshot) (vm : VmManager) (contract : Contract)
    (method : GoString) (byteCode : GoBytes) (parameter : GoMap GoBytes) (gasUsed : Nat)
    (refTxType : TxType) :
    (∀ bc out, s.currentDepth + 1 ≤ P.CallContractDepth → gasUsed ≤ P.GasLimit →
      lookupByteCode snap contract byteCode = some bc →
      vm { contract := contract, method := method, byteCode := bc, parameter := parameter,
           gasUsed := gasUsed, refTxType := refTxType }
         { s with gasUsed := gasUsed, currentDepth := s.currentDepth + 1 } = out →
      (CallContract P s snap vm contract method byteCode parameter gasUsed refTxType).result
        = some out.1.1 ∧
      GetCurrentResult (CallContract P s snap vm contract method byteCode parameter gasUsed
        refTxType).ctx = out.1.1.Result ∧
      (CallContract P s snap vm contract method byteCode parameter gasUsed
          refTxType).ctx.hisResult
        = out.2.hisResult ++ [{ contractName := contract.Name, method := method,
                                param := parameter, depth := out.2.currentDepth,
                                gasUsed := out.2.gasUsed, result := out.1.1.Result }] ∧
      (out.2.hisResult = s.hisResult →
        (CallContract P s snap vm contract method byteCode parameter gasUsed
            refTxType).ctx.hisResult
          = s.hisResult ++ [{ contractName := contract.Name, method := method,
                              param := parameter, depth := out.2.currentDepth,
                              gasUsed := out.2.gasUsed, result := out.1.1.Result }])) ∧
    (s.currentDepth + 1 > P.CallContractDepth ∨ gasUsed > P.GasLimit →
      GetCurrentResult (CallContract P s snap vm contract method byteCode parameter gasUsed
        refTxType).ctx = GetCurrentResult s ∧
      (CallContract P s snap vm contract method byteCode parameter gasUsed
          refTxType).ctx.hisResult = s.hisResult ∧
      (CallContract P s snap vm contract method byteCode parameter gasUsed
          refTxType).vmCalls = []) := by
  constructor
  · intro bc out hd hg hb hout
    have hc := CallContract_runs_ctx P s snap vm contract method byteCode parameter gasUsed
      refTxType bc out hd hg hb hout
    refine ⟨hc.2.2.2.2.1, hc.2.1, hc.1, ?_⟩
    intro hsame
    rw [hc.1, hsame]
  · intro hrej
    have hctx := CallContract_rejected_ctx P s snap vm contract method byteCode parameter
      gasUsed refTxType (hrej.elim Or.inl (fun h => Or.inr (Or.inl h)))
    refine ⟨by rw [hctx]; rfl, by rw [hctx], ?_⟩
    by_cases hd : s.currentDepth + 1 > P.CallContractDepth
    · rw [CallContract_too_deep P s snap vm contract method byteCode parameter gasUsed
        refTxType hd]
    · have hg : gasUsed > P.GasLimit := hrej.resolve_left hd
      rw [CallContract_gas_exceeded P s snap vm contract method byteCode parameter gasUsed
        refTxType (not_lt.mp hd) hg]

/-- C13 at concrete calls on a new context with `CallContractDepth = 5` and
`GasLimit = 10^10`: a call answered by the VM manager with the result `"r"`
caches `"r"` and appends one entry; a call over the gas limit changes neither. -/
theorem C13_result_cached_and_chain_entry_appended_witness :
    (newContext 0 (txOf [116])).currentDepth + 1
      ≤ (⟨5, 10000000000⟩ : ProtocolConsts).CallContractDepth ∧
    (7 : Nat) ≤ (⟨5, 10000000000⟩ : ProtocolConsts).GasLimit ∧
    lookupByteCode (constSnapshot none (some [1])) ⟨[99]⟩ none = some (some [1]) ∧
    GetCurrentResult (CallContract ⟨5, 10000000000⟩ (newContext 0 (txOf [116]))
      (constSnapshot none (some [1])) (constVm ⟨0, some [114], [], 3⟩ TxStatusCode.SUCCESS)
      ⟨[99]⟩ [109] none [([112], some [113])] 7 0).ctx = some [114] ∧
    (CallContract ⟨5, 10000000000⟩ (newContext 0 (txOf [116]))
      (constSnapshot none (some [1])) (constVm ⟨0, some [114], [], 3⟩ TxStatusCode.SUCCESS)
      ⟨[99]⟩ [109] none [([112], some [113])] 7 0).ctx.hisResult
      = [⟨[99], [109], [([112], some [113])], 1, 7, some [114]⟩] ∧
    (10000000001 : Nat) > (⟨5, 10000000000⟩ : ProtocolConsts).GasLimit ∧
    (CallContract ⟨5, 10000000000⟩ (newContext 0 (txOf [116]))
      (constSnapshot none (some [1])) (constVm ⟨0, some [114], [], 3⟩ TxStatusCode.SUCCESS)
      ⟨[99]⟩ [109] none [([112], some [113])] 10000000001 0).ctx.hisResult = [] :=
  ⟨by decide, by decide, by decide,
   ((C13_result_cached_and_chain_entry_appended ⟨5, 10000000000⟩ (newContext 0 (txOf [116]))
      (constSnapshot none (some [1])) (constVm ⟨0, some [114], [], 3⟩ TxStatusCode.SUCCESS)
      ⟨[99]⟩ [109] none [([112], some [113])] 7 0).1 (some [1]) _ (by decide) (by decide)
      (by decide) rfl).2.1,
   ((C13_result_cached_and_chain_entry_appended ⟨5, 10000000000⟩ (newContext 0 (txOf [116]))
      (constSnapshot none (some [1])) (constVm ⟨0, some [114], [], 3⟩ TxStatusCode.SUCCESS)
      ⟨[99]⟩ [109] none [([112], some [113])] 7 0).1 (some [1]) _ (by decide) (by decide)
      (by decide) rfl).2.2.2 rfl,
   by decide,
   ((C13_result_cached_and_chain_entry_appended ⟨5, 10000000000⟩ (newContext 0 (txOf [116]))
      (constSnapshot none (some [1])) (constVm ⟨0, some [114], [], 3⟩ TxStatusCode.SUCCESS)
      ⟨[99]⟩ [109] none [([112], some [113])] 10000000001 0).2 (Or.inr (by decide))).2.1⟩

/-! ## Claim C14: the read/write set after the first `GetTxRWSet` -/

theorem GetTxRWSet_cached (s : TxSimContextImpl) (b : Bool) (rw : TxRWSet)
    (h : s.txRWSet = some rw) : GetTxRWSet s b = (rw, s) := by
  simp [GetTxRWSet, h]

theorem GetTxRWSet_caches (s : TxSimContextImpl) (b : Bool) :
    (GetTxRWSet s b).2.txRWSet = some (GetTxRWSet s b).1 := by
  cases h : s.txRWSet with
  | some rw => simp [GetTxRWSet, h]
  | none => simp [GetTxRWSet, h]

theorem applyFinalOps_txRWSet (s : TxSimContextImpl) (rw : TxRWSet) (ops : List FinalOp)
    (h : s.txRWSet = some rw) : (applyFinalOps s ops).txRWSet = some rw := by
  induction ops generalizing s with
  | nil => exact h
  | cons op ops ih =>
    cases op with
    | access o =>
      simp only [applyFinalOps]
      exact ih (applyOp s o) (by rw [applyOp_txRWSet]; exact h)
    | getTxRWSet b =>
      simp only [applyFinalOps]
      rw [GetTxRWSet_cached s b rw h]
      exact ih s h

/-- C14.  After a first `GetTxRWSet`, whatever `Get`, `Put`, `Del`, `PutRecord`
and `GetTxRWSet` calls follow, a later `GetTxRWSet` returns, for either value of
its argument, the `TxRWSet` that the first call returned. -/
theorem C14_finalization_freezes_rwset (s : TxSimContextImpl) (b b1 : Bool)
    (ops : List FinalOp) :
    (GetTxRWSet (applyFinalOps (GetTxRWSet s b).2 ops) b1).1 = (GetTxRWSet s b).1 := by
  have h := applyFinalOps_txRWSet (GetTxRWSet s b).2 (GetTxRWSet s b).1 ops
    (GetTxRWSet_caches s b)
  rw [GetTxRWSet_cached _ b1 _ h]

/-! ## Handle tables: lookup after registration -/

theorem handleLookup_handleSet_self {α : Type} (m : HandleMap α) (i : Int) (v : α) :
    handleLookup (handleSet m i v) i = some v := by
  induction m with
  | nil => simp [handleSet, handleLookup]
  | cons p m ih =>
    obtain ⟨j, w⟩ := p
    by_cases h : j = i
    · simp [handleSet, handleLookup, h]
    · simp [handleSet, handleLookup, h, ih]

theorem handleLookup_handleSet_ne {α : Type} (m : HandleMap α) (i j : Int) (v : α)
    (hne : j ≠ i) : handleLookup (handleSet m i v) j = handleLookup m j := by
  induction m with
  | nil =>
    have h : ¬ i = j := fun e => hne e.symm
    simp [handleSet, handleLookup, h]
  | cons p m ih =>
    obtain ⟨j0, w⟩ := p
    by_cases h : j0 = i
    · subst h
      have h2 : ¬ j0 = j := fun e => hne e.symm
      simp [handleSet, handleLookup, h2]
    · by_cases h3 : j0 = j
      · subst h3
        simp [handleSet, handleLookup, h]
      · simp [handleSet, handleLookup, h, h3, ih]

theorem copyAt_length (memory : List Byte) (lo hi : Int) (src m : List Byte)
    (h : copyAt memory lo hi src = some m) : m.length = memory.length := by
  unfold copyAt at h
  split at h
  · rename_i hb
    cases h
    simp only [List.length_append, List.length_take, List.length_drop]
    omega
  · cases h

/-- A four-byte write at a pointer within bounds succeeds and leaves a memory
of the same length, so the pointer stays within bounds. -/
theorem copyAt_word (memory : List Byte) (p : Int) (src : List Byte)
    (h : WordInBounds memory p) :
    ∃ m, copyAt memory p (wrapInt32 (p + 4)) src = some m ∧ WordInBounds m p := by
  have hb : 0 ≤ p ∧ p ≤ wrapInt32 (p + 4) ∧ wrapInt32 (p + 4) ≤ (memory.length : Int) := h
  have hex : ∃ m, copyAt memory p (wrapInt32 (p + 4)) src = some m := by
    unfold copyAt
    rw [if_pos hb]
    exact ⟨_, rfl⟩
  obtain ⟨m, hm⟩ := hex
  refine ⟨m, hm, ?_⟩
  have hl := copyAt_length memory p _ src m hm
  unfold WordInBounds
  rw [hl]
  exact hb

/-! ## Claim C15: a handle after `KvIteratorClose` -/

theorem KvIteratorClose_registered (env : WasiEnv) (s : TxSimContextImpl)
    (memory : List Byte) (i p : Int) (it : StateIterator)
    (hreg : GetStateKvHandle s i = (some it, true)) (hm : WordInBounds memory p) :
    ∃ m, KvIteratorClose env s memory i p
        = some { data := none, err := none, memory := m, ctx := s,
                 calls := [HandleCall.kvRelease it] } ∧ WordInBounds m p := by
  obtain ⟨m, hc, hw⟩ := copyAt_word memory p (env.IntToBytes 1) hm
  exact ⟨m, by simp [KvIteratorClose, hreg, hc], hw⟩

theorem KvIteratorHasNext_registered (env : WasiEnv) (world : IterWorld)
    (s : TxSimContextImpl) (memory : List Byte) (i p : Int) (it : StateIterator)
    (hreg : GetStateKvHandle s i = (some it, true)) (hm : WordInBounds memory p) :
    ∃ m, KvIteratorHasNext env world s memory i p
        = some { data := none, err := none, memory := m, ctx := s,
                 calls := [HandleCall.kvNext it] } ∧ WordInBounds m p := by
  obtain ⟨m, hc, hw⟩ := copyAt_word memory p
    (env.IntToBytes (wrapInt32 (if world.Next it then 1 else 0))) hm
  exact ⟨m, by simp [KvIteratorHasNext, hreg, hc], hw⟩

/-- On a registered handle `KvIteratorNext` returns an error only when it asks
the iterator for its value and the iterator answers with an error. -/
theorem KvIteratorNext_registered_err (env : WasiEnv) (world : IterWorld)
    (s : TxSimContextImpl) (memory : List Byte) (data : GoBytes) (i p : Int) (isLen : Bool)
    (it : StateIterator) (r : WasiReturn) (e : GoError)
    (hreg : GetStateKvHandle s i = (some it, true))
    (hr : KvIteratorNext env world s memory data i p isLen = some r) (he : r.err = some e) :
    isLen = true ∧ ∃ e1, (world.Value it).2 = some e1 := by
  unfold KvIteratorNext at hr
  rw [hreg] at hr
  cases isLen with
  | false =>
    simp only [Bool.not_false, if_true] at hr
    split at hr
    · cases hr
    · cases hr
      cases he
  | true =>
    refine ⟨rfl, ?_⟩
    simp only [Bool.not_true, Bool.false_eq_true, if_false] at hr
    rcases hv : world.Value it with ⟨kv, _ | e1⟩
    · rw [hv] at hr
      cases kv with
      | none => cases hr
      | some kvRow =>
        simp only at hr
        split at hr
        · cases hr
        · cases hr
          cases he
    · exact ⟨e1, rfl⟩

theorem RSClose_registered (env : WasiEnv) (world : IterWorld) (s : TxSimContextImpl)
    (memory : List Byte) (i p : Int) (rows : SqlRows)
    (hreg : GetStateSqlHandle s i = (some rows, true)) (hsql : env.isSupportSql = true)
    (hclose : world.rowsClose rows = none) (hm : WordInBounds memory p) :
    ∃ m, RSClose env world s memory i p
        = some { data := none, err := none, memory := m, ctx := s,
                 calls := [HandleCall.rowsClose rows] } ∧ WordInBounds m p := by
  obtain ⟨m, hc, hw⟩ := copyAt_word memory p (env.IntToBytes 1) hm
  exact ⟨m, by simp [RSClose, hreg, hsql, hclose, hc], hw⟩

theorem RSHasNext_registered (env : WasiEnv) (world : IterWorld) (s : TxSimContextImpl)
    (memory : List Byte) (i p : Int) (rows : SqlRows)
    (hreg : GetStateSqlHandle s i = (some rows, true)) (hsql : env.isSupportSql = true)
    (hm : WordInBounds memory p) :
    ∃ m, RSHasNext env world s memory i p
        = some { data := none, err := none, memory := m, ctx := s,
                 calls := [HandleCall.rowsNext rows] } ∧ WordInBounds m p := by
  obtain ⟨m, hc, hw⟩ := copyAt_word memory p
    (env.IntToBytes (wrapInt32 (if world.rowsNext rows then 1 else 0))) hm
  exact ⟨m, by simp [RSHasNext, hreg, hsql, hc], hw⟩

/-- C15, counterexample.  On a new context the iterator 7 is registered under
the index 1 with `SetStateKvHandle`; the memory has eight bytes.  A first
`KvIteratorClose` on 1 returns `nil`; on the context and memory it leaves, a
second `KvIteratorClose` on 1 returns `nil` again, not an error, and so do
`KvIteratorHasNext` and `KvIteratorNext` on 1. -/
theorem C15_counterexample_second_close_succeeds :
    (KvIteratorClose (sampleEnv true)
      (SetStateKvHandle (newContext 0 (txOf [116])) 1 (some ⟨7⟩))
      (List.replicate 8 0) 1 0).map (fun r => r.err) = some none ∧
    ((KvIteratorClose (sampleEnv true)
      (SetStateKvHandle (newContext 0 (txOf [116])) 1 (some ⟨7⟩))
      (List.replicate 8 0) 1 0).bind
        (fun r => KvIteratorClose (sampleEnv true) r.ctx r.memory 1 0)).map
          (fun r => (r.err, r.calls)) = some (none, [HandleCall.kvRelease ⟨7⟩]) ∧
    ((KvIteratorClose (sampleEnv true)
      (SetStateKvHandle (newContext 0 (txOf [116])) 1 (some ⟨7⟩))
      (List.replicate 8 0) 1 0).bind
        (fun r => KvIteratorHasNext (sampleEnv true) quietWorld r.ctx r.memory 1 0)).map
          (fun r => r.err) = some none ∧
    ((KvIteratorClose (sampleEnv true)
      (SetStateKvHandle (newContext 0 (txOf [116])) 1 (some ⟨7⟩))
      (List.replicate 8 0) 1 0).bind
        (fun r => KvIteratorNext (sampleEnv true) quietWorld r.ctx r.memory none 1 0 true)).map
          (fun r => r.err) = some none := by
  decide

/-- C15, as amended.  Closing does not take a handle out of its table.  With
the pointer of the request within the memory: if the index `i` holds the
iterator `it`, `KvIteratorClose` on `i` releases `it`, returns `nil` and leaves
the context as it is, so that `i` still holds `it`; a second `KvIteratorClose`
on `i` releases `it` again and returns `nil`, `KvIteratorHasNext` on `i` asks
`it` and returns `nil`, and `KvIteratorNext` on `i` returns an error only when
`it` answers `Value()` with one.  Likewise, with SQL support on, if `i` holds
the result set `rows` whose `Close()` returns no error, `RSClose` on `i`
returns `nil` and leaves the context as it is, a second `RSClose` on `i`
returns `nil` again, and `RSHasNext` on `i` returns `nil`. -/
theorem C15_close_keeps_handle_registered (env : WasiEnv) (world : IterWorld)
    (s : TxSimContextImpl) (memory : List Byte) (i p : Int) (hm : WordInBounds memory p) :
    (∀ it, GetStateKvHandle s i = (some it, true) →
      ∃ r1, KvIteratorClose env s memory i p = some r1 ∧ r1.err = none ∧ r1.ctx = s ∧
        r1.calls = [HandleCall.kvRelease it] ∧
        GetStateKvHandle r1.ctx i = (some it, true) ∧
        (∃ r2, KvIteratorClose env r1.ctx r1.memory i p = some r2 ∧ r2.err = none ∧
          r2.calls = [HandleCall.kvRelease it]) ∧
        (∃ r3, KvIteratorHasNext env world r1.ctx r1.memory i p = some r3 ∧ r3.err = none ∧
          r3.calls = [HandleCall.kvNext it]) ∧
        (∀ data q isLen r4 e, KvIteratorNext env world r1.ctx r1.memory data i q isLen = some r4 →
          r4.err = some e → isLen = true ∧ ∃ e1, (world.Value it).2 = some e1)) ∧
    (∀ rows, GetStateSqlHandle s i = (some rows, true) → env.isSupportSql = true →
      world.rowsClose rows = none →
      ∃ r1, RSClose env world s memory i p = some r1 ∧ r1.err = none ∧ r1.ctx = s ∧
        r1.calls = [HandleCall.rowsClose rows] ∧
        GetStateSqlHandle r1.ctx i = (some rows, true) ∧
        (∃ r2, RSClose env world r1.ctx r1.memory i p = some r2 ∧ r2.err = none ∧
          r2.calls = [HandleCall.rowsClose rows]) ∧
        (∃ r3, RSHasNext env world r1.ctx r1.memory i p = some r3 ∧ r3.err = none ∧
          r3.calls = [HandleCall.rowsNext rows])) := by
  constructor
  · intro it hreg
    obtain ⟨m1, h1, hw1⟩ := KvIteratorClose_registered env s memory i p it hreg hm
    obtain ⟨m2, h2, _⟩ := KvIteratorClose_registered env s m1 i p it hreg hw1
    obtain ⟨m3, h3, _⟩ := KvIteratorHasNext_registered env world s m1 i p it hreg hw1
    refine ⟨_, h1, rfl, rfl, rfl, hreg, ⟨_, h2, rfl, rfl⟩, ⟨_, h3, rfl, rfl⟩, ?_⟩
    intro data q isLen r4 e hr he
    exact KvIteratorNext_registered_err env world s m1 data i q isLen it r4 e hreg hr he
  · intro rows hreg hsql hclose
    obtain ⟨m1, h1, hw1⟩ := RSClose_registered env world s memory i p rows hreg hsql hclose hm
    obtain ⟨m2, h2, _⟩ := RSClose_registered env world s m1 i p rows hreg hsql hclose hw1
    obtain ⟨m3, h3, _⟩ := RSHasNext_registered env world s m1 i p rows hreg hsql hw1
    exact ⟨_, h1, rfl, rfl, rfl, hreg, ⟨_, h2, rfl, rfl⟩, ⟨_, h3, rfl, rfl⟩⟩

/-- C15, amended claim at a concrete context: the iterator 7 under the index 1,
a memory of eight bytes, the pointer 0. -/
theorem C15_close_keeps_handle_registered_witness :
    WordInBounds (List.replicate 8 0) 0 ∧
    GetStateKvHandle (SetStateKvHandle (newContext 0 (txOf [116])) 1 (some ⟨7⟩)) 1
      = (some ⟨7⟩, true) ∧
    ∃ r1, KvIteratorClose (sampleEnv true)
        (SetStateKvHandle (newContext 0 (txOf [116])) 1 (some ⟨7⟩)) (List.replicate 8 0) 1 0
        = some r1 ∧ r1.err = none ∧
      r1.ctx = SetStateKvHandle (newContext 0 (txOf [116])) 1 (some ⟨7⟩) :=
  ⟨⟨by decide, by decide, by decide⟩, by decide,
   match (C15_close_keeps_handle_registered (sampleEnv true) quietWorld
      (SetStateKvHandle (newContext 0 (txOf [116])) 1 (some ⟨7⟩)) (List.replicate 8 0) 1 0
      ⟨by decide, by decide, by decide⟩).1 ⟨7⟩ (by decide) with
   | ⟨r1, h1, h2, h3, _⟩ => ⟨r1, h1, h2, h3⟩⟩

/-! ## Claim C16: unknown handles and the two tables -/

theorem applyReg_kvLookup (s : TxSimContextImpl) (r : Reg) (i : Int) :
    handleLookup (applyReg s r).kvRowCache i
      = match lastKvReg i [r] with
        | some it => some it
        | none => handleLookup s.kvRowCache i := by
  cases r with
  | kv j it =>
    by_cases h : j = i
    · subst h
      simp [applyReg, SetStateKvHandle, lastKvReg, handleLookup_handleSet_self]
    · have hne : i ≠ j := fun e => h e.symm
      simp [applyReg, SetStateKvHandle, lastKvReg, h, handleLookup_handleSet_ne _ _ _ _ hne]
  | sql j rows => simp [applyReg, SetStateSqlHandle, lastKvReg]

theorem applyReg_sqlLookup (s : TxSimContextImpl) (r : Reg) (i : Int) :
    handleLookup (applyReg s r).sqlRowCache i
      = match lastSqlReg i [r] with
        | some rows => some rows
        | none => handleLookup s.sqlRowCache i := by
  cases r with
  | sql j rows =>
    by_cases h : j = i
    · subst h
      simp [applyReg, SetStateSqlHandle, lastSqlReg, handleLookup_handleSet_self]
    · have hne : i ≠ j := fun e => h e.symm
      simp [applyReg, SetStateSqlHandle, lastSqlReg, h, handleLookup_handleSet_ne _ _ _ _ hne]
  | kv j it => simp [applyReg, SetStateKvHandle, lastSqlReg]

theorem lastKvReg_cons (i : Int) (r : Reg) (regs : List Reg) :
    lastKvReg i (r :: regs)
      = match lastKvReg i regs with
        | some it => some it
        | none => lastKvReg i [r] := by
  cases h : lastKvReg i regs with
  | some it => simp [lastKvReg, h]
  | none => cases r <;> simp [lastKvReg, h]

theorem lastSqlReg_cons (i : Int) (r : Reg) (regs : List Reg) :
    lastSqlReg i (r :: regs)
      = match lastSqlReg i regs with
        | some rows => some rows
        | none => lastSqlReg i [r] := by
  cases h : lastSqlReg i regs with
  | some rows => simp [lastSqlReg, h]
  | none => cases r <;> simp [lastSqlReg, h]

theorem applyRegs_kvLookup (s : TxSimContextImpl) (regs : List Reg) (i : Int) :
    handleLookup (applyRegs s regs).kvRowCache i
      = match lastKvReg i regs with
        | some it => some it
        | none => handleLookup s.kvRowCache i := by
  induction regs generalizing s with
  | nil => simp [applyRegs, lastKvReg]
  | cons r regs ih =>
    simp only [applyRegs]
    rw [ih (applyReg s r), lastKvReg_cons]
    cases h : lastKvReg i regs with
    | some it => rfl
    | none => exact applyReg_kvLookup s r i

theorem applyRegs_sqlLookup (s : TxSimContextImpl) (regs : List Reg) (i : Int) :
    handleLookup (applyRegs s regs).sqlRowCache i
      = match lastSqlReg i regs with
        | some rows => some rows
        | none => handleLookup s.sqlRowCache i := by
  induction regs generalizing s with
  | nil => simp [applyRegs, lastSqlReg]
  | cons r regs ih =>
    simp only [applyRegs]
    rw [ih (applyReg s r), lastSqlReg_cons]
    cases h : lastSqlReg i regs with
    | some rows => rfl
    | none => exact applyReg_sqlLookup s r i

/-- C16.  For an index `i` that has no entry in the KV handle table,
`KvIteratorHasNext`, `KvIteratorNext` and `KvIteratorClose` on `i` each return
an error, call no iterator and leave the memory and the context, handle tables
included, as they are.  After any sequence of registrations
`GetStateKvHandle(i)` returns `(it, true)` for the iterator `it` of the last
`SetStateKvHandle` for `i`, and what the context returned before when there is
none; on a context that starts with an empty KV table it returns `(it, true)`
exactly when the last `SetStateKvHandle` for `i` registered `it`.  The same
holds of the SQL table, and a registration in one table does not change what
the other returns. -/
theorem C16_unknown_handle_is_an_error (env : WasiEnv) (world : IterWorld)
    (s : TxSimContextImpl) (memory : List Byte) :
    (∀ i, handleLookup s.kvRowCache i = none →
      (∀ p, ∃ e, KvIteratorHasNext env world s memory i p
        = some { data := none, err := some e, memory := memory, ctx := s, calls := [] }) ∧
      (∀ data p isLen, ∃ e, KvIteratorNext env world s memory data i p isLen
        = some { data := none, err := some e, memory := memory, ctx := s, calls := [] }) ∧
      (∀ p, ∃ e, KvIteratorClose env s memory i p
        = some { data := none, err := some e, memory := memory, ctx := s, calls := [] })) ∧
    (∀ regs i, GetStateKvHandle (applyRegs s regs) i
      = match lastKvReg i regs with
        | some it => (it, true)
        | none => GetStateKvHandle s i) ∧
    (∀ regs i, GetStateSqlHandle (applyRegs s regs) i
      = match lastSqlReg i regs with
        | some rows => (rows, true)
        | none => GetStateSqlHandle s i) ∧
    (s.kvRowCache = [] → ∀ regs i it,
      GetStateKvHandle (applyRegs s regs) i = (it, true) ↔ lastKvReg i regs = some it) ∧
    (∀ i rows j, GetStateKvHandle (SetStateSqlHandle s i rows) j = GetStateKvHandle s j) ∧
    (∀ i it j, GetStateSqlHandle (SetStateKvHandle s i it) j = GetStateSqlHandle s j) := by
  have hkv : ∀ regs i, GetStateKvHandle (applyRegs s regs) i
      = match lastKvReg i regs with
        | some it => (it, true)
        | none => GetStateKvHandle s i := by
    intro regs i
    unfold GetStateKvHandle
    rw [applyRegs_kvLookup]
    cases lastKvReg i regs <;> rfl
  refine ⟨?_, hkv, ?_, ?_, fun _ _ _ => rfl, fun _ _ _ => rfl⟩
  · intro i hi
    have hg : GetStateKvHandle s i = (none, false) := by simp [GetStateKvHandle, hi]
    refine ⟨fun p => ⟨"[kv iterator has next] can not found rs_index[" ++ toString i ++ "]", ?_⟩,
      fun data p isLen =>
        ⟨"[kv iterator next] can not found rs_index[" ++ toString i ++ "]", ?_⟩,
      fun p => ⟨"[kv iterator close] ctx can not found rs_index[" ++ toString i ++ "]", ?_⟩⟩
    · simp only [KvIteratorHasNext, hg]
    · simp only [KvIteratorNext, hg]
    · simp only [KvIteratorClose, hg]
  · intro regs i
    unfold GetStateSqlHandle
    rw [applyRegs_sqlLookup]
    cases lastSqlReg i regs <;> rfl
  · intro hempty regs i it
    rw [hkv regs i]
    cases h : lastKvReg i regs with
    | some it1 => simp
    | none => simp [GetStateKvHandle, hempty, handleLookup]

/-- C16 at a concrete context: on a new context, after the iterator 7 was
registered under the index 1 and a result set under the index 2 of the SQL
table, the index 2 is unknown to the KV table and `KvIteratorClose` on it
returns an error. -/
theorem C16_unknown_handle_is_an_error_witness :
    handleLookup (applyRegs (newContext 0 (txOf [116]))
      [Reg.kv 1 (some ⟨7⟩), Reg.sql 2 (some ⟨9⟩)]).kvRowCache 2 = none ∧
    ∃ e, KvIteratorClose (sampleEnv true)
        (applyRegs (newContext 0 (txOf [116])) [Reg.kv 1 (some ⟨7⟩), Reg.sql 2 (some ⟨9⟩)])
        (List.replicate 8 0) 2 0
      = some { data := none, err := some e, memory := List.replicate 8 0,
               ctx := applyRegs (newContext 0 (txOf [116]))
                 [Reg.kv 1 (some ⟨7⟩), Reg.sql 2 (some ⟨9⟩)],
               calls := [] } :=
  ⟨by decide,
   ((C16_unknown_handle_is_an_error (sampleEnv true) quietWorld
      (applyRegs (newContext 0 (txOf [116])) [Reg.kv 1 (some ⟨7⟩), Reg.sql 2 (some ⟨9⟩)])
      (List.replicate 8 0)).1 2 (by decide)).2.2 0⟩

/-! ## Claim C17: `Select` and the registration of its iterator -/

/-- C17, counterexample.  On a new context over a store whose range read
yields the iterator 7, `Select` succeeds and returns that iterator, and the KV
handle table of the context after the call is empty: no index holds the
iterator. -/
theorem C17_counterexample_select_registers_nothing :
    (Select (newContext 0 (txOf [116])) (constStore none ⟨7⟩) [99] (some [97]) (some [122])).1
      = (some ⟨7⟩, none) ∧
    (Select (newContext 0 (txOf [116])) (constStore none ⟨7⟩) [99] (some [97])
      (some [122])).2.kvRowCache = [] ∧
    GetStateKvHandle (Select (newContext 0 (txOf [116])) (constStore none ⟨7⟩) [99] (some [97])
      (some [122])).2 1 = (none, false) := by
  decide

/-- C17, as amended.  `Select` returns what the store's `SelectObject` returns
for the same arguments and leaves the context, handle tables, read set and
write set included, as it is.  The handle is registered by the caller:
`WacsiImpl.KvIterator`, when both key checks pass, `Select` returns the
iterator `iter` without error and the pointer is within the memory, stores
`iter` in the KV handle table under the next value of its row counter and
changes nothing else in the context. -/
theorem C17_select_leaves_registration_to_caller (env : WasiEnv) (store : BlockchainStore)
    (s : TxSimContextImpl) (c : GoString) (startKey limitKey : GoBytes) :
    (Select s store c startKey limitKey).1 = store.SelectObject c startKey limitKey ∧
    (Select s store c startKey limitKey).2 = s ∧
    (∀ memory rowIndex sk sf lk lf p iter,
      env.CheckKeyFieldStr sk sf = none → env.CheckKeyFieldStr lk lf = none →
      store.SelectObject c (env.GetKeyStr sk sf) (env.GetKeyStr lk lf) = (iter, none) →
      WordInBounds memory p →
      ∃ r, KvIterator env store s memory rowIndex c sk sf lk lf p = some r ∧ r.err = none ∧
        r.rowIndex = wrapInt32 (rowIndex + 1) ∧
        r.ctx = SetStateKvHandle s (wrapInt32 (rowIndex + 1)) iter ∧
        GetStateKvHandle r.ctx (wrapInt32 (rowIndex + 1)) = (iter, true) ∧
        r.ctx.txReadKeyMap = s.txReadKeyMap ∧ r.ctx.txWriteKeyMap = s.txWriteKeyMap) := by
  refine ⟨rfl, rfl, ?_⟩
  intro memory rowIndex sk sf lk lf p iter h1 h2 hsel hm
  obtain ⟨m, hc, _⟩ := copyAt_word memory p (env.IntToBytes (wrapInt32 (rowIndex + 1))) hm
  refine ⟨{ err := none, memory := m,
            ctx := SetStateKvHandle s (wrapInt32 (rowIndex + 1)) iter,
            rowIndex := wrapInt32 (rowIndex + 1) }, ?_, rfl, rfl, rfl, ?_, rfl, rfl⟩
  · simp [KvIterator, h1, h2, Select, hsel, hc]
  · simp [GetStateKvHandle, SetStateKvHandle, handleLookup_handleSet_self]

/-- C17, amended claim at a concrete call: on a new context, with the row
counter at 0, `KvIterator` registers the iterator 7 of the store under the
index 1. -/
theorem C17_select_leaves_registration_to_caller_witness :
    (sampleEnv true).CheckKeyFieldStr [97] [] = none ∧
    (sampleEnv true).CheckKeyFieldStr [122] [] = none ∧
    (constStore none ⟨7⟩).SelectObject [99] ((sampleEnv true).GetKeyStr [97] [])
      ((sampleEnv true).GetKeyStr [122] []) = (some ⟨7⟩, none) ∧
    WordInBounds (List.replicate 8 0) 0 ∧
    ∃ r, KvIterator (sampleEnv true) (constStore none ⟨7⟩) (newContext 0 (txOf [116]))
        (List.replicate 8 0) 0 [99] [97] [] [122] [] 0 = some r ∧ r.err = none ∧
      r.rowIndex = wrapInt32 (0 + 1) ∧
      r.ctx = SetStateKvHandle (newContext 0 (txOf [116])) (wrapInt32 (0 + 1)) (some ⟨7⟩) :=
  ⟨rfl, rfl, rfl, ⟨by decide, by decide, by decide⟩,
   match (C17_select_leaves_registration_to_caller (sampleEnv true) (constStore none ⟨7⟩)
      (newContext 0 (txOf [116])) [99] (some [97]) (some [122])).2.2
      (List.replicate 8 0) 0 [97] [] [122] [] 0 (some ⟨7⟩) rfl rfl rfl
      ⟨by decide, by decide, by decide⟩ with
   | ⟨r, h1, h2, h3, h4, _⟩ => ⟨r, h1, h2, h3, h4⟩⟩

/-! ## Claim C18: the query context against the simulation context -/

/-- One call gives the same results on both contexts and keeps their read and
write sets equal. -/
theorem simStep_queryStep (snapshot : Snapshot) (store : BlockchainStore)
    (hsame : ∀ seq c k, snapshot.GetKey seq c k = store.ReadObject c k)
    (s : TxSimContextImpl) (q : TxQuerySimContextImpl)
    (hr : s.txReadKeyMap = q.txReadKeyMap) (hw : s.txWriteKeyMap = q.txWriteKeyMap)
    (op : KvOp) :
    (simStep snapshot s op).1 = (queryStep store q op).1 ∧
      (simStep snapshot s op).2.txReadKeyMap = (queryStep store q op).2.txReadKeyMap ∧
      (simStep snapshot s op).2.txWriteKeyMap = (queryStep store q op).2.txWriteKeyMap := by
  cases op with
  | get c k =>
    simp only [simStep, queryStep, Get, TxQuery.Get, getFromWriteSet, getFromReadSet,
      TxQuery.getFromWriteSet, TxQuery.getFromReadSet, hr, hw, hsame]
    rcases mapLookup q.txWriteKeyMap (constructKey c k) with _ | w
    · rcases mapLookup q.txReadKeyMap (constructKey c k) with _ | r
      · rcases store.ReadObject c k with ⟨val, _ | e⟩
        · simp [putIntoReadSet, TxQuery.putIntoReadSet, hr, hw]
        · simp [hr, hw]
      · simp [hr, hw]
    · simp [putIntoReadSet, TxQuery.putIntoReadSet, hr, hw]
  | put c k v =>
    simp [simStep, queryStep, Put, TxQuery.Put, putIntoWriteSet, TxQuery.putIntoWriteSet, hr, hw]
  | del c k =>
    simp [simStep, queryStep, Del, TxQuery.Del, putIntoWriteSet, TxQuery.putIntoWriteSet, hr, hw]

/-- C18.  Let the snapshot answer `GetKey` as the store answers `ReadObject`,
and let a simulation context and a query context hold equal read sets and equal
write sets.  For every sequence of `Get`, `Put` and `Del` calls the two
contexts return the same value and error at every call, and end with equal read
sets and equal write sets. -/
theorem C18_query_context_same_get_semantics (snapshot : Snapshot) (store : BlockchainStore)
    (hsame : ∀ seq c k, snapshot.GetKey seq c k = store.ReadObject c k)
    (s : TxSimContextImpl) (q : TxQuerySimContextImpl)
    (hr : s.txReadKeyMap = q.txReadKeyMap) (hw : s.txWriteKeyMap = q.txWriteKeyMap)
    (ops : List KvOp) :
    (runSim snapshot s ops).1 = (runQuery store q ops).1 ∧
      (runSim snapshot s ops).2.txReadKeyMap = (runQuery store q ops).2.txReadKeyMap ∧
      (runSim snapshot s ops).2.txWriteKeyMap = (runQuery store q ops).2.txWriteKeyMap := by
  induction ops generalizing s q with
  | nil => exact ⟨rfl, hr, hw⟩
  | cons op ops ih =>
    have h1 := simStep_queryStep snapshot store hsame s q hr hw op
    have h2 := ih (simStep snapshot s op).2 (queryStep store q op).2 h1.2.1 h1.2.2
    simp only [runSim, runQuery]
    exact ⟨by rw [h1.1, h2.1], h2.2.1, h2.2.2⟩

/-- C18 at a concrete sequence on new contexts over a store holding `"v"`:
`Get("c", "k")`, `Put("c", "k", "w")`, `Get("c", "k")`, `Del("c", "j")`,
`Get("c", "j")` return `"v"`, `nil`, `"w"`, `nil`, `nil` on both. -/
theorem C18_query_context_same_get_semantics_witness :
    (∀ seq c k, (constSnapshot (some [118]) none).GetKey seq c k
      = (constStore (some [118]) ⟨7⟩).ReadObject c k) ∧
    (newContext 0 (txOf [116])).txReadKeyMap = (newQueryContext (txOf [116])).txReadKeyMap ∧
    (newContext 0 (txOf [116])).txWriteKeyMap = (newQueryContext (txOf [116])).txWriteKeyMap ∧
    (runQuery (constStore (some [118]) ⟨7⟩) (newQueryContext (txOf [116]))
      [KvOp.get [99] (some [107]), KvOp.put [99] (some [107]) (some [119]),
       KvOp.get [99] (some [107]), KvOp.del [99] (some [106]), KvOp.get [99] (some [106])]).1
      = [(some [118], none), (none, none), (some [119], none), (none, none), (none, none)] ∧
    (runSim (constSnapshot (some [118]) none) (newContext 0 (txOf [116]))
      [KvOp.get [99] (some [107]), KvOp.put [99] (some [107]) (some [119]),
       KvOp.get [99] (some [107]), KvOp.del [99] (some [106]), KvOp.get [99] (some [106])]).1
      = (runQuery (constStore (some [118]) ⟨7⟩) (newQueryContext (txOf [116]))
      [KvOp.get [99] (some [107]), KvOp.put [99] (some [107]) (some [119]),
       KvOp.get [99] (some [107]), KvOp.del [99] (some [106]), KvOp.get [99] (some [106])]).1 :=
  ⟨fun _ _ _ => rfl, rfl, rfl, by decide,
   (C18_query_context_same_get_semantics (constSnapshot (some [118]) none)
      (constStore (some [118]) ⟨7⟩) (fun _ _ _ => rfl) (newContext 0 (txOf [116]))
      (newQueryContext (txOf [116])) rfl rfl
      [KvOp.get [99] (some [107]), KvOp.put [99] (some [107]) (some [119]),
       KvOp.get [99] (some [107]), KvOp.del [99] (some [106]),
       KvOp.get [99] (some [106])]).1⟩

/-! ## Claim C20: the state key of the key-value database -/

/-- C20.  For every contract name `c` and key `k`, `constructStateKey(c, k)` is
the bytes of `c`, then `'#'`, then the bytes of `k`, and
`parseStateKey(constructStateKey(c, k), c)` returns, without a slice fault, the
bytes of `k`: the slice `k` itself when `k` is not `nil`. -/
theorem C20_state_key_round_trip (c : GoString) (k : GoBytes) :
    constructStateKey c k = some (c ++ [35] ++ bytesToString k) ∧
    parseStateKey (constructStateKey c k) c = some (some (bytesToString k)) ∧
    (∀ b : List Byte, parseStateKey (constructStateKey c (some b)) c = some (some b)) := by
  refine ⟨rfl, ?_, ?_⟩
  · simp [parseStateKey, constructStateKey, bytesToString, lenBytes, contractStoreSeparator]
  · intro b
    simp [parseStateKey, constructStateKey, bytesToString, lenBytes, contractStoreSeparator]

/-! ## Claim C28: the result that `CallContract` returns -/

/-- On every return of `CallContract` except the one after a failed bytecode
lookup, the returned result is not `nil`. -/
theorem CallContract_result_isSome (P : ProtocolConsts) (s : TxSimContextImpl)
    (snap : Snapshot) (vm : VmManager) (contract : Contract) (method : GoString)
    (byteCode : GoBytes) (parameter : GoMap GoBytes) (gasUsed : Nat) (refTxType : TxType)
    (h : s.currentDepth + 1 > P.CallContractDepth ∨ gasUsed > P.GasLimit ∨
      ∃ bc, lookupByteCode snap contract byteCode = some bc) :
    ∃ r, (CallContract P s snap vm contract method byteCode parameter gasUsed
      refTxType).result = some r := by
  by_cases hd : s.currentDepth + 1 > P.CallContractDepth
  · rw [CallContract_too_deep P s snap vm contract method byteCode parameter gasUsed
      refTxType hd]
    exact ⟨_, rfl⟩
  · have hd2 : s.currentDepth + 1 ≤ P.CallContractDepth := not_lt.mp hd
    by_cases hg : gasUsed > P.GasLimit
    · rw [CallContract_gas_exceeded P s snap vm contract method byteCode parameter gasUsed
        refTxType hd2 hg]
      exact ⟨_, rfl⟩
    · have hg2 : gasUsed ≤ P.GasLimit := not_lt.mp hg
      rcases h with h | h | ⟨bc, hb⟩
      · exact absurd h hd
      · exact absurd h hg
      · exact ⟨_, (CallContract_runs P s snap vm contract method byteCode parameter gasUsed
          refTxType bc hd2 hg2 hb).2.1⟩

/-- C28, a usable result on every return, evaluated where the code departs from
it, with `CallContractDepth = 5` and `GasLimit = 10^10`.  On a new context a
call with gas 7 and no bytecode, for a contract whose bytecode the store does
not find, returns the status `CONTRACT_FAIL`, which is not `SUCCESS`, and a
`nil` result; so does the same call on a new query context.  The two returns
before it build a `ContractResult`; this one returns `nil` in its place. -/
theorem C28_nil_result_on_failed_bytecode_lookup :
    (CallContract ⟨5, 10000000000⟩ (newContext 0 (txOf [116]))
      (failingSnapshot "contract not found") (constVm ⟨0, some [114], [], 3⟩ TxStatusCode.SUCCESS)
      ⟨[99]⟩ [109] none [] 7 0).result = none ∧
    (CallContract ⟨5, 10000000000⟩ (newContext 0 (txOf [116]))
      (failingSnapshot "contract not found") (constVm ⟨0, some [114], [], 3⟩ TxStatusCode.SUCCESS)
      ⟨[99]⟩ [109] none [] 7 0).code = TxStatusCode.CONTRACT_FAIL ∧
    TxStatusCode.CONTRACT_FAIL ≠ TxStatusCode.SUCCESS ∧
    (TxQuery.CallContract ⟨5, 10000000000⟩ (newQueryContext (txOf [116]))
      (fun _ => (none, some "contract not found"))
      (fun _ q => ((⟨0, some [114], [], 3⟩, TxStatusCode.SUCCESS), q))
      ⟨[99]⟩ [109] none [] 7 0).result = none ∧
    (TxQuery.CallContract ⟨5, 10000000000⟩ (newQueryContext (txOf [116]))
      (fun _ => (none, some "contract not found"))
      (fun _ q => ((⟨0, some [114], [], 3⟩, TxStatusCode.SUCCESS), q))
      ⟨[99]⟩ [109] none [] 7 0).code = TxStatusCode.CONTRACT_FAIL := by
  decide

/-! ## Claim C23: an error result is sticky -/

/-- `ErrorResult` sets the code to 1. -/
theorem ErrorResult_code (K : SdkSignals) (c : ContractResult) (data : GoBytes) :
    (ErrorResult K c data).2.Code = 1 := by
  unfold ErrorResult
  by_cases h : c.Message.length > 0 <;> simp [h]

/-- With the code at 1, `SuccessResult` changes nothing. -/
theorem SuccessResult_of_code_one (K : SdkSignals) (c : ContractResult) (data : GoBytes)
    (h : c.Code = 1) : SuccessResult K c data = (K.ContractSdkSignalResultFail, c) := by
  simp [SuccessResult, h]

/-- The code stays at 1 through every sequence of calls. -/
theorem applyResultCalls_code_one (K : SdkSignals) (calls : List ResultCall)
    (c : ContractResult) (h : c.Code = 1) : (applyResultCalls K c calls).Code = 1 := by
  induction calls generalizing c with
  | nil => simpa [applyResultCalls] using h
  | cons a rest ih =>
    have hstep : (applyResultCall K c a).Code = 1 := by
      cases a with
      | success data => simp [applyResultCall, SuccessResult_of_code_one K c data h, h]
      | error data => exact ErrorResult_code K c data
    simpa [applyResultCalls] using ih (applyResultCall K c a) hstep

/-- Successes alone keep the code away from 1. -/
theorem applyResultCalls_successes_code (K : SdkSignals) (ds : List GoBytes)
    (c : ContractResult) (h : c.Code ≠ 1) :
    (applyResultCalls K c (ds.map ResultCall.success)).Code ≠ 1 := by
  induction ds generalizing c with
  | nil => simpa [applyResultCalls] using h
  | cons d rest ih =>
    have hstep : (applyResultCall K c (ResultCall.success d)).Code ≠ 1 := by
      simp [applyResultCall, SuccessResult, h]
    simpa [applyResultCalls] using ih (applyResultCall K c (ResultCall.success d)) hstep

/-- C23: an error result is sticky.  Take a contract result `c0` whose code is
not 1 and let successes `ds` run on it, giving `c`.  Then (1) `SuccessResult`
on `c` returns `ContractSdkSignalResultSuccess`, sets the code to 0 and
replaces `Result` by its data, leaving the rest; (2) `ErrorResult` on any
result `c1` returns `ContractSdkSignalResultSuccess`, sets the code to 1, leaves
`Result` alone and appends to `Message`: the new message is the old one, then
". contract message:" when the old one is not empty, then "contract message:"
and the data; (3) after `ErrorResult` on `c` and any further calls `post`, the
code is 1 and `SuccessResult` returns `ContractSdkSignalResultFail` and leaves
the whole result, so `Code`, `Result` and `Message`, as it was. -/
theorem C23_error_result_is_sticky (K : SdkSignals) (c0 c1 : ContractResult)
    (ds : List GoBytes) (post : List ResultCall) (d e d2 : GoBytes) (h0 : c0.Code ≠ 1) :
    SuccessResult K (applyResultCalls K c0 (ds.map ResultCall.success)) d =
      (K.ContractSdkSignalResultSuccess,
        { applyResultCalls K c0 (ds.map ResultCall.success) with Code := 0, Result := d }) ∧
    ((ErrorResult K c1 e).1 = K.ContractSdkSignalResultSuccess ∧
      (ErrorResult K c1 e).2.Code = 1 ∧
      (ErrorResult K c1 e).2.Result = c1.Result ∧
      (ErrorResult K c1 e).2.GasUsed = c1.GasUsed ∧
      (ErrorResult K c1 e).2.Message =
        c1.Message ++ ((if c1.Message.length > 0 then asciiBytes ". " else []) ++
          (asciiBytes "contract message:" ++ bytesToString e))) ∧
    (applyResultCalls K (ErrorResult K (applyResultCalls K c0 (ds.map ResultCall.success)) e).2
        post).Code = 1 ∧
    SuccessResult K
        (applyResultCalls K (ErrorResult K (applyResultCalls K c0 (ds.map ResultCall.success)) e).2
          post) d2 =
      (K.ContractSdkSignalResultFail,
        applyResultCalls K (ErrorResult K (applyResultCalls K c0 (ds.map ResultCall.success)) e).2
          post) := by
  have hc := applyResultCalls_successes_code K ds c0 h0
  have hE := applyResultCalls_code_one K post _
    (ErrorResult_code K (applyResultCalls K c0 (ds.map ResultCall.success)) e)
  refine ⟨?_, ⟨?_, ErrorResult_code K c1 e, ?_, ?_, ?_⟩, hE, SuccessResult_of_code_one K _ d2 hE⟩
  · simp [SuccessResult, hc]
  · simp [ErrorResult]
  · unfold ErrorResult
    by_cases h : c1.Message.length > 0 <;> simp [h]
  · unfold ErrorResult
    by_cases h : c1.Message.length > 0 <;> simp [h]
  · unfold ErrorResult
    by_cases h : c1.Message.length > 0
    · have hsplit : asciiBytes ". contract message:" =
          asciiBytes ". " ++ asciiBytes "contract message:" := by decide
      simp [h, hsplit]
    · have hnil : c1.Message = [] := by
        cases hm : c1.Message with
        | nil => rfl
        | cons a t => simp [hm] at h
      simp [hnil]

/-- C23 at a new result: a success with "ok", an error with "bad", a further
error and a success, then a success with "late". -/
theorem C23_error_result_is_sticky_witness :
    (⟨0, none, [], 0⟩ : ContractResult).Code ≠ 1 ∧
    SuccessResult ⟨0, 1⟩ (applyResultCalls ⟨0, 1⟩ ⟨0, none, [], 0⟩
        ([some [111, 107]].map ResultCall.success)) (some [111]) =
      (0, { applyResultCalls ⟨0, 1⟩ ⟨0, none, [], 0⟩
              ([some [111, 107]].map ResultCall.success) with Code := 0, Result := some [111] }) ∧
    (applyResultCalls ⟨0, 1⟩
      (ErrorResult ⟨0, 1⟩ (applyResultCalls ⟨0, 1⟩ ⟨0, none, [], 0⟩
        ([some [111, 107]].map ResultCall.success)) (some [98, 97, 100])).2
      [ResultCall.error (some [120]), ResultCall.success (some [121])]).Code = 1 :=
  have h := C23_error_result_is_sticky ⟨0, 1⟩ ⟨0, none, [], 0⟩ ⟨0, none, [], 0⟩
    [some [111, 107]] [ResultCall.error (some [120]), ResultCall.success (some [121])]
    (some [111]) (some [98, 97, 100]) (some [108]) (by decide)
  ⟨by decide, h.1, h.2.2.1⟩

/-! ## Claims C21 and C22: the number conversions of the contract SDK -/

/-- The loop of `Int32ToString` ends within `fuel` rounds on a number of at most
`fuel` digits. -/
theorem Int32ToString_loop_isSome (fuel : Nat) (c : Int) (res : GoString)
    (h : c.natAbs < 10 ^ fuel) : ∃ s, Int32ToString.loop fuel c res = some s := by
  induction fuel generalizing c res with
  | zero =>
    have hc : c = 0 := by
      have : c.natAbs = 0 := by simpa using h
      exact Int.natAbs_eq_zero.mp this
    exact ⟨res, by simp [Int32ToString.loop, hc]⟩
  | succ f ih =>
    by_cases hc : c = 0
    · exact ⟨res, by simp [Int32ToString.loop, hc]⟩
    · have hlt : (Int.tdiv c 10).natAbs < 10 ^ f := by
        rw [Int.natAbs_tdiv]
        have h10 : (10 : Int).natAbs = 10 := rfl
        rw [h10]
        have h2 : c.natAbs < 10 * 10 ^ f := by rw [pow_succ] at h; omega
        exact Nat.div_lt_of_lt_mul h2
      obtain ⟨s, hs⟩ := ih (Int.tdiv c 10) (getChar (Int.tmod c 10) ++ res) hlt
      exact ⟨s, by rw [Int32ToString.loop]; simp [hc, hs]⟩

/-- `Int32ToString` returns on every `int32`: ten rounds suffice. -/
theorem Int32ToString_isSome (number : Int) (hlo : -2147483648 ≤ number)
    (hhi : number ≤ 2147483647) : ∃ s, Int32ToString number = some s := by
  have hfuel : ∀ c : Int, -2147483648 ≤ c → c ≤ 2147483647 → c.natAbs < 10 ^ 10 := by
    intro c h1 h2
    omega
  have hc : ∃ s, Int32ToString.loop 10
      (if number < 0 then wrapInt32 (-1 * number) else number) [] = some s := by
    apply Int32ToString_loop_isSome
    by_cases hn : number < 0
    · simp only [hn, if_true]
      apply hfuel <;> unfold wrapInt32 <;> omega
    · simp only [hn, if_false]
      exact hfuel number hlo hhi
  obtain ⟨s, hs⟩ := hc
  unfold Int32ToString
  simp only [hs]
  exact ⟨_, rfl⟩

/-- C21, the canonical decimal string of every `int32`, evaluated where the
code departs from it.  `Int32ToString(0)` is the empty string, since the loop
body never runs on zero, while the decimal representation of 0 is "0"; so the
first key that `EmitEvent` builds from index 0 is "data", not "data0".  For the
least `int32` the negation wraps and the digits come out as the characters
below `0`.  The two numbers of the test come out right. -/
theorem C21_zero_gives_the_empty_string :
    Int32ToString 0 = some [] ∧
    fmtD 0 = asciiBytes "0" ∧
    (Int32ToString 0).map (fun s => asciiBytes "data" ++ s) = some (asciiBytes "data") ∧
    Int32ToString (-2147483648) = some (asciiBytes "-./,),(-*,(") ∧
    fmtD (-2147483648) = asciiBytes "-2147483648" ∧
    Int32ToString 1223332323 = some (fmtD 1223332323) ∧
    Int32ToString (-1223332323) = some (fmtD (-1223332323)) := by
  decide

/-- The loop of `StringToInt32` asks `IsNumber` only about the runes it is
given. -/
theorem StringToInt32_loop_congr (f g : Int → Bool) (rs : List Int) (num : Int)
    (h : ∀ r ∈ rs, f r = g r) : StringToInt32.loop f rs num = StringToInt32.loop g rs num := by
  induction rs generalizing num with
  | nil => rfl
  | cons v rest ih =>
    have hv : f v = g v := h v (List.mem_cons_self v rest)
    have hrest : ∀ r ∈ rest, f r = g r := fun r hr => h r (List.mem_cons_of_mem v hr)
    simp only [StringToInt32.loop, hv]
    split
    · rfl
    · split
      · rfl
      · exact ih _ hrest

/-- `StringToInt32` asks `IsNumber` only about the runes after the sign. -/
theorem StringToInt32_congr (f g : Int → Bool) (str : GoString)
    (h : ∀ r ∈ rangeRunes (if str.head? = some 45 then str.tail else str), f r = g r) :
    StringToInt32 f str = StringToInt32 g str := by
  cases str with
  | nil => rfl
  | cons b0 rest =>
    unfold StringToInt32
    by_cases hb : b0 = 45
    · have h2 : ∀ r ∈ rangeRunes rest, f r = g r := by simpa [hb] using h
      simp only [hb, decide_True, if_true]
      rw [StringToInt32_loop_congr f g _ 0 h2]
    · have h1 : ∀ r ∈ rangeRunes (b0 :: rest), f r = g r := by simpa [hb] using h
      simp only [hb, decide_False, if_false, Bool.false_eq_true]
      rw [StringToInt32_loop_congr f g _ 0 h1]

/-- C22, exact parsing with an error outside the `int32` range, evaluated where
the code departs from it, for every `unicode.IsNumber` that holds of the ASCII
digits.  The string "5000000000" denotes 5000000000, which is above the
`int32` range, and `StringToInt32` returns 705032704 with a `nil` error: the
product `500000000 * 10` wraps to a value that is not below `500000000`, so the
test `addResult < num` does not see the overflow.  The string "-2147483648"
denotes the least `int32`, and `StringToInt32` returns the error "too big".
The three strings of the test come out right. -/
theorem C22_overflow_returns_a_wrapped_value (IsNumber : Int → Bool)
    (hdigit : ∀ r : Int, 48 ≤ r → r ≤ 57 → IsNumber r = true) :
    (isDecimalString (asciiBytes "5000000000") = true ∧
      denotedInt (asciiBytes "5000000000") = 5000000000 ∧
      StringToInt32 IsNumber (asciiBytes "5000000000") = some (705032704, none)) ∧
    (isDecimalString (asciiBytes "-2147483648") = true ∧
      denotedInt (asciiBytes "-2147483648") = -2147483648 ∧
      StringToInt32 IsNumber (asciiBytes "-2147483648") = some (0, some "too big")) ∧
    StringToInt32 IsNumber (asciiBytes "1630662366") = some (1630662366, none) ∧
    StringToInt32 IsNumber (asciiBytes "1223124314") = some (1223124314, none) ∧
    StringToInt32 IsNumber (asciiBytes "-1223124314") = some (-1223124314, none) := by
  have key : ∀ s : GoString,
      (∀ r ∈ rangeRunes (if s.head? = some 45 then s.tail else s), 48 ≤ r ∧ r ≤ 57) →
      StringToInt32 IsNumber s = StringToInt32 asciiIsNumber s := by
    intro s hs
    apply StringToInt32_congr
    intro r hr
    have hr2 := hs r hr
    rw [hdigit r hr2.1 hr2.2]
    simp [asciiIsNumber, hr2.1, hr2.2]
  refine ⟨⟨by decide, by decide, ?_⟩, ⟨by decide, by decide, ?_⟩, ?_, ?_, ?_⟩
  · rw [key _ (by decide)]; decide
  · rw [key _ (by decide)]; decide
  · rw [key _ (by decide)]; decide
  · rw [key _ (by decide)]; decide
  · rw [key _ (by decide)]; decide

/-- C22 with the digits as the only numbers. -/
theorem C22_overflow_returns_a_wrapped_value_witness :
    StringToInt32 asciiIsNumber (asciiBytes "5000000000") = some (705032704, none) ∧
    StringToInt32 asciiIsNumber (asciiBytes "-2147483648") = some (0, some "too big") :=
  have h := C22_overflow_returns_a_wrapped_value asciiIsNumber
    (fun r h1 h2 => by simp [asciiIsNumber, h1, h2])
  ⟨h.1.2.2, h.2.1.2.2⟩

/-! ## Claim C24: the validation of `RestoreBlock` -/

/-- Below the greatest `uint64`, stepping down by one and stepping up by one are
the same relation. -/
theorem subUint64_one_iff (a b : Nat) (ha : a < 18446744073709551615)
    (hb : b < 18446744073709551615) : a = subUint64 b 1 ↔ b = a + 1 := by
  unfold subUint64
  omega

/-- The loop accepts exactly the lists that start at `cur` and step down by
one, when no height is the greatest `uint64`. -/
theorem RestoreBlock_continuous_iff (rs : List Nat) (cur : Nat)
    (hmax : ∀ h ∈ rs, h < 18446744073709551615) (hne : rs ≠ []) :
    RestoreBlock.continuous rs cur = true ↔
      rs.head? = some cur ∧ List.Chain' (fun a b => a = b + 1) rs := by
  induction rs generalizing cur with
  | nil => exact absurd rfl hne
  | cons h rest ih =>
    have hh : h < 18446744073709551615 := hmax h (List.mem_cons_self h rest)
    have hrest : ∀ x ∈ rest, x < 18446744073709551615 :=
      fun x hx => hmax x (List.mem_cons_of_mem h hx)
    by_cases hc : h = cur
    · subst hc
      cases rest with
      | nil => simp [RestoreBlock.continuous]
      | cons h2 rest2 =>
        have h2lt : h2 < 18446744073709551615 := hrest h2 (List.mem_cons_self h2 rest2)
        have ih2 := ih (subUint64 h 1) hrest (by simp)
        have hstep : h2 = subUint64 h 1 ↔ h = h2 + 1 := subUint64_one_iff h2 h h2lt hh
        have e : RestoreBlock.continuous (h :: h2 :: rest2) h =
            RestoreBlock.continuous (h2 :: rest2) (subUint64 h 1) := by
          rw [RestoreBlock.continuous]
          simp
        rw [e, ih2]
        simp only [List.head?_cons, List.chain'_cons, true_and]
        simp only [List.head?_cons, Option.some.injEq]
        constructor
        · rintro ⟨e, hch⟩
          exact ⟨hstep.mp e, hch⟩
        · rintro ⟨e, hch⟩
          exact ⟨hstep.mpr e, hch⟩
    · simp [RestoreBlock.continuous, hc]

/-- When no height is the greatest `uint64`, the validation of `RestoreBlock`
passes a non-empty list exactly when its last height is the archived pivot and
each height is one more than the height before it. -/
theorem RestoreBlock_validate_iff (archivedPivot : Nat) (heights : List Nat)
    (hne : heights ≠ []) (hmax : ∀ h ∈ heights, h < 18446744073709551615) :
    RestoreBlock.validate archivedPivot heights = none ↔
      heights.getLast? = some archivedPivot ∧ List.Chain' (fun a b => b = a + 1) heights := by
  obtain ⟨l, hl⟩ : ∃ l, heights.getLast? = some l := by
    cases h : heights.getLast? with
    | none => exact absurd (List.getLast?_eq_none_iff.mp h) hne
    | some l => exact ⟨l, rfl⟩
  have hrev : ∀ h ∈ heights.reverse, h < 18446744073709551615 :=
    fun h hh => hmax h (List.mem_reverse.mp hh)
  have hrne : heights.reverse ≠ [] := by simpa using hne
  have hc := RestoreBlock_continuous_iff heights.reverse l hrev hrne
  have hflip : List.Chain' (fun a b => a = b + 1) heights.reverse ↔
      List.Chain' (fun a b => b = a + 1) heights := by
    rw [List.chain'_reverse]
    rfl
  have hhead : heights.reverse.head? = some l := by simpa using hl
  unfold RestoreBlock.validate
  simp only [hl]
  by_cases hp : l = archivedPivot
  · subst hp
    by_cases hcont : RestoreBlock.continuous heights.reverse l = true
    · have := hc.mp hcont
      simp [hcont, hflip.mp this.2]
    · have hn : ¬ List.Chain' (fun a b => b = a + 1) heights := by
        intro hch
        exact hcont (hc.mpr ⟨hhead, hflip.mpr hch⟩)
      simp [hcont, hn]
  · simp [hp]

/-- C24, continuity in the natural numbers, evaluated where the code departs
from it.  With the archived pivot at 0, the two heights 18446744073709551615
and 0 pass the validation: the last height is the pivot, and the expected
height `curHeight - 1` wraps from 0 to the greatest `uint64`.  As natural
numbers 0 is not one more than 18446744073709551615.  The run 3, 4, 5 passes
with the pivot at 5, and 3, 5 does not. -/
theorem C24_wrapped_heights_pass_validation :
    RestoreBlock.validate 0 [18446744073709551615, 0] = none ∧
    ¬ List.Chain' (fun a b => b = a + 1) [18446744073709551615, 0] ∧
    RestoreBlock.validate 5 [3, 4, 5] = none ∧
    RestoreBlock.validate 5 [3, 5] = some "invalidate restore blocks" ∧
    RestoreBlock.validate 6 [3, 4, 5] =
      some "restore block height not match last archived height" := by
  refine ⟨by decide, by simp, by decide, by decide, by decide⟩

/-! ## Claim C27: reading a cached consensus state back -/

/-- A key reads back what was stored under it. -/
theorem heightLookup_heightSet_self (m : List (Nat × ConsensusState)) (k : Nat)
    (v : ConsensusState) : heightLookup (heightSet m k v) k = some v := by
  induction m with
  | nil => simp [heightSet, heightLookup]
  | cons p rest ih =>
    obtain ⟨k1, v1⟩ := p
    by_cases h : k1 = k
    · simp [heightSet, heightLookup, h]
    · simp [heightSet, heightLookup, h, ih]

/-- Deleting keys leaves the lookup of a key that is kept. -/
theorem heightLookup_filter (m : List (Nat × ConsensusState)) (q : Nat → Bool) (k : Nat)
    (hk : q k = true) : heightLookup (m.filter (fun p => q p.1)) k = heightLookup m k := by
  induction m with
  | nil => rfl
  | cons p rest ih =>
    obtain ⟨k1, v1⟩ := p
    by_cases h : k1 = k
    · subst h
      simp [List.filter, hk, heightLookup]
    · by_cases hq : q k1 = true
      · simp [List.filter, hq, heightLookup, h, ih]
      · simp [List.filter, hq, heightLookup, h, ih]

/-- A state whose height is at least the cache size reads back right after it
is added. -/
theorem addConsensusState_get_of_size_le (cache : consensusStateCache) (st : ConsensusState)
    (hpos : 0 < st.Height) (hsize : cache.size ≤ st.Height) :
    (cache.addConsensusState (some st)).getConsensusState st.Height = some st := by
  have hnot : ¬ st.Height ≤ 0 := by omega
  have hkeep : (fun k => ! decide (k < subUint64 st.Height cache.size)) st.Height = true := by
    have : ¬ st.Height < subUint64 st.Height cache.size := by
      unfold subUint64
      omega
    simp [this]
  simp only [consensusStateCache.addConsensusState, hnot, if_false,
    consensusStateCache.getConsensusState, consensusStateCache.gc]
  rw [heightLookup_filter _ (fun k => ! decide (k < subUint64 st.Height cache.size)) _ hkeep]
  exact heightLookup_heightSet_self _ _ _

/-- Right after a state of height `h` is added, the cache holds no state under
a key below `h - size`, the difference taken in the natural numbers. -/
theorem addConsensusState_no_older_state (cache : consensusStateCache) (st : ConsensusState)
    (hpos : 0 < st.Height) (hlt : st.Height < 18446744073709551616) (k : Nat)
    (v : ConsensusState) (hmem : (k, v) ∈ (cache.addConsensusState (some st)).cache) :
    ¬ k < st.Height - cache.size := by
  have hnot : ¬ st.Height ≤ 0 := by omega
  simp only [consensusStateCache.addConsensusState, hnot, if_false,
    consensusStateCache.gc, List.mem_filter, Bool.not_eq_true', decide_eq_false_iff_not]
    at hmem
  have h2 := hmem.2
  unfold subUint64 at h2
  omega

/-- C27, reading back the state just added, evaluated where the code departs
from it.  In a new cache of size 10, right after a state of height 5 is added,
`getConsensusState(5)` returns `nil`: the bound `height - cache.size` of `gc` is
a `uint64` difference, which wraps for a height below the size, and every key
below it is deleted, the new one too.  A state of height 10 reads back. -/
theorem C27_state_below_the_cache_size_is_dropped :
    ((newConsensusStateCache 10).addConsensusState
      (some ⟨[110], 5, 0, 0, -1, -1⟩)).getConsensusState 5 = none ∧
    ((newConsensusStateCache 10).addConsensusState (some ⟨[110], 5, 0, 0, -1, -1⟩)).cache = [] ∧
    subUint64 5 10 = 18446744073709551611 ∧
    ((newConsensusStateCache 10).addConsensusState
      (some ⟨[110], 10, 0, 0, -1, -1⟩)).getConsensusState 10 =
        some ⟨[110], 10, 0, 0, -1, -1⟩ := by
  decide

/-! ## Claim C25: the length of a contract database name -/

/-- C25, a name of at most 64 characters without a slice fault, evaluated
where the code departs from it, with no prefix and a chain identifier of 60
characters.  For the contract name `abc` the untruncated name has 72
characters and `getContractDbName` faults: the slice of the last 4 characters
of a name of 3 characters is out of range.  For the system contract
`CHAIN_CONFIG` it returns the shared name of `getDbName`, `statedb_` followed
by the chain identifier, of 68 characters and not cut.  For the contract name
`contract_fact_0001` it returns 64 characters: 50 of the untruncated name, 10
of the digest and `0001`. -/
theorem C25_short_name_faults_and_system_name_is_not_cut :
    ((untruncatedDbName ⟨[]⟩ (List.replicate 60 99) (asciiBytes "abc")).length = 72 ∧
      sampleSystemContract (asciiBytes "abc") = false ∧
      getContractDbName sampleSystemContract sampleSha256Hex ⟨[]⟩ (List.replicate 60 99)
        (asciiBytes "abc") = none) ∧
    ((untruncatedDbName ⟨[]⟩ (List.replicate 60 99) (asciiBytes "CHAIN_CONFIG")).length > 64 ∧
      getContractDbName sampleSystemContract sampleSha256Hex ⟨[]⟩ (List.replicate 60 99)
        (asciiBytes "CHAIN_CONFIG") = some (getDbName ⟨[]⟩ (List.replicate 60 99)) ∧
      (getContractDbName sampleSystemContract sampleSha256Hex ⟨[]⟩ (List.replicate 60 99)
        (asciiBytes "CHAIN_CONFIG")).map List.length = some 68) ∧
    getContractDbName sampleSystemContract sampleSha256Hex ⟨[]⟩ (List.replicate 60 99)
        (asciiBytes "contract_fact_0001") =
      some ((untruncatedDbName ⟨[]⟩ (List.replicate 60 99)
          (asciiBytes "contract_fact_0001")).take 50 ++ List.replicate 10 97
        ++ asciiBytes "0001") := by
  decide

/-- Where `getContractDbName` is right: for a contract name that is not a
system contract, and that has at least 4 characters when the untruncated name
has more than 64, with a hex digest of 64 characters, it returns without a
slice fault a name of at most 64 characters: the untruncated name when that
has at most 64 characters, and otherwise its first 50 characters, then the
first 10 characters of the hex digest of the untruncated name, then the last 4
characters of the contract name.  For every system contract it returns the
shared name of `getDbName`. -/
theorem getContractDbName_fits (isSystemContract : GoString → Bool)
    (sha256Hex : GoString → GoString) (dbConfig : SqlDbConfig) (chainId contractName : GoString)
    (hsha : ∀ x, (sha256Hex x).length = 64) (hsys : isSystemContract contractName = false)
    (hlen : (untruncatedDbName dbConfig chainId contractName).length > 64 →
      4 ≤ contractName.length) :
    (∃ r, getContractDbName isSystemContract sha256Hex dbConfig chainId contractName = some r ∧
      r.length ≤ 64 ∧
      ((untruncatedDbName dbConfig chainId contractName).length ≤ 64 →
        r = untruncatedDbName dbConfig chainId contractName) ∧
      ((untruncatedDbName dbConfig chainId contractName).length > 64 →
        r = (untruncatedDbName dbConfig chainId contractName).take 50 ++
          (sha256Hex (untruncatedDbName dbConfig chainId contractName)).take 10 ++
          contractName.drop (contractName.length - 4))) ∧
    (∀ name, isSystemContract name = true →
      getContractDbName isSystemContract sha256Hex dbConfig chainId name =
        some (getDbName dbConfig chainId)) := by
  refine ⟨?_, fun name hn => by simp [getContractDbName, hn]⟩
  by_cases hlong : (untruncatedDbName dbConfig chainId contractName).length > 64
  · have hlen4 : 4 ≤ contractName.length := hlen hlong
    have h50 : sliceStr (untruncatedDbName dbConfig chainId contractName) 0 50 =
        some ((untruncatedDbName dbConfig chainId contractName).take 50) := by
      have : (50 : Int) ≤ ((untruncatedDbName dbConfig chainId contractName).length : Int) := by
        omega
      simp [sliceStr, this]
    have h10 : sliceStr (sha256Hex (untruncatedDbName dbConfig chainId contractName)) 0 10 =
        some ((sha256Hex (untruncatedDbName dbConfig chainId contractName)).take 10) := by
      simp [sliceStr, hsha]
    have h4 : sliceStr contractName ((contractName.length : Int) - 4) contractName.length =
        some (contractName.drop (contractName.length - 4)) := by
      have e : ((contractName.length : Int) - 4).toNat = contractName.length - 4 := by omega
      have c1 : (0 : Int) ≤ (contractName.length : Int) - 4 := by omega
      simp [sliceStr, c1, e]
    refine ⟨_, ?_, ?_, fun hle => absurd hlong (by omega), fun _ => rfl⟩
    · have hl2 : (dbConfig.DbPrefix ++ asciiBytes "statedb_" ++ chainId ++ asciiBytes "_"
          ++ contractName).length > 64 := hlong
      unfold getContractDbName
      simp only [hsys, Bool.false_eq_true, if_false, hl2, if_true]
      have h50b := h50
      have h10b := h10
      unfold untruncatedDbName at h50b h10b
      rw [h50b, h10b, h4]
      rfl
    · simp only [List.length_append, List.length_take, List.length_drop, hsha]
      omega
  · have hle : (untruncatedDbName dbConfig chainId contractName).length ≤ 64 := by omega
    refine ⟨untruncatedDbName dbConfig chainId contractName, ?_, hle, fun _ => rfl,
      fun h => absurd h hlong⟩
    have hl2 : ¬ (dbConfig.DbPrefix ++ asciiBytes "statedb_" ++ chainId ++ asciiBytes "_"
        ++ contractName).length > 64 := hlong
    unfold getContractDbName
    simp only [hsys, Bool.false_eq_true, if_false, hl2]
    rfl

/-! ## Claim C26: the shares of a delegated amount -/

/-- The floor of a quotient of integers with a positive divisor is the
Euclidean quotient. -/
theorem floor_div_eq_ediv (n t : Int) (ht : 0 < t) : ⌊((n : ℚ) / (t : ℚ))⌋ = n / t := by
  obtain ⟨d, hd⟩ := Int.eq_ofNat_of_zero_le (le_of_lt ht)
  subst hd
  exact Rat.floor_intCast_div_natCast n d

/-- `calcShareByAmount` on three arguments that parse. -/
theorem calcShareByAmount_of_parsed (SetString : GoString → Option Int)
    (tokens shares amount : GoString) (t s a : Int) (ht : SetString tokens = some t)
    (hs : SetString shares = some s) (ha : SetString amount = some a) :
    calcShareByAmount SetString tokens shares amount =
      if t = 0 ∧ s = 0 then Except.ok a
      else if t > 0 then Except.ok ((s * a) / t)
      else if t < 0 then
        Except.error ("validator's token amount is less than 0, token amount: " ++ toString t)
      else Except.ok 0 := by
  simp [calcShareByAmount, stringToBigInt, ht, hs, ha]

/-- C26 as stated fails in its last part: a validator with 2 tokens and 1 share
who is delegated the amount 1, which `assertStringAmountOverZero` accepts, gets
`1 * 1 / 2 = 0` shares and no error. -/
theorem C26_counterexample_positive_amount_gives_zero_shares :
    assertStringAmountOverZero setStringBase10 (asciiBytes "1") = true ∧
    setStringBase10 (asciiBytes "1") = some 1 ∧
    setStringBase10 (asciiBytes "2") = some 2 ∧
    calcShareByAmount setStringBase10 (asciiBytes "2") (asciiBytes "1") (asciiBytes "1") =
      Except.ok 0 := by
  refine ⟨by decide, by decide, by decide, ?_⟩
  rw [calcShareByAmount_of_parsed setStringBase10 _ _ _ 2 1 1 (by decide) (by decide)
    (by decide)]
  rfl

/-- C26, amended: when the three arguments parse to `t`, `s` and `a`,
`calcShareByAmount` returns `a` for `t = 0` and `s = 0`, the floor of
`s * a / t` for `t > 0` and an error for `t < 0`; for `t > 0` and non-negative
`s` and `a` the shares returned are zero exactly when `s * a < t`.  When one of
three arguments does not parse it returns an error. -/
theorem C26_share_formula (SetString : GoString → Option Int)
    (tokens shares amount : GoString) (t s a : Int) (ht : SetString tokens = some t)
    (hs : SetString shares = some s) (ha : SetString amount = some a) :
    (t = 0 → s = 0 → calcShareByAmount SetString tokens shares amount = Except.ok a) ∧
    (0 < t → calcShareByAmount SetString tokens shares amount =
      Except.ok (Int.fdiv (s * a) t)) ∧
    (0 < t → calcShareByAmount SetString tokens shares amount =
      Except.ok ⌊(((s * a : Int) : ℚ) / (t : ℚ))⌋) ∧
    (t < 0 → ∃ e, calcShareByAmount SetString tokens shares amount = Except.error e) ∧
    (0 < t → 0 ≤ s → 0 ≤ a →
      (calcShareByAmount SetString tokens shares amount = Except.ok 0 ↔ s * a < t)) ∧
    (∀ x y z : GoString, SetString x = none ∨ SetString y = none ∨ SetString z = none →
      ∃ e, calcShareByAmount SetString x y z = Except.error e) := by
  have hcalc := calcShareByAmount_of_parsed SetString tokens shares amount t s a ht hs ha
  refine ⟨?_, ?_, ?_, ?_, ?_, ?_⟩
  · intro h1 h2
    rw [hcalc]
    simp [h1, h2]
  · intro h1
    have hne : ¬ (t = 0 ∧ s = 0) := fun h => by omega
    rw [hcalc, Int.fdiv_eq_ediv _ (le_of_lt h1)]
    simp [hne, h1]
  · intro h1
    have hne : ¬ (t = 0 ∧ s = 0) := fun h => by omega
    rw [hcalc, floor_div_eq_ediv _ _ h1]
    simp [hne, h1]
  · intro h1
    have hne : ¬ (t = 0 ∧ s = 0) := fun h => by omega
    have hn2 : ¬ t > 0 := by omega
    rw [hcalc]
    simp only [hne, hn2, h1, if_false, if_true]
    exact ⟨_, rfl⟩
  · intro h1 h2 h3
    have hne : ¬ (t = 0 ∧ s = 0) := fun h => by omega
    have hsa : 0 ≤ s * a := mul_nonneg h2 h3
    rw [hcalc]
    simp only [hne, h1, if_false, if_true, gt_iff_lt, Except.ok.injEq]
    constructor
    · intro h0
      by_contra hge
      have hle : t ≤ s * a := not_lt.mp hge
      have h1le : 1 ≤ (s * a) / t := by
        have := Int.ediv_le_ediv h1 hle
        rwa [Int.ediv_self (ne_of_gt h1)] at this
      omega
    · intro hlt
      exact Int.ediv_eq_zero_of_lt hsa hlt
  · intro x y z h
    unfold calcShareByAmount stringToBigInt
    rcases h with h | h | h
    · simp only [h]
      exact ⟨_, rfl⟩
    · cases hx : SetString x with
      | none => exact ⟨_, rfl⟩
      | some vx =>
        simp only [h]
        exact ⟨_, rfl⟩
    · cases hx : SetString x with
      | none => exact ⟨_, rfl⟩
      | some vx =>
        cases hy : SetString y with
        | none => exact ⟨_, rfl⟩
        | some vy =>
          simp only [h]
          exact ⟨_, rfl⟩

/-- C26, amended, for 10 tokens, 4 shares and the amount 5: 2 shares. -/
theorem C26_share_formula_witness :
    setStringBase10 (asciiBytes "10") = some 10 ∧
    setStringBase10 (asciiBytes "4") = some 4 ∧
    setStringBase10 (asciiBytes "5") = some 5 ∧
    calcShareByAmount setStringBase10 (asciiBytes "10") (asciiBytes "4") (asciiBytes "5") =
      Except.ok (Int.fdiv (4 * 5) 10) :=
  ⟨by decide, by decide, by decide,
    (C26_share_formula setStringBase10 (asciiBytes "10") (asciiBytes "4") (asciiBytes "5")
      10 4 5 (by decide) (by decide) (by decide)).2.1 (by decide)⟩

/-! ## Claim C29: the guards of the memory accesses -/

/-- What `safeLoad` does guarantee: the byte at `base` is inside the memory. -/
theorem safeLoad_first_byte (vm vm1 : VirtualMachine) (base : Nat)
    (h : safeLoad vm base = some vm1) : vm1 = vm ∧ base < vm1.Memory.length := by
  unfold safeLoad at h
  by_cases hb : base ≥ vm.Memory.length
  · simp [hb] at h
  · simp only [hb, if_false, Option.some.injEq] at h
    subst h
    exact ⟨rfl, by omega⟩

/-- C29, multi-byte accesses within bounds after the guards, evaluated where
the code departs from it, with pages of 65536 bytes.  On a memory of 8 bytes
`safeLoad` passes the address 7, but the 4 bytes of `i32Load` and the 8 bytes of
`i64Load` at 7 do not lie inside the memory, and the two loads then fail on the
slice.  `safeStore` at the address 8 returns with the memory grown to 9 bytes,
one byte past the address, so the 4 bytes of `i32Store` and the 8 bytes of
`i64Store` at 8 do not lie inside it either, and the two stores fail.  At the
address 4 the 4-byte load and store go through. -/
theorem C29_guards_check_one_byte_only :
    (safeLoad ⟨List.replicate 8 0, none, [], 0⟩ 7 = some ⟨List.replicate 8 0, none, [], 0⟩ ∧
      accessInBounds ⟨List.replicate 8 0, none, [], 0⟩ 7 4 = false ∧
      accessInBounds ⟨List.replicate 8 0, none, [], 0⟩ 7 8 = false ∧
      i32Load ⟨List.replicate 8 0, none, [], 0⟩ 7 = none ∧
      i64Load ⟨List.replicate 8 0, none, [], 0⟩ 7 = none) ∧
    (safeStore 65536 ⟨List.replicate 8 0, none, [], 0⟩ 8 =
        some ⟨List.replicate 9 0, none, [], 0⟩ ∧
      accessInBounds ⟨List.replicate 9 0, none, [], 0⟩ 8 4 = false ∧
      accessInBounds ⟨List.replicate 9 0, none, [], 0⟩ 8 8 = false ∧
      i32Store 65536 ⟨List.replicate 8 0, none, [], 0⟩ 1 8 = none ∧
      i64Store 65536 ⟨List.replicate 8 0, none, [], 0⟩ 1 8 = none) ∧
    (i32Load ⟨List.replicate 8 0, none, [], 0⟩ 4 = some ⟨List.replicate 8 0, none, [0], 0⟩ ∧
      i32Store 65536 ⟨List.replicate 8 0, none, [], 0⟩ 258 4 =
        some ⟨[0, 0, 0, 0, 2, 1, 0, 0], none, [], 0⟩) := by
  decide

/-! ## Claim C30: `memoryGrow` and the declared maximum -/

/-- Where neither the sum nor the product leaves the `uint32` range,
`memoryGrow` rejects exactly the requests above the declared maximum, and
otherwise pushes the number of pages and appends `n * vmPageSize` bytes. -/
theorem memoryGrow_of_no_wrap (vmPageSize growGas : Nat) (vm : VirtualMachine) (n m : Nat)
    (hmax : vm.Max = some m) (hn : n < 4294967296)
    (hsum : n + vm.Memory.length / vmPageSize < 4294967296)
    (hprod : n * vmPageSize < 4294967296) :
    (n + vm.Memory.length / vmPageSize > m →
      (memoryGrow vmPageSize growGas vm n).OperandStack =
          18446744073709551615 :: vm.OperandStack ∧
        (memoryGrow vmPageSize growGas vm n).Memory = vm.Memory) ∧
    (n + vm.Memory.length / vmPageSize ≤ m →
      (memoryGrow vmPageSize growGas vm n).OperandStack =
          (vm.Memory.length / vmPageSize) :: vm.OperandStack ∧
        (memoryGrow vmPageSize growGas vm n).Memory =
          vm.Memory ++ List.replicate (n * vmPageSize) 0) := by
  have hp : vm.Memory.length / vmPageSize < 4294967296 := by omega
  have e1 : n % 4294967296 = n := Nat.mod_eq_of_lt hn
  have e2 : (vm.Memory.length / vmPageSize) % 4294967296 = vm.Memory.length / vmPageSize :=
    Nat.mod_eq_of_lt hp
  have e3 : (n + vm.Memory.length / vmPageSize) % 4294967296 =
      n + vm.Memory.length / vmPageSize := Nat.mod_eq_of_lt hsum
  have e4 : (n * vmPageSize) % 4294967296 = n * vmPageSize := Nat.mod_eq_of_lt hprod
  constructor
  · intro h
    have hm : m < n + vm.Memory.length / vmPageSize := h
    simp [memoryGrow, hmax, e1, e2, e3, hm]
  · intro h
    have hm : ¬ m < n + vm.Memory.length / vmPageSize := by omega
    simp [memoryGrow, hmax, e1, e2, e3, e4, hm]

/-- A request that the comparison of `memoryGrow` lets through: the number of
pages is pushed and the wrapped product of bytes is appended. -/
theorem memoryGrow_accepted (vmPageSize growGas : Nat) (vm : VirtualMachine) (popped max : Nat)
    (hmax : vm.Max = some max)
    (hacc : ¬ ((popped % 4294967296 + (vm.Memory.length / vmPageSize) % 4294967296)
      % 4294967296 > max)) :
    (memoryGrow vmPageSize growGas vm popped).OperandStack =
        (vm.Memory.length / vmPageSize) :: vm.OperandStack ∧
      (memoryGrow vmPageSize growGas vm popped).Memory =
        vm.Memory ++ List.replicate ((popped % 4294967296 * vmPageSize) % 4294967296) 0 := by
  unfold memoryGrow
  simp only [hmax, hacc, decide_False, Bool.false_eq_true, if_false, and_self]

/-- C30, growth within the declared maximum, evaluated where the code departs
from it, with pages of 65536 bytes, any gas price and any memory `mem` of one
page.  With a maximum of 2 pages, the request for 4294967295 pages is not
rejected, as the `uint32` sum `n + 1` wraps to 0: `memoryGrow` pushes 1 and
the memory grows by 4294901760 bytes to 65536 pages.  With a maximum of 70000
pages, the request for 65536 pages is within the maximum and is answered with
1, but the memory stays as it is, as the `uint32` product `n * vmPageSize`
wraps to 0. -/
theorem C30_grow_wraps_past_the_maximum (growGas : Nat) (mem : List Byte)
    (hlen : mem.length = 65536) :
    ((memoryGrow 65536 growGas ⟨mem, some 2, [], 0⟩ 4294967295).OperandStack = [1] ∧
      (memoryGrow 65536 growGas ⟨mem, some 2, [], 0⟩ 4294967295).Memory.length = 4294967296 ∧
      4294967296 / 65536 = 65536 ∧ 2 < 65536 ∧ 2 < 1 + 4294967295) ∧
    ((memoryGrow 65536 growGas ⟨mem, some 70000, [], 0⟩ 65536).OperandStack = [1] ∧
      (memoryGrow 65536 growGas ⟨mem, some 70000, [], 0⟩ 65536).Memory = mem ∧
      1 + 65536 ≤ 70000 ∧ 65536 * 65536 = 4294967296) := by
  have hpages : mem.length / 65536 = 1 := by rw [hlen]
  have h1 := memoryGrow_accepted 65536 growGas ⟨mem, some 2, [], 0⟩ 4294967295 2 rfl
    (by
      show ¬ ((4294967295 % 4294967296 + (mem.length / 65536) % 4294967296) % 4294967296 > 2)
      rw [hpages]
      decide)
  have h2 := memoryGrow_accepted 65536 growGas ⟨mem, some 70000, [], 0⟩ 65536 70000 rfl
    (by
      show ¬ ((65536 % 4294967296 + (mem.length / 65536) % 4294967296) % 4294967296 > 70000)
      rw [hpages]
      decide)
  have hz : (65536 % 4294967296 * 65536) % 4294967296 = 0 := by decide
  have hg : (4294967295 % 4294967296 * 65536) % 4294967296 = 4294901760 := by decide
  refine ⟨⟨?_, ?_, by decide, by decide, by decide⟩, ⟨?_, ?_, by decide, by decide⟩⟩
  · rw [h1.1]
    show [mem.length / 65536] = [1]
    rw [hpages]
  · rw [h1.2, List.length_append, List.length_replicate, hg]
    show mem.length + 4294901760 = 4294967296
    rw [hlen]
  · rw [h2.1]
    show [mem.length / 65536] = [1]
    rw [hpages]
  · rw [h2.2, hz, List.replicate_zero, List.append_nil]

/-- C30 at the memory of one page of zero bytes. -/
theorem C30_grow_wraps_past_the_maximum_witness :
    (List.replicate 65536 (0 : Byte)).length = 65536 ∧
    (memoryGrow 65536 1 ⟨List.replicate 65536 0, some 2, [], 0⟩ 4294967295).OperandStack = [1] ∧
    (memoryGrow 65536 1 ⟨List.replicate 65536 0, some 2, [], 0⟩ 4294967295).Memory.length
      = 4294967296 :=
  have h := C30_grow_wraps_past_the_maximum 1 (List.replicate 65536 0)
    (List.length_replicate 65536 0)
  ⟨List.length_replicate 65536 0, h.1.1, h.1.2.1⟩

/-! ## Where the number conversions are right -/

/-- On a digit, `getChar` is the character of the digit. -/
theorem getChar_digit (d : Nat) (hd : d < 10) : getChar (d : Int) = [digitByte d] := by
  have hw : wrapInt32 ((d : Int) + 48) = (d : Int) + 48 := by
    unfold wrapInt32
    omega
  unfold getChar BASE
  rw [hw, runeToString, if_neg (by omega), if_pos (by omega)]
  have e : ((d : Int) + 48).toNat = 48 + d := by omega
  rw [e]
  rfl

/-- On a positive number the loop of `Int32ToString` puts the digits, most
significant first, before what it has. -/
theorem Int32ToString_loop_digits (fuel c : Nat) (res : GoString) (h : c < 10 ^ fuel) :
    Int32ToString.loop fuel (c : Int) res =
      some ((Nat.digits 10 c).reverse.map digitByte ++ res) := by
  induction fuel generalizing c res with
  | zero =>
    have hc : c = 0 := by simpa using h
    subst hc
    simp [Int32ToString.loop]
  | succ f ih =>
    by_cases hc : c = 0
    · subst hc
      simp [Int32ToString.loop]
    · have hpos : 0 < c := Nat.pos_of_ne_zero hc
      have hci : (c : Int) ≠ 0 := by omega
      have hdiv : Int.tdiv (c : Int) 10 = ((c / 10 : Nat) : Int) := by
        rw [Int.tdiv_eq_ediv (by omega) (by omega)]
        norm_cast
      have hmod : Int.tmod (c : Int) 10 = ((c % 10 : Nat) : Int) := by
        rw [Int.tmod_eq_emod (by omega) (by omega)]
        norm_cast
      have hlt : c / 10 < 10 ^ f := by
        rw [pow_succ] at h
        omega
      rw [Int32ToString.loop]
      simp only [hci, if_false]
      rw [hdiv, hmod, ih (c / 10) _ hlt, getChar_digit (c % 10) (Nat.mod_lt c (by omega)),
        Nat.digits_def' (by omega) hpos]
      simp

/-- `Int32ToString` is right on every `int32` but zero and the least one. -/
theorem Int32ToString_canonical (number : Int) (hne : number ≠ 0)
    (hlo : -2147483648 < number) (hhi : number ≤ 2147483647) :
    Int32ToString number = some (canonicalDecimal number) := by
  have hfuel : number.natAbs < 10 ^ 10 := by omega
  by_cases hn : number < 0
  · have hw : wrapInt32 (-1 * number) = (number.natAbs : Int) := by
      unfold wrapInt32
      omega
    unfold Int32ToString canonicalDecimal
    simp only [hn, if_true, hw, hne, if_false, decide_True]
    rw [Int32ToString_loop_digits 10 number.natAbs [] hfuel]
    have hminus : asciiBytes "-" = [45] := by decide
    simp [hminus]
  · have hw : number = (number.natAbs : Int) := by omega
    unfold Int32ToString canonicalDecimal
    simp only [hn, if_false, hne, decide_False, Bool.false_eq_true]
    conv_lhs => rw [hw]
    rw [Int32ToString_loop_digits 10 number.natAbs [] hfuel]
    simp

/-- A byte below 128 is a rune of its own. -/
theorem decodeRune_ascii (b0 : Byte) (rest : GoString) (h : b0.val < 128) :
    decodeRune (b0 :: rest) = ((b0.val : Int), 1) := by
  have hi : ((b0.val : Nat) : Int) < 128 := Int.ofNat_lt.mpr h
  unfold decodeRune
  exact if_pos hi

/-- The runes of a string of bytes below 128 are its bytes. -/
theorem rangeRunes_go_ascii (fuel : Nat) (s : GoString) (hlen : s.length ≤ fuel)
    (h : ∀ b ∈ s, b.val < 128) :
    rangeRunes.go fuel s = s.map (fun b => (b.val : Int)) := by
  induction fuel generalizing s with
  | zero =>
    have hs : s = [] := List.length_eq_zero.mp (by omega)
    subst hs
    rfl
  | succ f ih =>
    cases s with
    | nil => rfl
    | cons b0 rest =>
      have hb : b0.val < 128 := h b0 (List.mem_cons_self b0 rest)
      have hrest : ∀ b ∈ rest, b.val < 128 := fun b hb => h b (List.mem_cons_of_mem b0 hb)
      have hl : rest.length ≤ f := by simpa using hlen
      rw [rangeRunes.go, decodeRune_ascii b0 rest hb]
      simp [ih rest hl hrest]

/-- The runes of a string of bytes below 128 are its bytes. -/
theorem rangeRunes_ascii (s : GoString) (h : ∀ b ∈ s, b.val < 128) :
    rangeRunes s = s.map (fun b => (b.val : Int)) :=
  rangeRunes_go_ascii s.length s (le_refl _) h

/-- Reading further digits does not lower the number read so far. -/
theorem foldl_digits_ge (ds : List Byte) (hd : ∀ b ∈ ds, 48 ≤ b.val ∧ b.val ≤ 57) (num : Int)
    (h0 : 0 ≤ num) :
    num ≤ ds.foldl (fun acc b => acc * 10 + ((b.val : Int) - 48)) num := by
  induction ds generalizing num with
  | nil => simp
  | cons b rest ih =>
    have hb := hd b (List.mem_cons_self b rest)
    have hrest : ∀ x ∈ rest, 48 ≤ x.val ∧ x.val ≤ 57 :=
      fun x hx => hd x (List.mem_cons_of_mem b hx)
    have hstep : 0 ≤ num * 10 + ((b.val : Int) - 48) := by omega
    have := ih hrest (num * 10 + ((b.val : Int) - 48)) hstep
    simp only [List.foldl_cons]
    omega

/-- On digits whose number stays within the `int32` range the loop of
`StringToInt32` reads the number. -/
theorem StringToInt32_loop_digits (IsNumber : Int → Bool)
    (hdigit : ∀ r : Int, 48 ≤ r → r ≤ 57 → IsNumber r = true) (ds : List Byte)
    (hd : ∀ b ∈ ds, 48 ≤ b.val ∧ b.val ≤ 57) (num : Int) (h0 : 0 ≤ num)
    (hV : ds.foldl (fun acc b => acc * 10 + ((b.val : Int) - 48)) num ≤ 2147483647) :
    StringToInt32.loop IsNumber (ds.map (fun b => (b.val : Int))) num =
      Except.ok (ds.foldl (fun acc b => acc * 10 + ((b.val : Int) - 48)) num) := by
  induction ds generalizing num with
  | nil => rfl
  | cons b rest ih =>
    have hb := hd b (List.mem_cons_self b rest)
    have hrest : ∀ x ∈ rest, 48 ≤ x.val ∧ x.val ≤ 57 :=
      fun x hx => hd x (List.mem_cons_of_mem b hx)
    have hstep : 0 ≤ num * 10 + ((b.val : Int) - 48) := by omega
    have hge := foldl_digits_ge rest hrest (num * 10 + ((b.val : Int) - 48)) hstep
    simp only [List.foldl_cons] at hV
    have hnum : IsNumber (b.val : Int) = true := hdigit _ (by omega) (by omega)
    have hadd : wrapInt32 (wrapInt32 (num * 10) + getNumber (b.val : Int)) =
        num * 10 + ((b.val : Int) - 48) := by
      unfold getNumber BASE wrapInt32
      omega
    have hnot : ¬ (num * 10 + ((b.val : Int) - 48) < num) := by omega
    simp only [List.map_cons, StringToInt32.loop, hnum, Bool.not_true, Bool.false_eq_true,
      if_false, hadd, hnot, List.foldl_cons]
    exact ih hrest _ hstep hV

/-- `StringToInt32` is right on every decimal string that denotes an `int32`
other than the least one. -/
theorem StringToInt32_in_range (IsNumber : Int → Bool)
    (hdigit : ∀ r : Int, 48 ≤ r → r ≤ 57 → IsNumber r = true) (s : GoString)
    (hs : isDecimalString s = true) (hlo : -2147483647 ≤ denotedInt s)
    (hhi : denotedInt s ≤ 2147483647) :
    StringToInt32 IsNumber s = some (denotedInt s, none) := by
  cases s with
  | nil => simp [isDecimalString] at hs
  | cons b0 rest =>
    by_cases hb : b0 = 45
    · subst hb
      have hd : ∀ b ∈ rest, 48 ≤ b.val ∧ b.val ≤ 57 := by
        simp [isDecimalString] at hs
        intro b hb
        exact hs.2 b hb
      have hascii : ∀ b ∈ rest, b.val < 128 := fun b hb => by have := hd b hb; omega
      have hden : denotedInt (45 :: rest) =
          - rest.foldl (fun acc b => acc * 10 + ((b.val : Int) - 48)) 0 := by
        simp [denotedInt]
      have hV0 := foldl_digits_ge rest hd 0 (le_refl 0)
      have hV : rest.foldl (fun acc b => acc * 10 + ((b.val : Int) - 48)) 0 ≤ 2147483647 := by
        omega
      have hloop := StringToInt32_loop_digits IsNumber hdigit rest hd 0 (le_refl 0) hV
      have hw : wrapInt32 (rest.foldl (fun acc b => acc * 10 + ((b.val : Int) - 48)) 0 * -1) =
          - rest.foldl (fun acc b => acc * 10 + ((b.val : Int) - 48)) 0 := by
        unfold wrapInt32
        omega
      unfold StringToInt32
      simp only [decide_True, if_true]
      rw [rangeRunes_ascii rest hascii, hloop]
      simp only [hw, hden, if_true]
    · have hd : ∀ b ∈ b0 :: rest, 48 ≤ b.val ∧ b.val ≤ 57 := by
        simp [isDecimalString, hb] at hs
        intro b hbm
        rcases List.mem_cons.mp hbm with h | h
        · subst h
          exact hs.1
        · exact hs.2 b h
      have hascii : ∀ b ∈ b0 :: rest, b.val < 128 := fun b hb => by have := hd b hb; omega
      have hden : denotedInt (b0 :: rest) =
          (b0 :: rest).foldl (fun acc b => acc * 10 + ((b.val : Int) - 48)) 0 := by
        simp [denotedInt, hb]
      have hV : (b0 :: rest).foldl (fun acc b => acc * 10 + ((b.val : Int) - 48)) 0
          ≤ 2147483647 := by
        rw [← hden]
        exact hhi
      have hloop := StringToInt32_loop_digits IsNumber hdigit (b0 :: rest) hd 0 (le_refl 0) hV
      unfold StringToInt32
      simp only [hb, decide_False, if_false, Bool.false_eq_true]
      rw [rangeRunes_ascii (b0 :: rest) hascii, hloop]
      simp only [hden]

end Chainmaker
